import Mathlib

/-!
# tcpproxy: a shallow embedding of `tcpproxy.cpp` / `tcpproxy.h`

The proxy is a set of completion handlers run one at a time by a single
thread (`ios.run()` in `main`).  The embedding keeps that shape:

* the heap objects (`client_splice`, `server_splice`) are records stored in
  maps from an object identity to the record; a `bridge` constructed at
  identity `n` constructs its `client_splice` and its `server_splice` under the
  same identity `n` (`csplice_ptr_` and `ssplice_ptr_` are assigned once, in the
  constructor, so `bp->csplice_ptr_` is "the client_splice `bp`");
* the namespace-scope variables and the `acceptor` members are fields of
  `World`;
* every `async_*` call appends an `Operation` (the request together with the
  bound handler) to `World.pending`, the operations outstanding in the
  `io_service`;
* a handler is a function `World → Option World`; `none` is undefined
  behaviour of the C++ program (dereferencing a null `shared_ptr`, advancing an
  iterator beyond `end()`);
* `bridge::start` throws when the forward host is not the text of a numeric
  address: it returns an `Except`, whose `.error` carries the state at the
  throw, and so does `acceptor::handle_accept`, the one handler that calls it;
* `step` is one iteration of the event loop: an outstanding operation
  completes with a result chosen by the environment and its handler runs.  An
  exception that leaves a handler leaves `ios.run()` as well (`main` catches it
  and returns 1), so the event loop has a next state only when the handler
  returns.

Not modelled: the `debug` tracing, the text written to `std::cout`/`std::cerr`,
the mutexes (one thread runs the handlers), and the `catch` branch of
`accept_connections` (a failed allocation).
-/

namespace tcp_proxy

/-- The constant `enum { max_data_length = 8192 }` of tcpproxy.h. -/
def max_data_length : Nat := 8192

/-- The range of `uint64_t`, the type of the two connection counters. -/
def uint64_range : Nat := 2 ^ 64

/-- One of the two sockets of a bridge: `upstream_socket_` of the client_splice
`c`, or `downstream_socket_` of the server_splice `s`. -/
inductive Socket where
  | upstream_socket_ (c : Nat)
  | downstream_socket_ (s : Nat)
  deriving DecidableEq, Repr

/-- One of the two data arrays: `upstream_data_` of the client_splice `c`, or
`downstream_data_` of the server_splice `s`. -/
inductive Buffer where
  | upstream_data_ (c : Nat)
  | downstream_data_ (s : Nat)
  deriving DecidableEq, Repr

/-- A handler as bound by `boost::bind`: the member function together with the
object it is bound to (`this` for the acceptor, `shared_from_this()` of a
splice otherwise). -/
inductive Handler where
  | handle_accept
  | handle_upstream_connect (c : Nat)
  | handle_upstream_write (c : Nat)
  | handle_upstream_read (c : Nat)
  | handle_downstream_write (s : Nat)
  | handle_downstream_read (s : Nat)
  deriving DecidableEq, Repr

/-- An asynchronous request handed to asio.  A data argument
`boost::asio::buffer(array, size)` is a view: the array and a length. -/
inductive Request where
  | async_accept (peer : Socket)
  | async_connect (sock : Socket) (host : String) (port : Nat)
  | async_read_some (sock : Socket) (buf : Buffer) (size : Nat)
  | async_write (sock : Socket) (buf : Buffer) (size : Nat)
  deriving DecidableEq, Repr

/-- An outstanding asynchronous operation: the request and its completion
handler. -/
structure Operation where
  request : Request
  handler : Handler
  deriving DecidableEq, Repr

/-- Socket traffic, recorded for the statements about relayed bytes: the bytes
a completed read stored, and the bytes an `async_write` was handed. -/
inductive Event where
  | read (sock : Socket) (data : List Nat)
  | write (sock : Socket) (data : List Nat)
  deriving DecidableEq, Repr

/-- The members of `class client_splice`: `upstream_socket_` is kept as its
`is_open()` state, a `weak_ptr` as the identity it refers to (`none` when it
was never assigned), the array as a map from index to byte. -/
structure client_splice where
  upstream_socket_ : Bool
  wbp_ : Option Nat
  wssp_ : Option Nat
  upstream_data_ : Nat → Nat

/-- The members of `class server_splice`. -/
structure server_splice where
  downstream_socket_ : Bool
  wbp_ : Option Nat
  wcsp_ : Option Nat
  downstream_data_ : Nat → Nat

/-- The state of the process. -/
structure World where
  /-- the client_splice objects, by identity -/
  clients : Nat → client_splice
  /-- the server_splice objects, by identity -/
  servers : Nat → server_splice
  /-- `std::vector<boost::shared_ptr<bridge> > bridge_instances` -/
  bridge_instances : List Nat
  /-- `uint64_t num_server_connections_` -/
  num_server_connections_ : Nat
  /-- `uint64_t num_client_connections_` -/
  num_client_connections_ : Nat
  /-- `acceptor::session_`, a `weak_ptr<bridge>` -/
  session_ : Option Nat
  /-- `acceptor::upstream_port_` -/
  upstream_port_ : Nat
  /-- `acceptor::upstream_host_` -/
  upstream_host_ : String
  /-- the operations outstanding in the `io_service` -/
  pending : List Operation
  /-- the identity the next `new bridge` receives -/
  next : Nat
  /-- the socket traffic so far -/
  log : List Event

/-! ## Object lifetime

A `bridge` is owned by its entries in `bridge_instances` (every other
reference to it is a `weak_ptr` or a local of a running handler).  A splice
is owned by its bridge and by every outstanding operation whose handler is
bound to it. -/

/-- The handler is bound to the client_splice `c`. -/
def Handler.holds_client (c : Nat) : Handler → Bool
  | .handle_upstream_connect x => x == c
  | .handle_upstream_write x => x == c
  | .handle_upstream_read x => x == c
  | _ => false

/-- The handler is bound to the server_splice `s`. -/
def Handler.holds_server (s : Nat) : Handler → Bool
  | .handle_downstream_write x => x == s
  | .handle_downstream_read x => x == s
  | _ => false

/-- `weak_ptr<bridge>::lock()`. -/
def lock_bridge (w : World) : Option Nat → Option Nat
  | none => none
  | some b => if b ∈ w.bridge_instances then some b else none

/-- `weak_ptr<client_splice>::lock()`. -/
def lock_client (w : World) : Option Nat → Option Nat
  | none => none
  | some c =>
    if c ∈ w.bridge_instances ∨ (w.pending.any fun p => p.handler.holds_client c) = true
    then some c else none

/-- `weak_ptr<server_splice>::lock()`. -/
def lock_server (w : World) : Option Nat → Option Nat
  | none => none
  | some s =>
    if s ∈ w.bridge_instances ∨ (w.pending.any fun p => p.handler.holds_server s) = true
    then some s else none

/-! ## The asio requests -/

/-- The contents of a data array. -/
def World.buffer (w : World) : Buffer → Nat → Nat
  | .upstream_data_ c => (w.clients c).upstream_data_
  | .downstream_data_ s => (w.servers s).downstream_data_

/-- The bytes `boost::asio::buffer(array, size)` views: the first `size`
bytes of the array, in array order. -/
def World.view (w : World) (buf : Buffer) (size : Nat) : List Nat :=
  (List.range size).map (w.buffer buf)

/-- `is_open()` of a socket. -/
def World.is_open (w : World) : Socket → Bool
  | .upstream_socket_ c => (w.clients c).upstream_socket_
  | .downstream_socket_ s => (w.servers s).downstream_socket_

/-- Sets the `is_open()` state of a socket. -/
def World.set_open (w : World) (v : Bool) : Socket → World
  | .upstream_socket_ c =>
    { w with clients := Function.update w.clients c { w.clients c with upstream_socket_ := v } }
  | .downstream_socket_ s =>
    { w with servers := Function.update w.servers s { w.servers s with downstream_socket_ := v } }

/-- `acceptor_.async_accept(peer, handler)`. -/
def async_accept (peer : Socket) (h : Handler) (w : World) : World :=
  { w with pending := w.pending ++ [⟨.async_accept peer, h⟩] }

/-- `sock.async_connect(endpoint, handler)`; asio opens the socket when it is
not open, and leaves it open when the connect fails. -/
def async_connect (sock : Socket) (host : String) (port : Nat) (h : Handler) (w : World) :
    World :=
  let w1 := w.set_open true sock
  { w1 with pending := w1.pending ++ [⟨.async_connect sock host port, h⟩] }

/-- `sock.async_read_some(boost::asio::buffer(buf, size), handler)`. -/
def async_read_some (sock : Socket) (buf : Buffer) (size : Nat) (h : Handler) (w : World) :
    World :=
  { w with pending := w.pending ++ [⟨.async_read_some sock buf size, h⟩] }

/-- `async_write(sock, boost::asio::buffer(buf, size), handler)`; the bytes
handed over are recorded in the log. -/
def async_write (sock : Socket) (buf : Buffer) (size : Nat) (h : Handler) (w : World) :
    World :=
  { w with
    pending := w.pending ++ [⟨.async_write sock buf size, h⟩]
    log := w.log ++ [.write sock (w.view buf size)] }

/-! ## Addresses

`bridge::start` builds the endpoint of the connect with
`ip::address::from_string`, which hands the text to the C library's
`inet_pton`, first as an IPv6 and then as an IPv4 address, and throws when both
refuse it.  The texts accepted are those `inet_pton` of glibc accepts. -/

/-- An address as `boost::asio::ip::address` holds it: the four bytes of an
IPv4 address, or the eight 16-bit groups of an IPv6 address (its scope id is
not kept). -/
inductive ip.address where
  | v4 (bytes : List Nat)
  | v6 (groups : List Nat)
  deriving DecidableEq, Repr

/-- The value of a decimal digit. -/
def ip.digit (ch : Char) : Option Nat :=
  if 48 ≤ ch.toNat ∧ ch.toNat ≤ 57 then some (ch.toNat - 48) else none

/-- The value of a hexadecimal digit, in either case. -/
def ip.xdigit (ch : Char) : Option Nat :=
  if 48 ≤ ch.toNat ∧ ch.toNat ≤ 57 then some (ch.toNat - 48)
  else if 97 ≤ ch.toNat ∧ ch.toNat ≤ 102 then some (ch.toNat - 87)
  else if 65 ≤ ch.toNat ∧ ch.toNat ≤ 70 then some (ch.toNat - 55)
  else none

/-- The dotted-decimal text of an IPv4 address, as `inet_pton(AF_INET, ...)`
reads it: four decimal numbers of at most 255 without a leading zero, separated
by single dots.  `octets` holds the numbers completed so far and `cur` the
number being read (`none` before its first digit). -/
def ip.inet_pton4 : List Char → List Nat → Option Nat → Option (List Nat)
  | [], octets, some v => if octets.length = 3 then some (octets ++ [v]) else none
  | [], _, none => none
  | ch :: src, octets, cur =>
    match ip.digit ch, cur with
    | some d, none => ip.inet_pton4 src octets (some d)
    | some d, some v =>
      if v = 0 ∨ 255 < v * 10 + d then none else ip.inet_pton4 src octets (some (v * 10 + d))
    | none, some v =>
      if ch = '.' ∧ octets.length < 3 then ip.inet_pton4 src (octets ++ [v]) none else none
    | none, none => none

/-- The end of `inet_pton(AF_INET6, ...)`: the group being read is stored, and
a `::` (at index `colonp`) is replaced by as many zero groups as are missing,
at least one; eight groups must result. -/
def ip.inet_pton6_end (tp : List Nat) (colonp : Option Nat) (seen val : Nat) :
    Option (List Nat) :=
  if 0 < seen ∧ 8 ≤ tp.length then none
  else
    let tp1 := if 0 < seen then tp ++ [val] else tp
    match colonp with
    | some i =>
      if tp1.length = 8 then none
      else some (tp1.take i ++ List.replicate (8 - tp1.length) 0 ++ tp1.drop i)
    | none => if tp1.length = 8 then some tp1 else none

/-- The loop of `inet_pton(AF_INET6, ...)` over the text `src`: `curtok` is the
text from the start of the current group, `tp` the groups stored so far,
`colonp` the index at which `::` was seen, `seen` and `val` the number of
hexadecimal digits of the current group and their value.  A group has at most
four digits; a dot makes the current group the start of a dotted-decimal IPv4
address, which ends the text and supplies two groups. -/
def ip.inet_pton6 : List Char → List Char → List Nat → Option Nat → Nat → Nat →
    Option (List Nat)
  | [], _, tp, colonp, seen, val => ip.inet_pton6_end tp colonp seen val
  | ch :: src, curtok, tp, colonp, seen, val =>
    match ip.xdigit ch with
    | some d =>
      if seen = 4 then none else ip.inet_pton6 src curtok tp colonp (seen + 1) (val * 16 + d)
    | none =>
      if ch = ':' then
        if seen = 0 then
          if colonp.isSome then none else ip.inet_pton6 src src tp (some tp.length) 0 0
        else if src = [] ∨ 8 ≤ tp.length then none
        else ip.inet_pton6 src src (tp ++ [val]) colonp 0 0
      else if ch = '.' ∧ tp.length ≤ 6 then
        match ip.inet_pton4 curtok [] none with
        | some [a, b, c, d] => ip.inet_pton6_end (tp ++ [a * 256 + b, c * 256 + d]) colonp 0 0
        | _ => none
      else none

/-- The text of the C string a `std::string` hands to the C library: the
characters before the first NUL. -/
def ip.c_str (str : String) : List Char :=
  str.toList.takeWhile fun ch => ch.toNat != 0

/-- `ip::address_v4::from_string`. -/
def ip.address_v4.from_string (str : String) : Option (List Nat) :=
  ip.inet_pton4 (ip.c_str str) [] none

/-- `ip::address_v6::from_string`: the text before a `%` (which introduces the
scope id) is read by `inet_pton(AF_INET6, ...)`; a text that starts with a
colon must start with `::`. -/
def ip.address_v6.from_string (str : String) : Option (List Nat) :=
  match (ip.c_str str).takeWhile fun ch => ch != '%' with
  | [] => none
  | ':' :: ':' :: src => ip.inet_pton6 (':' :: src) (':' :: src) [] none 0 0
  | ':' :: _ => none
  | src => ip.inet_pton6 src src [] none 0 0

/-- `ip::address::from_string`: the text of an IPv6 address or, failing that,
of an IPv4 address; `none` when it is neither, where the C++ function throws
`boost::system::system_error`. -/
def ip.address.from_string (str : String) : Option ip.address :=
  match ip.address_v6.from_string str with
  | some groups => some (.v6 groups)
  | none => (ip.address_v4.from_string str).map .v4

/-! ## client_splice, server_splice, bridge -/

/-- `client_splice::set_bridge`. -/
def client_splice.set_bridge (c : Nat) (wbp : Option Nat) (w : World) : World :=
  { w with clients := Function.update w.clients c { w.clients c with wbp_ := wbp } }

/-- `client_splice::set_ss`. -/
def client_splice.set_ss (c : Nat) (wssp : Option Nat) (w : World) : World :=
  { w with clients := Function.update w.clients c { w.clients c with wssp_ := wssp } }

/-- `server_splice::set_bridge`. -/
def server_splice.set_bridge (s : Nat) (wbp : Option Nat) (w : World) : World :=
  { w with servers := Function.update w.servers s { w.servers s with wbp_ := wbp } }

/-- `server_splice::set_cs`. -/
def server_splice.set_cs (s : Nat) (wcsp : Option Nat) (w : World) : World :=
  { w with servers := Function.update w.servers s { w.servers s with wcsp_ := wcsp } }

/-- `client_splice::close`: closes `upstream_socket_` when it is open. -/
def client_splice.close (c : Nat) (w : World) : World :=
  if (w.clients c).upstream_socket_ = true then
    w.set_open false (.upstream_socket_ c)
  else w

/-- `server_splice::close`: closes `downstream_socket_` when it is open. -/
def server_splice.close (s : Nat) (w : World) : World :=
  if (w.servers s).downstream_socket_ = true then
    w.set_open false (.downstream_socket_ s)
  else w

/-- The loop of `bridge::close` over `bridge_instances`:
`for (it = begin(); it != end(); ++it) if ((*it).get() == this) erase(it);`.
The first list holds the elements before `it`, the second the elements from
`it` to `end()`.  `erase(it)` moves the later elements one slot down, so `it`
then designates the element that followed, and `++it` steps over it.  When the
erased element was the last one, `it` equals `end()` after the erase and `++it`
moves it beyond `end()`: the test `it != end()` holds and `*it` reads outside
the vector, which is undefined behaviour (`none`). -/
def bridge.erase_loop (self : Nat) : List Nat → List Nat → Option (List Nat)
  | done, [] => some done
  | done, [x] => if x = self then none else some (done ++ [x])
  | done, x :: y :: rest =>
    if x = self then bridge.erase_loop self (done ++ [y]) rest
    else bridge.erase_loop self (done ++ [x]) (y :: rest)

/-- `bridge::close`. -/
def bridge.close (b : Nat) (w : World) : Option World :=
  let w1 := server_splice.close b w
  let w2 := client_splice.close b w1
  (bridge.erase_loop b [] w2.bridge_instances).map fun v => { w2 with bridge_instances := v }

/-- `new bridge(io_service_)`: the bridge constructor, which constructs the two
splices; their sockets are not open, their weak pointers are empty, and the
arrays are not initialised (they keep whatever the memory held). -/
def bridge.new (w : World) : Nat × World :=
  (w.next,
    { w with
      next := w.next + 1
      clients := Function.update w.clients w.next
        { upstream_socket_ := false, wbp_ := none, wssp_ := none,
          upstream_data_ := (w.clients w.next).upstream_data_ }
      servers := Function.update w.servers w.next
        { downstream_socket_ := false, wbp_ := none, wcsp_ := none,
          downstream_data_ := (w.servers w.next).downstream_data_ } })

/-- `bridge::init`. -/
def bridge.init (b : Nat) (bp : Nat) (w : World) : World :=
  server_splice.set_bridge b (some bp) (client_splice.set_bridge b (some bp) w)

/-- `bridge::start`.  The endpoint is built before `async_connect` is called:
when `upstream_host` is not the text of a numeric address, `from_string` throws
and no connect is issued (`.error`, with the state at the throw).  The request
keeps the endpoint as the text of the address and the port. -/
def bridge.start (b : Nat) (upstream_host : String) (upstream_port : Nat) (w : World) :
    Except World World :=
  match ip.address.from_string upstream_host with
  | none => .error w
  | some _ =>
    .ok (async_connect (.upstream_socket_ b) upstream_host upstream_port
      (.handle_upstream_connect b) w)

/-- The `else` branch shared by the five splice handlers:
`if (bp) bp->close(); else close();` with `bp = wbp_.lock()`. -/
def client_splice.on_error (c : Nat) (w : World) : Option World :=
  match lock_bridge w (w.clients c).wbp_ with
  | some bp => bridge.close bp w
  | none => some (client_splice.close c w)

/-- The same branch in the handlers of `server_splice`. -/
def server_splice.on_error (s : Nat) (w : World) : Option World :=
  match lock_bridge w (w.servers s).wbp_ with
  | some bp => bridge.close bp w
  | none => some (server_splice.close s w)

/-- `client_splice::handle_upstream_connect`. -/
def client_splice.handle_upstream_connect (c : Nat) (error : Bool) (w : World) : Option World :=
  let w1 := { w with num_client_connections_ := (w.num_client_connections_ + 1) % uint64_range }
  if error = false then
    match lock_bridge w1 (w1.clients c).wbp_ with
    | none => none
    | some bp =>
      let w2 := client_splice.set_ss bp (some bp) w1
      let w3 := server_splice.set_cs bp (some bp) w2
      let w4 := async_read_some (.upstream_socket_ c) (.upstream_data_ c) max_data_length
        (.handle_upstream_read c) w3
      some (async_read_some (.downstream_socket_ bp) (.downstream_data_ bp) max_data_length
        (.handle_downstream_read bp) w4)
  else client_splice.on_error c w1

/-- `client_splice::handle_upstream_write`. -/
def client_splice.handle_upstream_write (c : Nat) (error : Bool) (w : World) : Option World :=
  if error = false then
    match lock_server w (w.clients c).wssp_ with
    | none => none
    | some ssp =>
      some (async_read_some (.downstream_socket_ ssp) (.downstream_data_ ssp) max_data_length
        (.handle_downstream_read ssp) w)
  else client_splice.on_error c w

/-- `client_splice::handle_upstream_read`. -/
def client_splice.handle_upstream_read (c : Nat) (error : Bool) (bytes_transferred : Nat)
    (w : World) : Option World :=
  if error = false then
    match lock_server w (w.clients c).wssp_ with
    | none => none
    | some ssp =>
      some (async_write (.downstream_socket_ ssp) (.upstream_data_ c) bytes_transferred
        (.handle_downstream_write ssp) w)
  else client_splice.on_error c w

/-- `server_splice::handle_downstream_write`. -/
def server_splice.handle_downstream_write (s : Nat) (error : Bool) (w : World) : Option World :=
  if error = false then
    match lock_client w (w.servers s).wcsp_ with
    | none => none
    | some csp =>
      some (async_read_some (.upstream_socket_ csp) (.upstream_data_ csp) max_data_length
        (.handle_upstream_read csp) w)
  else server_splice.on_error s w

/-- `server_splice::handle_downstream_read`. -/
def server_splice.handle_downstream_read (s : Nat) (error : Bool) (bytes_transferred : Nat)
    (w : World) : Option World :=
  if error = false then
    match lock_client w (w.servers s).wcsp_ with
    | none => none
    | some csp =>
      some (async_write (.upstream_socket_ csp) (.downstream_data_ s) bytes_transferred
        (.handle_upstream_write csp) w)
  else server_splice.on_error s w

/-! ## acceptor -/

/-- `acceptor::accept_connections` (the `try` block; it returns `true`). -/
def acceptor.accept_connections (w : World) : Bool × World :=
  let (bp, w1) := bridge.new w
  let w2 := bridge.init bp bp w1
  let w3 := { w2 with session_ := some bp }
  let w4 := { w3 with bridge_instances := w3.bridge_instances ++ [bp] }
  (true, async_accept (.downstream_socket_ bp) .handle_accept w4)

/-- `acceptor::handle_accept`.  An exception thrown by `bridge::start` is not
caught here: it leaves the handler after the counter has been incremented and
before `accept_connections` is called (`.error`, with the state at the
throw). -/
def acceptor.handle_accept (error : Bool) (w : World) : Option (Except World World) :=
  if error = false then
    match lock_bridge w w.session_ with
    | none => none
    | some bp =>
      let w1 := { w with
        num_server_connections_ := (w.num_server_connections_ + 1) % uint64_range }
      match bridge.start bp w1.upstream_host_ w1.upstream_port_ w1 with
      | .error w2 => some (.error w2)
      | .ok w2 => some (.ok (acceptor.accept_connections w2).2)
  else some (.ok w)

/-- The state in which `main` enters `ios.run()`: the namespace-scope
variables are zero-initialised, the acceptor is constructed with the forward
host and port, and `accept_connections` has been called once.  (The forward
host is stored as given: it is not looked at before the first accept
completes.) -/
def main (forward_host : String) (forward_port : Nat) : World :=
  (acceptor.accept_connections
    { clients := fun _ =>
        { upstream_socket_ := false, wbp_ := none, wssp_ := none, upstream_data_ := fun _ => 0 }
      servers := fun _ =>
        { downstream_socket_ := false, wbp_ := none, wcsp_ := none,
          downstream_data_ := fun _ => 0 }
      bridge_instances := []
      num_server_connections_ := 0
      num_client_connections_ := 0
      session_ := none
      upstream_port_ := forward_port
      upstream_host_ := forward_host
      pending := []
      next := 0
      log := [] }).2

/-! ## The event loop -/

/-- The outcome of an operation, chosen by the environment: which outstanding
operation completes, whether it carries an error, and (for a read) the bytes
that arrived.  Any outstanding operation may complete with any outcome: asio
queues a completion with its result, and a handler that runs before it (and
closes the socket) does not change the result that is delivered.  The event
loop of the embedding accepts every outcome, also the one asio never delivers
(a read without error and without bytes, see `Completion.deliverable`): what
holds in all its states holds in the states of the program. -/
structure Completion where
  op : Operation
  error : Bool
  data : List Nat

/-- Stores `data` at the start of a data array. -/
def World.store (w : World) (data : List Nat) : Buffer → World
  | .upstream_data_ c =>
    { w with
      clients := Function.update w.clients c
        { w.clients c with
          upstream_data_ := fun i => data.getD i ((w.clients c).upstream_data_ i) } }
  | .downstream_data_ s =>
    { w with
      servers := Function.update w.servers s
        { w.servers s with
          downstream_data_ := fun i => data.getD i ((w.servers s).downstream_data_ i) } }

/-- What asio does to the state when a request completes, and the
`bytes_transferred` it reports: a successful accept opens the peer socket; a
read stores at most `size` bytes in the array. -/
def Request.effect (error : Bool) (data : List Nat) (w : World) : Request → World × Nat
  | .async_accept peer => (if error = false then w.set_open true peer else w, 0)
  | .async_connect _ _ _ => (w, 0)
  | .async_read_some sock buf size =>
    let d := data.take size
    let w1 := w.store d buf
    ({ w1 with log := w1.log ++ [.read sock d] }, d.length)
  | .async_write _ _ size => (w, if error = false then size else 0)

/-- Calls a bound handler with the completion's arguments; the result is the
state in which the handler returns.  `none` when it does not return: its
behaviour is undefined, or (`handle_accept` only) it leaves by an exception. -/
def Handler.invoke (error : Bool) (bytes_transferred : Nat) (w : World) : Handler → Option World
  | .handle_accept => (acceptor.handle_accept error w).bind Except.toOption
  | .handle_upstream_connect c => client_splice.handle_upstream_connect c error w
  | .handle_upstream_write c => client_splice.handle_upstream_write c error w
  | .handle_upstream_read c => client_splice.handle_upstream_read c error bytes_transferred w
  | .handle_downstream_write s => server_splice.handle_downstream_write s error w
  | .handle_downstream_read s => server_splice.handle_downstream_read s error bytes_transferred w

/-- The completion of an operation that has been taken out of the queue. -/
def complete (c : Completion) (w : World) : Option World :=
  let r := c.op.request.effect c.error c.data w
  c.op.handler.invoke c.error r.2 r.1

/-- One iteration of `ios.run()`: an outstanding operation completes and its
handler runs.  `none` when the operation is not outstanding, and when the
handler does not return: its behaviour is undefined, or it leaves by an
exception, which ends `ios.run()`. -/
def step (w : World) (c : Completion) : Option World :=
  if c.op ∈ w.pending then
    complete c { w with pending := w.pending.erase c.op }
  else none

/-- A run of the event loop. -/
def run (w : World) : List Completion → Option World
  | [] => some w
  | c :: cs => (step w c).bind fun w1 => run w1 cs

/-- The states `ios.run()` can be in, for the given forward host and port. -/
def Reachable (forward_host : String) (forward_port : Nat) (w : World) : Prop :=
  ∃ cs, run (main forward_host forward_port) cs = some w

/-- The bytes an event hands to `async_write` for the socket. -/
def Event.written (sock : Socket) : Event → List Nat
  | .write s d => if s = sock then d else []
  | .read _ _ => []

/-- The bytes an event stores from a read on the socket. -/
def Event.delivered (sock : Socket) : Event → List Nat
  | .read s d => if s = sock then d else []
  | .write _ _ => []

/-- The bytes a log hands to `async_write` for a socket, concatenated. -/
def log_written (sock : Socket) (log : List Event) : List Nat :=
  (log.map (Event.written sock)).flatten

/-- The bytes the completed reads of a log stored from a socket, concatenated. -/
def log_delivered (sock : Socket) (log : List Event) : List Nat :=
  (log.map (Event.delivered sock)).flatten

/-- The bytes handed to `async_write` for a socket so far, in order. -/
def written (sock : Socket) (w : World) : List Nat :=
  log_written sock w.log

/-- The bytes completed reads on a socket have stored so far, in order. -/
def delivered (sock : Socket) (w : World) : List Nat :=
  log_delivered sock w.log

/-- The bridge whose splice a handler is bound to. -/
def Handler.bridge : Handler → Option Nat
  | .handle_accept => none
  | .handle_upstream_connect c => some c
  | .handle_upstream_write c => some c
  | .handle_upstream_read c => some c
  | .handle_downstream_write s => some s
  | .handle_downstream_read s => some s

/-- The bridge a socket belongs to. -/
def Socket.bridge : Socket → Nat
  | .upstream_socket_ c => c
  | .downstream_socket_ s => s

/-- The bridge whose socket an event is about. -/
def Event.bridge : Event → Nat
  | .read sock _ => sock.bridge
  | .write sock _ => sock.bridge

/-- The handlers of the direction from the upstream socket to the downstream
socket of bridge `b`: the connect, the read on the upstream socket and the
write on the downstream socket. -/
def Handler.up_to_down (b : Nat) : Handler → Bool
  | .handle_upstream_connect c => c == b
  | .handle_upstream_read c => c == b
  | .handle_downstream_write s => s == b
  | _ => false

/-- The handlers of the direction from the downstream socket to the upstream
socket of bridge `b`. -/
def Handler.down_to_up (b : Nat) : Handler → Bool
  | .handle_upstream_connect c => c == b
  | .handle_downstream_read s => s == b
  | .handle_upstream_write c => c == b
  | _ => false

/-- The handler is one of the four relay handlers of bridge `b`. -/
def Handler.relays (b : Nat) : Handler → Bool
  | .handle_upstream_read c => c == b
  | .handle_upstream_write c => c == b
  | .handle_downstream_read s => s == b
  | .handle_downstream_write s => s == b
  | _ => false

/-- The handler is `acceptor::handle_accept`. -/
def Handler.accepts : Handler → Bool
  | .handle_accept => true
  | _ => false

/-- The shape of the operations the program issues: each handler is bound
to the request it is issued with. -/
def Operation.wf (p : Operation) : Prop :=
  match p.handler, p.request with
  | .handle_accept, .async_accept (.downstream_socket_ _) => True
  | .handle_upstream_connect c, .async_connect sock _ _ => sock = .upstream_socket_ c
  | .handle_upstream_read c, .async_read_some sock buf size =>
    sock = .upstream_socket_ c ∧ buf = .upstream_data_ c ∧ size = max_data_length
  | .handle_downstream_read s, .async_read_some sock buf size =>
    sock = .downstream_socket_ s ∧ buf = .downstream_data_ s ∧ size = max_data_length
  | .handle_downstream_write s, .async_write sock buf _ =>
    sock = .downstream_socket_ s ∧ buf = .upstream_data_ s
  | .handle_upstream_write c, .async_write sock buf _ =>
    sock = .upstream_socket_ c ∧ buf = .downstream_data_ c
  | _, _ => False

/-- One direction of a relay, seen in the outstanding operations and the log:
`f` selects the handlers of the direction, `dst` is the socket written to and
`src` the socket read from.  At most one operation of the direction is
outstanding; what was handed to `async_write` for `dst` is a prefix of what
the reads on `src` stored, and equal to it while an operation is outstanding. -/
def Direction (f : Handler → Bool) (dst src : Socket) (pending : List Operation)
    (log : List Event) : Prop :=
  (pending.countP fun p => f p.handler) ≤ 1 ∧
  log_written dst log <+: log_delivered src log ∧
  ((pending.countP fun p => f p.handler) = 1 → log_written dst log = log_delivered src log)

/-- The invariant of the event loop. -/
structure Inv (w : World) : Prop where
  /-- every outstanding operation has the shape the program issues -/
  wf : ∀ p ∈ w.pending, p.wf
  /-- at most one accept is outstanding -/
  accept_le : (w.pending.countP fun p => p.handler.accepts) ≤ 1
  /-- an outstanding accept is the accept of the session bridge -/
  accept_session : ∀ p ∈ w.pending, p.handler = .handle_accept →
    ∃ s, w.session_ = some s ∧ p.request = .async_accept (.downstream_socket_ s)
  /-- `session_` refers to the last entry of the registry -/
  session : ∃ s, w.session_ = some s ∧ w.bridge_instances.getLast? = some s
  /-- the session bridge and the identities not yet allocated have no
  outstanding operation and no traffic -/
  fresh : ∀ b, (w.session_ = some b ∨ w.next ≤ b) →
    (∀ p ∈ w.pending, p.handler.bridge ≠ some b) ∧ (∀ e ∈ w.log, e.bridge ≠ b)
  /-- registered bridges have been allocated -/
  registered_lt : ∀ b ∈ w.bridge_instances, b < w.next
  /-- the registry has no duplicates -/
  nodup : w.bridge_instances.Nodup
  /-- a bridge whose connect is outstanding is registered -/
  connect_registered : ∀ p ∈ w.pending, ∀ b, p.handler = .handle_upstream_connect b →
    b ∈ w.bridge_instances
  /-- a bridge whose connect is outstanding has no traffic -/
  connect_silent : ∀ p ∈ w.pending, ∀ b, p.handler = .handle_upstream_connect b →
    ∀ e ∈ w.log, e.bridge ≠ b
  /-- `wbp_` of an allocated client_splice refers to its bridge -/
  wbp_client : ∀ c, c < w.next → (w.clients c).wbp_ = some c
  /-- `wbp_` of an allocated server_splice refers to its bridge -/
  wbp_server : ∀ s, s < w.next → (w.servers s).wbp_ = some s
  /-- a bridge that has left the registry has both sockets closed -/
  closed_of_unregistered : ∀ b, b < w.next → b ∉ w.bridge_instances →
    (w.clients b).upstream_socket_ = false ∧ (w.servers b).downstream_socket_ = false
  /-- `wssp_` is empty or refers to the server_splice of the same bridge -/
  wssp : ∀ c x, (w.clients c).wssp_ = some x → x = c
  /-- `wcsp_` is empty or refers to the client_splice of the same bridge -/
  wcsp : ∀ s x, (w.servers s).wcsp_ = some x → x = s
  /-- while a relay operation of a bridge is outstanding both peer pointers
  are set -/
  peers : ∀ p ∈ w.pending, ∀ b, p.handler.relays b = true →
    (w.clients b).wssp_ = some b ∧ (w.servers b).wcsp_ = some b
  /-- the direction from the upstream socket to the downstream socket -/
  up_to_down : ∀ b, Direction (Handler.up_to_down b) (.downstream_socket_ b)
    (.upstream_socket_ b) w.pending w.log
  /-- the direction from the downstream socket to the upstream socket -/
  down_to_up : ∀ b, Direction (Handler.down_to_up b) (.upstream_socket_ b)
    (.downstream_socket_ b) w.pending w.log

/-- The socket of the splice a handler is bound to: the leg the handler
belongs to. -/
def Handler.leg : Handler → Option Socket
  | .handle_accept => none
  | .handle_upstream_connect c => some (.upstream_socket_ c)
  | .handle_upstream_write c => some (.upstream_socket_ c)
  | .handle_upstream_read c => some (.upstream_socket_ c)
  | .handle_downstream_write s => some (.downstream_socket_ s)
  | .handle_downstream_read s => some (.downstream_socket_ s)

/-- What `bridge::close` leaves behind when the loop over the registry erases
the bridge cleanly. -/
def closed_world (b : Nat) (w : World) : World :=
  { (w.set_open false (.downstream_socket_ b)).set_open false (.upstream_socket_ b) with
    bridge_instances := w.bridge_instances.erase b }

/-- The outcome `w1` of a completion with an error, for the operation `p` of
bridge `b` that was outstanding in `w`: nothing is issued, nothing is handed
to `async_write`, the leg of the handler is closed; a bridge that was still
registered has both sockets closed and is deregistered. -/
structure Terminal (b : Nat) (p : Operation) (w w1 : World) : Prop where
  pending : w1.pending = w.pending.erase p
  written : ∀ sock, written sock w1 = written sock w
  leg : ∀ sock, p.handler.leg = some sock → w1.is_open sock = false
  registered : b ∈ w.bridge_instances →
    w1.is_open (.upstream_socket_ b) = false ∧ w1.is_open (.downstream_socket_ b) = false ∧
      b ∉ w1.bridge_instances ∧ w1.bridge_instances = w.bridge_instances.erase b
  unregistered : b ∉ w.bridge_instances → w1.bridge_instances = w.bridge_instances
  session : w1.session_ = w.session_
  next : w1.next = w.next
  accepted : w1.num_server_connections_ = w.num_server_connections_
  connected : w1.num_client_connections_ =
    if p.handler = .handle_upstream_connect b
    then (w.num_client_connections_ + 1) % uint64_range else w.num_client_connections_

/-- The part of the state only `handle_accept` changes, and what it means for
the outstanding operations: no accept is added. -/
structure Intake (w w1 : World) : Prop where
  host : w1.upstream_host_ = w.upstream_host_
  port : w1.upstream_port_ = w.upstream_port_
  next : w1.next = w.next
  accepted : w1.num_server_connections_ = w.num_server_connections_
  pending : ∀ q ∈ w1.pending, q ∈ w.pending ∨ q.handler ≠ .handle_accept

/-! ## The operations the program issues, and sample states -/

/-- The accept armed by `accept_connections` for the bridge `b`. -/
def accept_op (b : Nat) : Operation :=
  ⟨.async_accept (.downstream_socket_ b), .handle_accept⟩

/-- The connect issued by `bridge::start` for the bridge `b`. -/
def connect_op (b : Nat) (host : String) (port : Nat) : Operation :=
  ⟨.async_connect (.upstream_socket_ b) host port, .handle_upstream_connect b⟩

/-- The read on the upstream socket of bridge `b`, into `upstream_data_`. -/
def upstream_read_op (b : Nat) : Operation :=
  ⟨.async_read_some (.upstream_socket_ b) (.upstream_data_ b) max_data_length,
    .handle_upstream_read b⟩

/-- The read on the downstream socket of bridge `b`, into `downstream_data_`. -/
def downstream_read_op (b : Nat) : Operation :=
  ⟨.async_read_some (.downstream_socket_ b) (.downstream_data_ b) max_data_length,
    .handle_downstream_read b⟩

/-- The write of the first `n` bytes of `downstream_data_` to the upstream
socket of bridge `b`. -/
def upstream_write_op (b n : Nat) : Operation :=
  ⟨.async_write (.upstream_socket_ b) (.downstream_data_ b) n, .handle_upstream_write b⟩

/-- The write of the first `n` bytes of `upstream_data_` to the downstream
socket of bridge `b`. -/
def downstream_write_op (b n : Nat) : Operation :=
  ⟨.async_write (.downstream_socket_ b) (.upstream_data_ b) n, .handle_downstream_write b⟩

/-- The proxy started with forward host 192.0.2.7, port 7. -/
def sample_start : World := main "192.0.2.7" 7

/-- One client has been accepted; the connect to the upstream is outstanding. -/
def sample_connecting : World :=
  (step sample_start ⟨accept_op 0, false, []⟩).getD sample_start

/-- The connect succeeded; both reads of bridge 0 are outstanding. -/
def sample_relaying : World :=
  (step sample_connecting ⟨connect_op 0 "192.0.2.7" 7, false, []⟩).getD sample_start

/-- The client sent the four bytes of "PING". -/
def sample_ping : World :=
  (step sample_relaying ⟨downstream_read_op 0, false, [80, 73, 78, 71]⟩).getD sample_start

/-- The read on the downstream socket failed while the read on the upstream
socket was still outstanding. -/
def sample_half_closed : World :=
  (step sample_relaying ⟨downstream_read_op 0, true, []⟩).getD sample_start

/-! ## The steps of the event loop -/

/-- The state in which the handler of a completion runs and the
`bytes_transferred` it is called with: the operation has left the queue and
asio has applied the outcome. -/
def World.arrived (w : World) (c : Completion) : World × Nat :=
  c.op.request.effect c.error c.data { w with pending := w.pending.erase c.op }

/-- The steps of the event loop, branch by branch: which handler ran, on which
branch, and the state it left.  In a state that satisfies the invariant these
are exactly the steps `step` makes (`Inv.transition`, `Transition.step_eq`). -/
inductive Transition (w : World) (c : Completion) : World → Prop where
  | accepted (s : Nat) (hop : c.op = accept_op s) (herr : c.error = false)
      (hsess : w.session_ = some s)
      (hhost : (ip.address.from_string w.upstream_host_).isSome = true) :
      Transition w c (acceptor.accept_connections
        (async_connect (.upstream_socket_ s) w.upstream_host_ w.upstream_port_
          (.handle_upstream_connect s)
          { (w.arrived c).1 with
            num_server_connections_ := (w.num_server_connections_ + 1) % uint64_range })).2
  | refused (s : Nat) (hop : c.op = accept_op s) (herr : c.error = true) :
      Transition w c (w.arrived c).1
  | connected (b : Nat) (host : String) (port : Nat) (hop : c.op = connect_op b host port)
      (herr : c.error = false) (hreg : b ∈ w.bridge_instances) :
      Transition w c
        (async_read_some (.downstream_socket_ b) (.downstream_data_ b) max_data_length
          (.handle_downstream_read b)
          (async_read_some (.upstream_socket_ b) (.upstream_data_ b) max_data_length
            (.handle_upstream_read b)
            (server_splice.set_cs b (some b) (client_splice.set_ss b (some b)
              { (w.arrived c).1 with
                num_client_connections_ :=
                  (w.num_client_connections_ + 1) % uint64_range }))))
  | upstream_read (b : Nat) (hop : c.op = upstream_read_op b) (herr : c.error = false)
      (halive : b ∈ w.bridge_instances ∨
        ∃ q ∈ w.pending.erase c.op, q.handler.holds_server b = true) :
      Transition w c (async_write (.downstream_socket_ b) (.upstream_data_ b) (w.arrived c).2
        (.handle_downstream_write b) (w.arrived c).1)
  | downstream_read (b : Nat) (hop : c.op = downstream_read_op b) (herr : c.error = false)
      (halive : b ∈ w.bridge_instances ∨
        ∃ q ∈ w.pending.erase c.op, q.handler.holds_client b = true) :
      Transition w c (async_write (.upstream_socket_ b) (.downstream_data_ b) (w.arrived c).2
        (.handle_upstream_write b) (w.arrived c).1)
  | upstream_write (b n : Nat) (hop : c.op = upstream_write_op b n) (herr : c.error = false)
      (halive : b ∈ w.bridge_instances ∨
        ∃ q ∈ w.pending.erase c.op, q.handler.holds_server b = true) :
      Transition w c (async_read_some (.downstream_socket_ b) (.downstream_data_ b)
        max_data_length (.handle_downstream_read b) (w.arrived c).1)
  | downstream_write (b n : Nat) (hop : c.op = downstream_write_op b n)
      (herr : c.error = false)
      (halive : b ∈ w.bridge_instances ∨
        ∃ q ∈ w.pending.erase c.op, q.handler.holds_client b = true) :
      Transition w c (async_read_some (.upstream_socket_ b) (.upstream_data_ b)
        max_data_length (.handle_upstream_read b) (w.arrived c).1)
  | failed (b : Nat) (sock : Socket) (n : Nat) (hb : c.op.handler.bridge = some b)
      (hleg : c.op.handler.leg = some sock) (herr : c.error = true)
      (hn : n = if c.op.handler = .handle_upstream_connect b
        then (w.num_client_connections_ + 1) % uint64_range else w.num_client_connections_) :
      Transition w c
        (if b ∈ w.bridge_instances
          then closed_world b { (w.arrived c).1 with num_client_connections_ := n }
          else World.set_open { (w.arrived c).1 with num_client_connections_ := n } false sock)

/-- What a handler bound to a splice of bridge `b` leaves alone: the session,
the allocation counter, and the splices of every other bridge; what it adds to
the log is about sockets of `b`. -/
structure Confined (b : Nat) (w w1 : World) : Prop where
  session : w1.session_ = w.session_
  next : w1.next = w.next
  log : ∃ events, w1.log = w.log ++ events ∧ ∀ e ∈ events, e.bridge = b
  clients : ∀ x, x ≠ b → w1.clients x = w.clients x
  servers : ∀ x, x ≠ b → w1.servers x = w.servers x

/-- The steps of the event loop once more, described by what they change: the
operations issued, the registry, the session and the sockets
(`Transition.to_change`). -/
inductive Change (w : World) (c : Completion) (w1 : World) : Prop where
  | accepted (s : Nat) (hop : c.op = accept_op s) (herr : c.error = false)
      (hsess : w.session_ = some s) (hsreg : s ∈ w.bridge_instances)
      (pending : w1.pending = w.pending.erase c.op ++
        [connect_op s w.upstream_host_ w.upstream_port_, accept_op w.next])
      (registry : w1.bridge_instances = w.bridge_instances ++ [w.next])
      (session : w1.session_ = some w.next)
      (next : w1.next = w.next + 1)
      (log : w1.log = w.log)
      (opened : w1.is_open (.downstream_socket_ s) = true ∧
        w1.is_open (.upstream_socket_ s) = true)
      (fresh : w1.is_open (.downstream_socket_ w.next) = false ∧
        w1.is_open (.upstream_socket_ w.next) = false)
      (clients : ∀ x, x ≠ s → x ≠ w.next → w1.clients x = w.clients x)
      (servers : ∀ x, x ≠ s → x ≠ w.next → w1.servers x = w.servers x)
      (started : w1.clients s = { w.clients s with upstream_socket_ := true } ∧
        w1.servers s = { w.servers s with downstream_socket_ := true })
      (created :
        w1.clients w.next =
          { upstream_socket_ := false, wbp_ := some w.next, wssp_ := none,
            upstream_data_ := (w.clients w.next).upstream_data_ } ∧
        w1.servers w.next =
          { downstream_socket_ := false, wbp_ := some w.next, wcsp_ := none,
            downstream_data_ := (w.servers w.next).downstream_data_ })
  | refused (s : Nat) (hop : c.op = accept_op s) (herr : c.error = true)
      (hsess : w.session_ = some s)
      (eq : w1 = { w with pending := w.pending.erase c.op })
  | connected (b : Nat) (host : String) (port : Nat) (hop : c.op = connect_op b host port)
      (herr : c.error = false) (hreg : b ∈ w.bridge_instances)
      (pending : w1.pending = w.pending.erase c.op ++ [upstream_read_op b, downstream_read_op b])
      (confined : Confined b w w1)
      (registry : w1.bridge_instances = w.bridge_instances)
      (sockets : ∀ sock, w1.is_open sock = w.is_open sock)
  | upstream_read (b n : Nat) (hop : c.op = upstream_read_op b) (herr : c.error = false)
      (halive : b ∈ w.bridge_instances ∨
        ∃ q ∈ w.pending.erase c.op, q.handler.holds_server b = true)
      (pending : w1.pending = w.pending.erase c.op ++ [downstream_write_op b n])
      (confined : Confined b w w1)
      (registry : w1.bridge_instances = w.bridge_instances)
      (sockets : ∀ sock, w1.is_open sock = w.is_open sock)
  | downstream_read (b n : Nat) (hop : c.op = downstream_read_op b) (herr : c.error = false)
      (halive : b ∈ w.bridge_instances ∨
        ∃ q ∈ w.pending.erase c.op, q.handler.holds_client b = true)
      (pending : w1.pending = w.pending.erase c.op ++ [upstream_write_op b n])
      (confined : Confined b w w1)
      (registry : w1.bridge_instances = w.bridge_instances)
      (sockets : ∀ sock, w1.is_open sock = w.is_open sock)
  | upstream_write (b n : Nat) (hop : c.op = upstream_write_op b n) (herr : c.error = false)
      (halive : b ∈ w.bridge_instances ∨
        ∃ q ∈ w.pending.erase c.op, q.handler.holds_server b = true)
      (pending : w1.pending = w.pending.erase c.op ++ [downstream_read_op b])
      (confined : Confined b w w1)
      (registry : w1.bridge_instances = w.bridge_instances)
      (sockets : ∀ sock, w1.is_open sock = w.is_open sock)
  | downstream_write (b n : Nat) (hop : c.op = downstream_write_op b n)
      (herr : c.error = false)
      (halive : b ∈ w.bridge_instances ∨
        ∃ q ∈ w.pending.erase c.op, q.handler.holds_client b = true)
      (pending : w1.pending = w.pending.erase c.op ++ [upstream_read_op b])
      (confined : Confined b w w1)
      (registry : w1.bridge_instances = w.bridge_instances)
      (sockets : ∀ sock, w1.is_open sock = w.is_open sock)
  | failed (b : Nat) (hb : c.op.handler.bridge = some b) (herr : c.error = true)
      (pending : w1.pending = w.pending.erase c.op)
      (confined : Confined b w w1)
      (registered : b ∈ w.bridge_instances →
        w1.bridge_instances = w.bridge_instances.erase b ∧
          w1.is_open (.upstream_socket_ b) = false ∧ w1.is_open (.downstream_socket_ b) = false)
      (unregistered : b ∉ w.bridge_instances →
        w1.bridge_instances = w.bridge_instances ∧ ∀ sock, w1.is_open sock = w.is_open sock)

/-! ## What is observed of a run -/

/-- The socket a request is issued on. -/
def Request.socket : Request → Socket
  | .async_accept peer => peer
  | .async_connect sock _ _ => sock
  | .async_read_some sock _ _ => sock
  | .async_write sock _ _ => sock

/-- The operation is a read on the socket. -/
def Operation.reads (sock : Socket) (p : Operation) : Bool :=
  match p.request with
  | .async_read_some s _ _ => s == sock
  | _ => false

/-- The operation is a write to the socket. -/
def Operation.writes (sock : Socket) (p : Operation) : Bool :=
  match p.request with
  | .async_write s _ _ => s == sock
  | _ => false

/-- The operation is a read or a write of the direction from `src` to `dst`:
a read on `src` or a write to `dst`. -/
def Operation.relays (src dst : Socket) (p : Operation) : Bool :=
  p.reads src || p.writes dst

/-- The operations issued in the course of a run, in the order of the
`async_*` calls: what a step issues is what is outstanding after it and was
not before (every `async_*` call appends to `pending`). -/
def issued (w : World) : List Completion → List Operation
  | [] => []
  | c :: cs =>
    match step w c with
    | none => []
    | some w1 => w1.pending.drop (w.pending.erase c.op).length ++ issued w1 cs

/-- The kinds in the list alternate, the first one being `expected`. -/
def alternates : Bool → List Bool → Bool
  | _, [] => true
  | expected, k :: ks => k == expected && alternates (!expected) ks

/-- One direction of the relay of bridge `b`, seen in the operations issued
so far: `line` lists the reads and writes of the direction in the order they
were issued (`sel` selects them, `kind` tells a read from a write).  They
alternate, starting with a read; an outstanding one is the last that was
issued; none was issued while the bridge awaits the accept or its connect. -/
structure Alternation (sel kind : Operation → Bool) (b : Nat) (line : List Operation)
    (w : World) : Prop where
  alt : alternates true (line.map kind) = true
  last : ∀ p ∈ w.pending, sel p = true → line.getLast? = some p
  none_yet : ((∃ p ∈ w.pending, p.handler = .handle_upstream_connect b) ∨
    w.session_ = some b ∨ w.next ≤ b) → line = []

/-- Some step of the run executed `close()` on the socket: the socket was open
before the step and is not open after it.  (`client_splice::close` and
`server_splice::close` call `close()` on an open socket only, and nothing else
takes a socket from open to not open.) -/
def closed_in (w : World) : List Completion → Socket → Bool
  | [], _ => false
  | c :: cs, sock =>
    match step w c with
    | none => false
    | some w1 => (w.is_open sock && !w1.is_open sock) || closed_in w1 cs sock

/-- The sockets closed so far (`closed` tells which) against the registry:
a socket that was closed belongs to an allocated bridge that has left the
registry; both sockets of such a bridge were closed; both sockets of a
registered bridge other than the session bridge are open; the sockets of the
session bridge and of the bridges not yet allocated have not been opened. -/
structure Closure (closed : Socket → Bool) (w : World) : Prop where
  unregistered : ∀ sock, closed sock = true →
    sock.bridge < w.next ∧ sock.bridge ∉ w.bridge_instances
  both : ∀ b, b < w.next → b ∉ w.bridge_instances →
    closed (.upstream_socket_ b) = true ∧ closed (.downstream_socket_ b) = true
  open_of_registered : ∀ b ∈ w.bridge_instances, w.session_ ≠ some b →
    w.is_open (.upstream_socket_ b) = true ∧ w.is_open (.downstream_socket_ b) = true
  unopened : ∀ b, (w.session_ = some b ∨ w.next ≤ b) →
    w.is_open (.upstream_socket_ b) = false ∧ w.is_open (.downstream_socket_ b) = false

/-- The call of `bridge::close` the handler of a completion makes, if it makes
one: the bridge it is called on and the state it is called in.  The five
splice handlers call it in their error branch, on `bp = wbp_.lock()` when `bp`
is not null (`handle_upstream_connect` has incremented
`num_client_connections_` by then). -/
def close_call (w : World) (c : Completion) : Option (Nat × World) :=
  if c.error = true then
    let w1 := (w.arrived c).1
    match c.op.handler with
    | .handle_accept => none
    | .handle_upstream_connect x =>
      let w2 := { w1 with
        num_client_connections_ := (w1.num_client_connections_ + 1) % uint64_range }
      (lock_bridge w2 (w2.clients x).wbp_).map fun bp => (bp, w2)
    | .handle_upstream_write x => (lock_bridge w1 (w1.clients x).wbp_).map fun bp => (bp, w1)
    | .handle_upstream_read x => (lock_bridge w1 (w1.clients x).wbp_).map fun bp => (bp, w1)
    | .handle_downstream_write x => (lock_bridge w1 (w1.servers x).wbp_).map fun bp => (bp, w1)
    | .handle_downstream_read x => (lock_bridge w1 (w1.servers x).wbp_).map fun bp => (bp, w1)
  else none

/-- The exception case of a completion: the state in which its handler
throws, when the handler leaves by an exception.  `handle_accept` is the one
handler that can. -/
def thrown (w : World) (c : Completion) : Option World :=
  if c.op ∈ w.pending then
    match c.op.handler with
    | .handle_accept =>
      match acceptor.handle_accept c.error (w.arrived c).1 with
      | some (.error w1) => some w1
      | _ => none
    | _ => none
  else none

/-- The outcomes asio delivers for a read: `async_read_some` into a buffer
that is not empty completes without error only when it has stored at least one
byte; the end of the stream is delivered as the error `eof`, with 0 bytes. -/
def Completion.deliverable (c : Completion) : Bool :=
  match c.op.request with
  | .async_read_some _ _ size => c.error || size == 0 || !c.data.isEmpty
  | _ => true

/-- Two completions a bridge `b` cannot tell apart: the same handler with the
same error flag, and, when the operation is bound to a splice of `b`, the same
operation and the same bytes.  On the operations of other bridges the bytes
that arrive (and with them the length of the write that follows) may differ. -/
def Completion.same_for (b : Nat) (c c2 : Completion) : Prop :=
  c.error = c2.error ∧ c.op.handler = c2.op.handler ∧
    (c.op.handler.bridge = some b → c = c2)

/-- What two states have in common as far as bridge `b` is concerned: its two
splices (sockets, arrays, weak pointers), whether it is registered, its
outstanding operations, the bytes read from and written to its sockets, and
the state of the acceptor. -/
structure Agree (b : Nat) (w w2 : World) : Prop where
  clients : w.clients b = w2.clients b
  servers : w.servers b = w2.servers b
  registered : b ∈ w.bridge_instances ↔ b ∈ w2.bridge_instances
  pending : w.pending.filter (fun q => decide (q.handler.bridge = some b)) =
    w2.pending.filter (fun q => decide (q.handler.bridge = some b))
  session : w.session_ = w2.session_
  next : w.next = w2.next
  host : w.upstream_host_ = w2.upstream_host_
  port : w.upstream_port_ = w2.upstream_port_
  written : ∀ sock : Socket, sock.bridge = b → written sock w = written sock w2
  delivered : ∀ sock : Socket, sock.bridge = b → delivered sock w = delivered sock w2

/-! ## Further sample states and runs -/

/-- The read on the upstream socket failed while the write of the client's
"PING" to the upstream socket was still outstanding. -/
def sample_write_orphaned : World :=
  (step sample_ping ⟨upstream_read_op 0, true, []⟩).getD sample_start

/-- The read on the upstream socket failed while the read on the downstream
socket was still outstanding. -/
def sample_upstream_lost : World :=
  (step sample_relaying ⟨upstream_read_op 0, true, []⟩).getD sample_start

/-- The run that leads to `sample_half_closed`. -/
def sample_half_closed_run : List Completion :=
  [⟨accept_op 0, false, []⟩, ⟨connect_op 0 "192.0.2.7" 7, false, []⟩,
    ⟨downstream_read_op 0, true, []⟩]

/-- The run that leads to `sample_ping`. -/
def sample_ping_run : List Completion :=
  [⟨accept_op 0, false, []⟩, ⟨connect_op 0 "192.0.2.7" 7, false, []⟩,
    ⟨downstream_read_op 0, false, [80, 73, 78, 71]⟩]

/-- The client's "PING" is read and written to the upstream, and the read on
the client's socket is issued again. -/
def sample_cycle_run : List Completion :=
  sample_ping_run ++ [⟨upstream_write_op 0 4, false, []⟩]

/-- The state `sample_cycle_run` leads to. -/
def sample_cycle : World :=
  (run sample_start sample_cycle_run).getD sample_start

/-- The run that leads to `sample_two_bridges`. -/
def sample_two_bridges_run : List Completion :=
  sample_ping_run ++ [⟨accept_op 1, false, []⟩, ⟨connect_op 1 "192.0.2.7" 7, false, []⟩]

/-- A second client has been accepted and connected while the first client's
"PING" is being written to the upstream: bridges 0 and 1 relay, bridge 2 awaits
the accept. -/
def sample_two_bridges : World :=
  (run sample_start sample_two_bridges_run).getD sample_start

/-- After `sample_two_bridges_run`, the upstream answers the second client with
the four bytes of "PONG", which are written to that client. -/
def sample_pong_run : List Completion :=
  sample_two_bridges_run ++
    [⟨upstream_read_op 1, false, [80, 79, 78, 71]⟩, ⟨downstream_write_op 1 4, false, []⟩]

/-- The same schedule, but the upstream answers the second client with two
other bytes. -/
def sample_other_run : List Completion :=
  sample_two_bridges_run ++
    [⟨upstream_read_op 1, false, [78, 79]⟩, ⟨downstream_write_op 1 2, false, []⟩]

/-! ## Lists -/

theorem countP_erase_add {α : Type} [DecidableEq α] (f : α → Bool) (l : List α) (a : α)
    (h : a ∈ l) : l.countP f = (l.erase a).countP f + (if f a = true then 1 else 0) := by
  have := (List.perm_cons_erase h).countP_eq f
  rw [this, List.countP_cons]

theorem getLast?_erase_of_ne (b s : Nat) : ∀ l : List Nat, l.getLast? = some s → b ≠ s →
    (l.erase b).getLast? = some s
  | [], h, _ => by simp at h
  | [x], h, hne => by
    have hx : x = s := by simpa using h
    subst hx
    have : ¬ (x = b) := fun h => hne h.symm
    simp [List.erase_cons, this]
  | x :: y :: r, h, hne => by
    have h1 : (y :: r).getLast? = some s := by simpa [List.getLast?_cons_cons] using h
    have ih := getLast?_erase_of_ne b s (y :: r) h1 hne
    by_cases hx : x = b
    · subst hx
      simpa using h1
    · rw [List.erase_cons_tail (by simpa using hx)]
      cases hr : (y :: r).erase b with
      | nil => simp [hr] at ih
      | cons z r2 =>
        rw [hr] at ih
        simpa [List.getLast?_cons_cons] using ih

@[simp] theorem map_getD_range (d : List Nat) (f : Nat → Nat) :
    List.map (fun i => d[i]?.getD (f i)) (List.range d.length) = d := by
  apply List.ext_getElem
  · simp
  · intro i h1 h2
    simp [List.getElem?_eq_getElem h2]

/-! ## The loop of `bridge::close` -/

theorem erase_loop_eq (b : Nat) : ∀ (n : Nat) (rest done : List Nat), rest.length ≤ n →
    rest.Nodup →
    bridge.erase_loop b done rest =
      if rest.getLast? = some b then none else some (done ++ rest.erase b) := by
  intro n
  induction n with
  | zero =>
    intro rest done hn _
    have : rest = [] := List.length_eq_zero.mp (Nat.le_zero.mp hn)
    subst this
    simp [bridge.erase_loop]
  | succ n ih =>
    intro rest done hn hnd
    match rest, hn, hnd with
    | [], _, _ => simp [bridge.erase_loop]
    | [x], _, _ =>
      by_cases hx : x = b <;> simp [bridge.erase_loop, hx]
    | x :: y :: r, hn, hnd =>
      have hnd1 : (y :: r).Nodup := (List.nodup_cons.mp hnd).2
      have hl : (x :: y :: r).getLast? = (y :: r).getLast? := by
        simp [List.getLast?_cons_cons]
      by_cases hx : x = b
      · subst hx
        have hxr : x ∉ r := fun h => (List.nodup_cons.mp hnd).1 (List.mem_cons_of_mem _ h)
        have hxy : y ≠ x := fun h => (List.nodup_cons.mp hnd).1 (h ▸ List.mem_cons_self _ _)
        have hr := ih r (done ++ [y]) (by simp at hn; omega) (List.nodup_cons.mp hnd1).2
        have hl2 : (y :: r).getLast? = some x ↔ r.getLast? = some x := by
          cases r with
          | nil => simp [hxy]
          | cons z r2 => simp [List.getLast?_cons_cons]
        rw [hl]
        simp only [bridge.erase_loop, if_true, hr, hl2]
        simp [List.erase_of_not_mem hxr]
      · have hr := ih (y :: r) (done ++ [x]) (by simp at hn ⊢; omega) hnd1
        rw [hl]
        simp only [bridge.erase_loop, if_neg hx, hr]
        simp [List.erase_cons_tail, hx]

theorem erase_loop_nodup {b : Nat} {l : List Nat} (hnd : l.Nodup) :
    bridge.erase_loop b [] l = if l.getLast? = some b then none else some (l.erase b) := by
  simpa using erase_loop_eq b l.length l [] (Nat.le_refl _) hnd

/-! ## Logs and directions -/

@[simp] theorem log_written_append (sock : Socket) (l1 l2 : List Event) :
    log_written sock (l1 ++ l2) = log_written sock l1 ++ log_written sock l2 := by
  simp [log_written]

@[simp] theorem log_delivered_append (sock : Socket) (l1 l2 : List Event) :
    log_delivered sock (l1 ++ l2) = log_delivered sock l1 ++ log_delivered sock l2 := by
  simp [log_delivered]

theorem log_written_of_bridge_ne (sock : Socket) (events : List Event)
    (h : ∀ e ∈ events, e.bridge ≠ sock.bridge) : log_written sock events = [] := by
  induction events with
  | nil => rfl
  | cons e es ih =>
    have he := h e (List.mem_cons_self _ _)
    have := ih fun e he => h e (List.mem_cons_of_mem _ he)
    simp only [log_written, List.map_cons, List.flatten_cons] at this ⊢
    rw [this]
    cases e with
    | read s d => simp [Event.written]
    | write s d =>
      have : s ≠ sock := fun hs => he (by simp [Event.bridge, hs])
      simp [Event.written, this]

theorem log_delivered_of_bridge_ne (sock : Socket) (events : List Event)
    (h : ∀ e ∈ events, e.bridge ≠ sock.bridge) : log_delivered sock events = [] := by
  induction events with
  | nil => rfl
  | cons e es ih =>
    have he := h e (List.mem_cons_self _ _)
    have := ih fun e he => h e (List.mem_cons_of_mem _ he)
    simp only [log_delivered, List.map_cons, List.flatten_cons] at this ⊢
    rw [this]
    cases e with
    | write s d => simp [Event.delivered]
    | read s d =>
      have : s ≠ sock := fun hs => he (by simp [Event.bridge, hs])
      simp [Event.delivered, this]

theorem Direction.advance {f : Handler → Bool} {dst src : Socket} {pending : List Operation}
    {log : List Event} (h : Direction f dst src pending log) {p : Operation} (hp : p ∈ pending)
    (issued : List Operation) (events : List Event)
    (hj : (issued.countP fun q => f q.handler) ≤ if f p.handler = true then 1 else 0)
    (h0 : f p.handler = false → log_written dst events = [] ∧ log_delivered src events = [])
    (h1 : (issued.countP fun q => f q.handler) = 1 →
      log_written dst events = log_delivered src events)
    (h2 : (issued.countP fun q => f q.handler) = 0 → log_written dst events = []) :
    Direction f dst src (pending.erase p ++ issued) (log ++ events) := by
  obtain ⟨hc, hpre, heq⟩ := h
  rw [countP_erase_add _ _ _ hp] at hc heq
  simp only [Direction, List.countP_append, log_written_append, log_delivered_append]
  by_cases hf : f p.handler = true
  · simp only [hf, if_true] at hc heq hj
    have hk : (List.countP (fun p => f p.handler) (pending.erase p)) = 0 := by omega
    have hWD := heq (by omega)
    rw [hk, hWD]
    by_cases hi : (issued.countP fun q => f q.handler) = 1
    · rw [h1 hi]
      simp [hi]
    · have hi0 : (issued.countP fun q => f q.handler) = 0 := by omega
      rw [h2 hi0]
      simp [hi0]
  · have hf' : f p.handler = false := by simpa using hf
    rw [hf'] at hc heq hj
    simp only [Bool.false_eq_true, if_false, Nat.add_zero, Nat.le_zero] at hc heq hj
    obtain ⟨hw, hd⟩ := h0 hf'
    rw [hj, hw, hd]
    simpa using ⟨hc, hpre, heq⟩

theorem Direction.drop {f : Handler → Bool} {dst src : Socket} {pending : List Operation}
    {log : List Event} (h : Direction f dst src pending log) {p : Operation} (hp : p ∈ pending) :
    Direction f dst src (pending.erase p) log := by
  obtain ⟨hc, hpre, heq⟩ := h
  rw [countP_erase_add _ _ _ hp] at hc heq
  by_cases hf : f p.handler = true
  · simp only [hf, if_true] at hc heq
    exact ⟨by omega, hpre, fun h1 => heq (by omega)⟩
  · simp only [hf, if_false, Nat.add_zero] at hc heq
    exact ⟨hc, hpre, heq⟩

/-! ## Handlers -/

theorem Handler.bridge_of_relays {b : Nat} {h : Handler} (hr : h.relays b = true) :
    h.bridge = some b := by
  cases h <;> simp_all [Handler.relays, Handler.bridge]

theorem Handler.up_to_down_of_ne {b b1 : Nat} {h : Handler} (hb : h.bridge = some b)
    (hne : b1 ≠ b) : h.up_to_down b1 = false := by
  cases h <;> simp_all [Handler.up_to_down, Handler.bridge] <;> omega

theorem Handler.down_to_up_of_ne {b b1 : Nat} {h : Handler} (hb : h.bridge = some b)
    (hne : b1 ≠ b) : h.down_to_up b1 = false := by
  cases h <;> simp_all [Handler.down_to_up, Handler.bridge] <;> omega

theorem Handler.direction_of_bridge {b : Nat} {h : Handler} (hb : h.bridge = some b) :
    h.up_to_down b = true ∨ h.down_to_up b = true := by
  cases h <;> simp_all [Handler.up_to_down, Handler.down_to_up, Handler.bridge]

theorem Handler.accepts_of_bridge {b : Nat} {h : Handler} (hb : h.bridge = some b) :
    h.accepts = false := by
  cases h <;> simp_all [Handler.accepts, Handler.bridge]

theorem countP_eq_zero_of_forall {f : Operation → Bool} {l : List Operation}
    (h : ∀ q ∈ l, f q = false) : l.countP f = 0 := by
  rw [List.countP_eq_zero]
  intro q hq
  simp [h q hq]

/-! ## The invariant -/

theorem Inv.started {w : World} (hI : Inv w) {p : Operation} (hp : p ∈ w.pending) {b : Nat}
    (hb : p.handler.bridge = some b) : w.session_ ≠ some b ∧ b < w.next := by
  constructor
  · intro h
    exact (hI.fresh b (Or.inl h)).1 p hp hb
  · by_contra h
    exact (hI.fresh b (Or.inr (Nat.le_of_not_lt h))).1 p hp hb

theorem Inv.no_connect_after {w : World} (hI : Inv w) {p : Operation} (hp : p ∈ w.pending)
    {b : Nat} (hb : p.handler.bridge = some b) :
    ∀ q ∈ w.pending.erase p, q.handler ≠ .handle_upstream_connect b := by
  intro q hq hqc
  have hq1 : (Handler.up_to_down b q.handler) = true := by simp [hqc, Handler.up_to_down]
  have hq2 : (Handler.down_to_up b q.handler) = true := by simp [hqc, Handler.down_to_up]
  have c1 := countP_erase_add (fun o => Handler.up_to_down b o.handler) _ _ hp
  have c2 := countP_erase_add (fun o => Handler.down_to_up b o.handler) _ _ hp
  have p1 : 0 < (w.pending.erase p).countP (fun o => Handler.up_to_down b o.handler) :=
    List.countP_pos_iff.mpr ⟨q, hq, hq1⟩
  have p2 : 0 < (w.pending.erase p).countP (fun o => Handler.down_to_up b o.handler) :=
    List.countP_pos_iff.mpr ⟨q, hq, hq2⟩
  have u := (hI.up_to_down b).1
  have d := (hI.down_to_up b).1
  rcases Handler.direction_of_bridge hb with h | h
  · simp only [h, if_true] at c1
    omega
  · simp only [h, if_true] at c2
    omega

/-- A step of a handler bound to a splice of bridge `b` keeps the invariant
when it only issues relay operations of `b`, logs events of `b`, leaves the
weak pointers alone (or sets the peer pointers of `b`), opens no socket, and
either leaves the registry alone or removes `b` with both sockets closed. -/
theorem Inv.relay_step {w w1 : World} (hI : Inv w) {p : Operation} (hp : p ∈ w.pending)
    {b : Nat} (hb : p.handler.bridge = some b) (issued : List Operation) (events : List Event)
    (hpend : w1.pending = w.pending.erase p ++ issued)
    (hlog : w1.log = w.log ++ events)
    (hsess : w1.session_ = w.session_)
    (hnext : w1.next = w.next)
    (hreg : w1.bridge_instances = w.bridge_instances ∨
      (w1.bridge_instances = w.bridge_instances.erase b ∧ issued = [] ∧
        (w1.clients b).upstream_socket_ = false ∧ (w1.servers b).downstream_socket_ = false))
    (hwbpc : ∀ c, (w1.clients c).wbp_ = (w.clients c).wbp_)
    (hwbps : ∀ s, (w1.servers s).wbp_ = (w.servers s).wbp_)
    (hwssp : ∀ c, (w1.clients c).wssp_ = (w.clients c).wssp_ ∨ (w1.clients c).wssp_ = some c)
    (hwcsp : ∀ s, (w1.servers s).wcsp_ = (w.servers s).wcsp_ ∨ (w1.servers s).wcsp_ = some s)
    (hopenc : ∀ c, (w1.clients c).upstream_socket_ = true →
      (w.clients c).upstream_socket_ = true)
    (hopens : ∀ s, (w1.servers s).downstream_socket_ = true →
      (w.servers s).downstream_socket_ = true)
    (hissued : ∀ q ∈ issued, q.wf ∧ q.handler.relays b = true ∧
      (w1.clients b).wssp_ = some b ∧ (w1.servers b).wcsp_ = some b)
    (hevents : ∀ e ∈ events, e.bridge = b)
    (hud : Direction (Handler.up_to_down b) (.downstream_socket_ b) (.upstream_socket_ b)
      w1.pending w1.log)
    (hdu : Direction (Handler.down_to_up b) (.upstream_socket_ b) (.downstream_socket_ b)
      w1.pending w1.log) : Inv w1 := by
  have hst := hI.started hp hb
  have hmem : ∀ q, q ∈ w1.pending → q ∈ w.pending ∨ q ∈ issued := by
    intro q hq
    rw [hpend, List.mem_append] at hq
    exact hq.imp List.mem_of_mem_erase id
  have hissb : ∀ q ∈ issued, q.handler.bridge = some b := fun q hq =>
    Handler.bridge_of_relays (hissued q hq).2.1
  have hregsub : ∀ x, x ∈ w1.bridge_instances → x ∈ w.bridge_instances := by
    intro x hx
    rcases hreg with h | ⟨h, _⟩
    · rwa [h] at hx
    · rw [h] at hx
      exact List.mem_of_mem_erase hx
  refine
    { wf := ?_, accept_le := ?_, accept_session := ?_, session := ?_, fresh := ?_,
      registered_lt := ?_, nodup := ?_, connect_registered := ?_, connect_silent := ?_,
      wbp_client := ?_,
      wbp_server := ?_, closed_of_unregistered := ?_, wssp := ?_, wcsp := ?_, peers := ?_,
      up_to_down := ?_, down_to_up := ?_ }
  · intro q hq
    rcases hmem q hq with h | h
    · exact hI.wf q h
    · exact (hissued q h).1
  · rw [hpend, List.countP_append,
      countP_eq_zero_of_forall fun q hq => Handler.accepts_of_bridge (hissb q hq)]
    have := hI.accept_le
    rw [countP_erase_add _ _ _ hp] at this
    omega
  · intro q hq hqa
    rw [hsess]
    rcases hmem q hq with h | h
    · exact hI.accept_session q h hqa
    · have := hissb q h
      simp [hqa, Handler.bridge] at this
  · obtain ⟨s, hs1, hs2⟩ := hI.session
    refine ⟨s, by rw [hsess, hs1], ?_⟩
    rcases hreg with h | ⟨h, _⟩
    · rw [h, hs2]
    · rw [h]
      exact getLast?_erase_of_ne b s _ hs2 (fun h => hst.1 (by rw [hs1, h]))
  · intro b1 hb1
    rw [hsess, hnext] at hb1
    have hne : b1 ≠ b := by
      rintro rfl
      rcases hb1 with h | h
      · exact hst.1 h
      · omega
    have hf := hI.fresh b1 hb1
    constructor
    · intro q hq
      rcases hmem q hq with h | h
      · exact hf.1 q h
      · rw [hissb q h]
        simpa using fun h => hne h.symm
    · intro e he
      rw [hlog, List.mem_append] at he
      rcases he with h | h
      · exact hf.2 e h
      · rw [hevents e h]
        exact fun h => hne h.symm
  · intro x hx
    rw [hnext]
    exact hI.registered_lt x (hregsub x hx)
  · rcases hreg with h | ⟨h, _⟩
    · rw [h]
      exact hI.nodup
    · rw [h]
      exact hI.nodup.erase b
  · intro q hq x hqx
    rcases hmem q hq with h | h
    · have hx := hI.connect_registered q h x hqx
      rcases hreg with hr | ⟨hr, hiss, _⟩
      · rwa [hr]
      · rw [hr]
        have hq1 : q ∈ w.pending.erase p := by
          rw [hpend, hiss, List.append_nil] at hq
          exact hq
        have hxb : x ≠ b := by
          rintro rfl
          exact hI.no_connect_after hp hb q hq1 hqx
        exact (List.mem_erase_of_ne hxb).mpr hx
    · have := (hissued q h).2.1
      simp [hqx, Handler.relays] at this
  · intro q hq x hqx e he
    rcases hmem q hq with h | h
    · rw [hlog, List.mem_append] at he
      rcases he with he | he
      · exact hI.connect_silent q h x hqx e he
      · rw [hevents e he]
        rintro rfl
        have hq1 : q ∈ w.pending.erase p ∨ q ∈ issued := by
          rw [hpend, List.mem_append] at hq
          exact hq
        rcases hq1 with hq1 | hq1
        · exact hI.no_connect_after hp hb q hq1 hqx
        · have := (hissued q hq1).2.1
          simp [hqx, Handler.relays] at this
    · have := (hissued q h).2.1
      simp [hqx, Handler.relays] at this
  · intro c hc
    rw [hwbpc]
    exact hI.wbp_client c (by rwa [hnext] at hc)
  · intro s hs
    rw [hwbps]
    exact hI.wbp_server s (by rwa [hnext] at hs)
  · intro x hx hxr
    rw [hnext] at hx
    by_cases hxw : x ∈ w.bridge_instances
    · rcases hreg with h | ⟨h, _, hc1, hc2⟩
      · exact absurd (by rwa [h]) hxr
      · have hxb : x = b := by
          by_contra hne
          exact hxr (by rw [h]; exact (List.mem_erase_of_ne hne).mpr hxw)
        subst hxb
        exact ⟨hc1, hc2⟩
    · have := hI.closed_of_unregistered x hx hxw
      constructor
      · cases hv : (w1.clients x).upstream_socket_ with
        | false => rfl
        | true => rw [hopenc x hv] at this; simp at this
      · cases hv : (w1.servers x).downstream_socket_ with
        | false => rfl
        | true => rw [hopens x hv] at this; simp at this
  · intro c x hx
    rcases hwssp c with h | h
    · exact hI.wssp c x (by rwa [h] at hx)
    · rw [h] at hx
      exact (Option.some.inj hx).symm
  · intro s x hx
    rcases hwcsp s with h | h
    · exact hI.wcsp s x (by rwa [h] at hx)
    · rw [h] at hx
      exact (Option.some.inj hx).symm
  · intro q hq x hqx
    rcases hmem q hq with h | h
    · obtain ⟨h1, h2⟩ := hI.peers q h x hqx
      constructor
      · rcases hwssp x with h3 | h3
        · rw [h3, h1]
        · exact h3
      · rcases hwcsp x with h3 | h3
        · rw [h3, h2]
        · exact h3
    · have hx1 := hissb q h
      rw [Handler.bridge_of_relays hqx] at hx1
      have hxb : x = b := Option.some.inj hx1
      subst hxb
      exact (hissued q h).2.2
  · intro b1
    by_cases hne : b1 = b
    · subst hne
      exact hud
    · rw [hpend, hlog]
      refine (hI.up_to_down b1).advance hp issued events ?_ ?_ ?_ ?_
      · rw [countP_eq_zero_of_forall fun q hq => Handler.up_to_down_of_ne (hissb q hq) hne]
        exact Nat.zero_le _
      · intro _
        exact ⟨log_written_of_bridge_ne _ _ fun e he => by rw [hevents e he]; exact Ne.symm hne,
          log_delivered_of_bridge_ne _ _ fun e he => by rw [hevents e he]; exact Ne.symm hne⟩
      · rw [countP_eq_zero_of_forall fun q hq => Handler.up_to_down_of_ne (hissb q hq) hne]
        intro h
        exact absurd h (by decide)
      · intro _
        exact log_written_of_bridge_ne _ _ fun e he => by rw [hevents e he]; exact Ne.symm hne
  · intro b1
    by_cases hne : b1 = b
    · subst hne
      exact hdu
    · rw [hpend, hlog]
      refine (hI.down_to_up b1).advance hp issued events ?_ ?_ ?_ ?_
      · rw [countP_eq_zero_of_forall fun q hq => Handler.down_to_up_of_ne (hissb q hq) hne]
        exact Nat.zero_le _
      · intro _
        exact ⟨log_written_of_bridge_ne _ _ fun e he => by rw [hevents e he]; exact Ne.symm hne,
          log_delivered_of_bridge_ne _ _ fun e he => by rw [hevents e he]; exact Ne.symm hne⟩
      · rw [countP_eq_zero_of_forall fun q hq => Handler.down_to_up_of_ne (hissb q hq) hne]
        intro h
        exact absurd h (by decide)
      · intro _
        exact log_written_of_bridge_ne _ _ fun e he => by rw [hevents e he]; exact Ne.symm hne

/-! ## The heap -/

section heap
variable (f : Nat → client_splice) (g : Nat → server_splice) (a c : Nat)

@[simp] theorem update_client_socket (v : client_splice)
    (h : v.upstream_socket_ = (f a).upstream_socket_) :
    (Function.update f a v c).upstream_socket_ = (f c).upstream_socket_ := by
  by_cases hc : c = a <;> simp [Function.update_apply, hc, h]

@[simp] theorem update_client_wbp (v : client_splice) (h : v.wbp_ = (f a).wbp_) :
    (Function.update f a v c).wbp_ = (f c).wbp_ := by
  by_cases hc : c = a <;> simp [Function.update_apply, hc, h]

@[simp] theorem update_client_wssp (v : client_splice) (h : v.wssp_ = (f a).wssp_) :
    (Function.update f a v c).wssp_ = (f c).wssp_ := by
  by_cases hc : c = a <;> simp [Function.update_apply, hc, h]

@[simp] theorem update_client_data (v : client_splice)
    (h : v.upstream_data_ = (f a).upstream_data_) :
    (Function.update f a v c).upstream_data_ = (f c).upstream_data_ := by
  by_cases hc : c = a <;> simp [Function.update_apply, hc, h]

@[simp] theorem update_server_socket (v : server_splice)
    (h : v.downstream_socket_ = (g a).downstream_socket_) :
    (Function.update g a v c).downstream_socket_ = (g c).downstream_socket_ := by
  by_cases hc : c = a <;> simp [Function.update_apply, hc, h]

@[simp] theorem update_server_wbp (v : server_splice) (h : v.wbp_ = (g a).wbp_) :
    (Function.update g a v c).wbp_ = (g c).wbp_ := by
  by_cases hc : c = a <;> simp [Function.update_apply, hc, h]

@[simp] theorem update_server_wcsp (v : server_splice) (h : v.wcsp_ = (g a).wcsp_) :
    (Function.update g a v c).wcsp_ = (g c).wcsp_ := by
  by_cases hc : c = a <;> simp [Function.update_apply, hc, h]

@[simp] theorem update_server_data (v : server_splice)
    (h : v.downstream_data_ = (g a).downstream_data_) :
    (Function.update g a v c).downstream_data_ = (g c).downstream_data_ := by
  by_cases hc : c = a <;> simp [Function.update_apply, hc, h]

end heap

theorem client_close_eq (c : Nat) (w : World) :
    client_splice.close c w = w.set_open false (.upstream_socket_ c) := by
  unfold client_splice.close
  split
  · rfl
  · rename_i h
    have h1 : (w.clients c).upstream_socket_ = false := by simpa using h
    have h2 : { w.clients c with upstream_socket_ := false } = w.clients c := by
      cases hc : w.clients c
      simp_all
    simp [World.set_open, h2]

theorem server_close_eq (s : Nat) (w : World) :
    server_splice.close s w = w.set_open false (.downstream_socket_ s) := by
  unfold server_splice.close
  split
  · rfl
  · rename_i h
    have h1 : (w.servers s).downstream_socket_ = false := by simpa using h
    have h2 : { w.servers s with downstream_socket_ := false } = w.servers s := by
      cases hc : w.servers s
      simp_all
    simp [World.set_open, h2]

theorem bridge_close_eq (b : Nat) (w : World) :
    bridge.close b w = (bridge.erase_loop b [] w.bridge_instances).map fun v =>
      { (w.set_open false (.downstream_socket_ b)).set_open false (.upstream_socket_ b) with
        bridge_instances := v } := by
  simp [bridge.close, client_close_eq, server_close_eq, World.set_open]

theorem lock_bridge_eq (w : World) (o : Option Nat) (b : Nat) (h : o = some b) :
    lock_bridge w o = if b ∈ w.bridge_instances then some b else none := by
  subst h
  rfl

theorem lock_server_some {w : World} {o : Option Nat} {s : Nat} (h : lock_server w o = some s) :
    o = some s := by
  cases o with
  | none => simp [lock_server] at h
  | some x =>
    simp only [lock_server] at h
    split at h <;> simp_all

theorem lock_client_some {w : World} {o : Option Nat} {c : Nat} (h : lock_client w o = some c) :
    o = some c := by
  cases o with
  | none => simp [lock_client] at h
  | some x =>
    simp only [lock_client] at h
    split at h <;> simp_all

/-- The error branch of a handler keeps the invariant. -/
theorem Inv.on_error_step {w w1 w2 : World} (hI : Inv w) {p : Operation} (hp : p ∈ w.pending)
    {b : Nat} (hb : p.handler.bridge = some b) (events : List Event)
    (herr : client_splice.on_error b w1 = some w2 ∨ server_splice.on_error b w1 = some w2)
    (hpend : w1.pending = w.pending.erase p)
    (hlog : w1.log = w.log ++ events)
    (hsess : w1.session_ = w.session_)
    (hnext : w1.next = w.next)
    (hreg : w1.bridge_instances = w.bridge_instances)
    (hwbpc : ∀ c, (w1.clients c).wbp_ = (w.clients c).wbp_)
    (hwbps : ∀ s, (w1.servers s).wbp_ = (w.servers s).wbp_)
    (hwssp : ∀ c, (w1.clients c).wssp_ = (w.clients c).wssp_)
    (hwcsp : ∀ s, (w1.servers s).wcsp_ = (w.servers s).wcsp_)
    (hopenc : ∀ c, (w1.clients c).upstream_socket_ = (w.clients c).upstream_socket_)
    (hopens : ∀ s, (w1.servers s).downstream_socket_ = (w.servers s).downstream_socket_)
    (hevents : ∀ e ∈ events, e.bridge = b)
    (hud : Direction (Handler.up_to_down b) (.downstream_socket_ b) (.upstream_socket_ b)
      w1.pending w1.log)
    (hdu : Direction (Handler.down_to_up b) (.upstream_socket_ b) (.downstream_socket_ b)
      w1.pending w1.log) :
    Inv w2 := by
  have hst := hI.started hp hb
  have hc : (w1.clients b).wbp_ = some b := by rw [hwbpc]; exact hI.wbp_client b hst.2
  have hs : (w1.servers b).wbp_ = some b := by rw [hwbps]; exact hI.wbp_server b hst.2
  simp only [client_splice.on_error, server_splice.on_error, lock_bridge_eq _ _ _ hc,
    lock_bridge_eq _ _ _ hs, client_close_eq, server_close_eq,
    bridge_close_eq] at herr
  by_cases hbr : b ∈ w1.bridge_instances
  · simp only [hbr, if_true, or_self] at herr
    rw [hreg, erase_loop_nodup hI.nodup] at herr
    split at herr
    · simp at herr
    · simp only [Option.map_some', Option.some.injEq] at herr
      subst herr
      refine hI.relay_step hp hb [] events (by simpa [World.set_open] using hpend)
        (by simpa [World.set_open] using hlog) (by simpa [World.set_open] using hsess)
        (by simpa [World.set_open] using hnext)
        (Or.inr ⟨by simp [World.set_open, hreg], rfl, by simp [World.set_open],
          by simp [World.set_open]⟩)
        (fun c => by simp [World.set_open, hwbpc]) (fun c => by simp [World.set_open, hwbps])
        (fun c => Or.inl (by simp [World.set_open, hwssp]))
        (fun c => Or.inl (by simp [World.set_open, hwcsp]))
        (fun c => by
          by_cases hcb : c = b <;> simp [World.set_open, Function.update_apply, hcb, hopenc])
        (fun c => by
          by_cases hcb : c = b <;> simp [World.set_open, Function.update_apply, hcb, hopens])
        (by simp) hevents (by simpa [World.set_open] using hud)
        (by simpa [World.set_open] using hdu)
  · simp only [hbr, if_false] at herr
    have hoc : ∀ c, ((w1.set_open false (.upstream_socket_ b)).clients c).upstream_socket_ = true →
        (w.clients c).upstream_socket_ = true := fun c => by
      by_cases hcb : c = b <;> simp [World.set_open, Function.update_apply, hcb, hopenc]
    have hos : ∀ c, ((w1.set_open false (.downstream_socket_ b)).servers c).downstream_socket_
        = true → (w.servers c).downstream_socket_ = true := fun c => by
      by_cases hcb : c = b <;> simp [World.set_open, Function.update_apply, hcb, hopens]
    rcases herr with herr | herr
    · simp only [Option.some.injEq] at herr
      subst herr
      exact hI.relay_step hp hb [] events (by simpa [World.set_open] using hpend)
        (by simpa [World.set_open] using hlog) (by simpa [World.set_open] using hsess)
        (by simpa [World.set_open] using hnext)
        (Or.inl (by simpa [World.set_open] using hreg))
        (fun c => by simp [World.set_open, hwbpc]) (fun c => by simp [World.set_open, hwbps])
        (fun c => Or.inl (by simp [World.set_open, hwssp]))
        (fun c => Or.inl (by simp [World.set_open, hwcsp]))
        hoc (fun c => by simp [World.set_open, hopens])
        (by simp) hevents (by simpa [World.set_open] using hud)
        (by simpa [World.set_open] using hdu)
    · simp only [Option.some.injEq] at herr
      subst herr
      exact hI.relay_step hp hb [] events (by simpa [World.set_open] using hpend)
        (by simpa [World.set_open] using hlog) (by simpa [World.set_open] using hsess)
        (by simpa [World.set_open] using hnext)
        (Or.inl (by simpa [World.set_open] using hreg))
        (fun c => by simp [World.set_open, hwbpc]) (fun c => by simp [World.set_open, hwbps])
        (fun c => Or.inl (by simp [World.set_open, hwssp]))
        (fun c => Or.inl (by simp [World.set_open, hwcsp]))
        (fun c => by simp [World.set_open, hopenc]) hos
        (by simp) hevents (by simpa [World.set_open] using hud)
        (by simpa [World.set_open] using hdu)

theorem Inv.step_upstream_read {w w1 : World} (hI : Inv w) {c n : Nat} {error : Bool}
    {data : List Nat}
    (hs : step w ⟨⟨.async_read_some (.upstream_socket_ c) (.upstream_data_ c) n,
      .handle_upstream_read c⟩, error, data⟩ = some w1) : Inv w1 := by
  simp only [step] at hs
  split at hs
  case isFalse => simp at hs
  case isTrue hp =>
  have hb : (Operation.mk (.async_read_some (.upstream_socket_ c) (.upstream_data_ c) n)
      (.handle_upstream_read c)).handler.bridge = some c := rfl
  have hpeers := hI.peers _ hp c (by simp [Handler.relays])
  simp only [complete, Request.effect, Handler.invoke] at hs
  generalize List.take n data = d at hs
  cases error with
  | true =>
    simp only [client_splice.handle_upstream_read, Bool.true_eq_false, if_false] at hs
    refine hI.on_error_step hp hb [.read (.upstream_socket_ c) d] (Or.inl hs) rfl rfl rfl rfl rfl
      (fun x => by simp [World.store]) (fun x => by simp [World.store])
      (fun x => by simp [World.store]) (fun x => by simp [World.store])
      (fun x => by simp [World.store]) (fun x => by simp [World.store])
      (by simp [Event.bridge, Socket.bridge]) ?_ ?_
    · have := (hI.up_to_down c).advance hp [] [.read (.upstream_socket_ c) d] (by simp)
        (by simp [Handler.up_to_down]) (by simp) (by simp [log_written, Event.written])
      simpa [World.store] using this
    · have := (hI.down_to_up c).advance hp [] [.read (.upstream_socket_ c) d] (by simp)
        (by simp [Handler.down_to_up, log_written, log_delivered, Event.written,
          Event.delivered])
        (by simp) (by simp [log_written, Event.written])
      simpa [World.store] using this
  | false =>
    simp only [client_splice.handle_upstream_read, if_true] at hs
    split at hs
    · simp at hs
    · rename_i ssp hlock
      have hssp := lock_server_some hlock
      simp only [World.store] at hssp
      simp at hssp
      have hc := hI.wssp _ _ hssp
      subst hc
      simp only [Option.some.injEq] at hs
      subst hs
      refine hI.relay_step hp hb
        [⟨.async_write (.downstream_socket_ ssp) (.upstream_data_ ssp) d.length,
          .handle_downstream_write ssp⟩]
        [.read (.upstream_socket_ ssp) d, .write (.downstream_socket_ ssp) d]
        rfl (by simp [async_write, World.store, World.view, World.buffer]) rfl rfl (Or.inl rfl)
        (fun x => by simp [async_write, World.store])
        (fun x => by simp [async_write, World.store])
        (fun x => Or.inl (by simp [async_write, World.store]))
        (fun x => Or.inl (by simp [async_write, World.store]))
        (fun x => by simp [async_write, World.store])
        (fun x => by simp [async_write, World.store])
        (by simpa [Operation.wf, Handler.relays, async_write, World.store] using hpeers)
        (by simp [Event.bridge, Socket.bridge]) ?_ ?_
      · have := (hI.up_to_down ssp).advance hp
          [⟨.async_write (.downstream_socket_ ssp) (.upstream_data_ ssp) d.length,
            .handle_downstream_write ssp⟩]
          [.read (.upstream_socket_ ssp) d, .write (.downstream_socket_ ssp) d]
          (by simp [Handler.up_to_down]) (by simp [Handler.up_to_down])
          (by simp [log_written, log_delivered, Event.written, Event.delivered])
          (by simp [Handler.up_to_down])
        simpa [async_write, World.store, World.view, World.buffer] using this
      · have := (hI.down_to_up ssp).advance hp
          [⟨.async_write (.downstream_socket_ ssp) (.upstream_data_ ssp) d.length,
            .handle_downstream_write ssp⟩]
          [.read (.upstream_socket_ ssp) d, .write (.downstream_socket_ ssp) d]
          (by simp [Handler.down_to_up])
          (by simp [log_written, log_delivered, Event.written, Event.delivered])
          (by simp [Handler.down_to_up])
          (by simp [log_written, log_delivered, Event.written, Event.delivered])
        simpa [async_write, World.store, World.view, World.buffer] using this

theorem Inv.step_downstream_read {w w1 : World} (hI : Inv w) {c n : Nat} {error : Bool}
    {data : List Nat}
    (hs : step w ⟨⟨.async_read_some (.downstream_socket_ c) (.downstream_data_ c) n,
      .handle_downstream_read c⟩, error, data⟩ = some w1) : Inv w1 := by
  simp only [step] at hs
  split at hs
  case isFalse => simp at hs
  case isTrue hp =>
  have hb : (Operation.mk (.async_read_some (.downstream_socket_ c) (.downstream_data_ c) n)
      (.handle_downstream_read c)).handler.bridge = some c := rfl
  have hpeers := hI.peers _ hp c (by simp [Handler.relays])
  simp only [complete, Request.effect, Handler.invoke] at hs
  generalize List.take n data = d at hs
  cases error with
  | true =>
    simp only [server_splice.handle_downstream_read, Bool.true_eq_false, if_false] at hs
    refine hI.on_error_step hp hb [.read (.downstream_socket_ c) d] (Or.inr hs) rfl rfl rfl rfl rfl
      (fun x => by simp [World.store]) (fun x => by simp [World.store])
      (fun x => by simp [World.store]) (fun x => by simp [World.store])
      (fun x => by simp [World.store]) (fun x => by simp [World.store])
      (by simp [Event.bridge, Socket.bridge]) ?_ ?_
    swap
    · have := (hI.down_to_up c).advance hp [] [.read (.downstream_socket_ c) d] (by simp)
        (by simp [Handler.down_to_up]) (by simp) (by simp [log_written, Event.written])
      simpa [World.store] using this
    · have := (hI.up_to_down c).advance hp [] [.read (.downstream_socket_ c) d] (by simp)
        (by simp [Handler.up_to_down, log_written, log_delivered, Event.written,
          Event.delivered])
        (by simp) (by simp [log_written, Event.written])
      simpa [World.store] using this
  | false =>
    simp only [server_splice.handle_downstream_read, if_true] at hs
    split at hs
    · simp at hs
    · rename_i ssp hlock
      have hssp := lock_client_some hlock
      simp only [World.store] at hssp
      simp at hssp
      have hc := hI.wcsp _ _ hssp
      subst hc
      simp only [Option.some.injEq] at hs
      subst hs
      refine hI.relay_step hp hb
        [⟨.async_write (.upstream_socket_ ssp) (.downstream_data_ ssp) d.length,
          .handle_upstream_write ssp⟩]
        [.read (.downstream_socket_ ssp) d, .write (.upstream_socket_ ssp) d]
        rfl (by simp [async_write, World.store, World.view, World.buffer]) rfl rfl (Or.inl rfl)
        (fun x => by simp [async_write, World.store])
        (fun x => by simp [async_write, World.store])
        (fun x => Or.inl (by simp [async_write, World.store]))
        (fun x => Or.inl (by simp [async_write, World.store]))
        (fun x => by simp [async_write, World.store])
        (fun x => by simp [async_write, World.store])
        (by simpa [Operation.wf, Handler.relays, async_write, World.store] using hpeers)
        (by simp [Event.bridge, Socket.bridge]) ?_ ?_
      swap
      · have := (hI.down_to_up ssp).advance hp
          [⟨.async_write (.upstream_socket_ ssp) (.downstream_data_ ssp) d.length,
            .handle_upstream_write ssp⟩]
          [.read (.downstream_socket_ ssp) d, .write (.upstream_socket_ ssp) d]
          (by simp [Handler.down_to_up]) (by simp [Handler.down_to_up])
          (by simp [log_written, log_delivered, Event.written, Event.delivered])
          (by simp [Handler.down_to_up])
        simpa [async_write, World.store, World.view, World.buffer] using this
      · have := (hI.up_to_down ssp).advance hp
          [⟨.async_write (.upstream_socket_ ssp) (.downstream_data_ ssp) d.length,
            .handle_upstream_write ssp⟩]
          [.read (.downstream_socket_ ssp) d, .write (.upstream_socket_ ssp) d]
          (by simp [Handler.up_to_down])
          (by simp [log_written, log_delivered, Event.written, Event.delivered])
          (by simp [Handler.up_to_down])
          (by simp [log_written, log_delivered, Event.written, Event.delivered])
        simpa [async_write, World.store, World.view, World.buffer] using this

theorem Inv.step_downstream_write {w w1 : World} (hI : Inv w) {s n : Nat} {error : Bool}
    {data : List Nat}
    (hs : step w ⟨⟨.async_write (.downstream_socket_ s) (.upstream_data_ s) n,
      .handle_downstream_write s⟩, error, data⟩ = some w1) : Inv w1 := by
  simp only [step] at hs
  split at hs
  case isFalse => simp at hs
  case isTrue hp =>
  have hb : (Operation.mk (.async_write (.downstream_socket_ s) (.upstream_data_ s) n)
      (.handle_downstream_write s)).handler.bridge = some s := rfl
  have hpeers := hI.peers _ hp s (by simp [Handler.relays])
  simp only [complete, Request.effect, Handler.invoke] at hs
  cases error with
  | true =>
    simp only [server_splice.handle_downstream_write, Bool.true_eq_false, if_false] at hs
    refine hI.on_error_step hp hb [] (Or.inr hs) rfl (by simp) rfl rfl rfl
      (fun x => rfl) (fun x => rfl) (fun x => rfl) (fun x => rfl) (fun x => rfl) (fun x => rfl)
      (by simp) ?_ ?_
    · exact (hI.up_to_down s).drop hp
    · exact (hI.down_to_up s).drop hp
  | false =>
    simp only [server_splice.handle_downstream_write, if_true] at hs
    split at hs
    · simp at hs
    · rename_i csp hlock
      have hcsp := lock_client_some hlock
      simp at hcsp
      have hc := hI.wcsp _ _ hcsp
      subst hc
      simp only [Option.some.injEq] at hs
      subst hs
      refine hI.relay_step hp hb
        [⟨.async_read_some (.upstream_socket_ csp) (.upstream_data_ csp) max_data_length,
          .handle_upstream_read csp⟩] []
        rfl (by simp [async_read_some]) rfl rfl (Or.inl rfl)
        (fun x => rfl) (fun x => rfl) (fun x => Or.inl rfl) (fun x => Or.inl rfl)
        (fun x => id) (fun x => id)
        (by simpa [Operation.wf, Handler.relays, async_read_some] using hpeers)
        (by simp) ?_ ?_
      · have := (hI.up_to_down csp).advance hp
          [⟨.async_read_some (.upstream_socket_ csp) (.upstream_data_ csp) max_data_length,
            .handle_upstream_read csp⟩] []
          (by simp [Handler.up_to_down]) (by simp [log_written, log_delivered])
          (by simp [log_written, log_delivered]) (by simp [log_written])
        simpa [async_read_some] using this
      · have := (hI.down_to_up csp).advance hp
          [⟨.async_read_some (.upstream_socket_ csp) (.upstream_data_ csp) max_data_length,
            .handle_upstream_read csp⟩] []
          (by simp [Handler.down_to_up]) (by simp [log_written, log_delivered])
          (by simp [log_written, log_delivered]) (by simp [log_written])
        simpa [async_read_some] using this

theorem Inv.step_upstream_write {w w1 : World} (hI : Inv w) {s n : Nat} {error : Bool}
    {data : List Nat}
    (hs : step w ⟨⟨.async_write (.upstream_socket_ s) (.downstream_data_ s) n,
      .handle_upstream_write s⟩, error, data⟩ = some w1) : Inv w1 := by
  simp only [step] at hs
  split at hs
  case isFalse => simp at hs
  case isTrue hp =>
  have hb : (Operation.mk (.async_write (.upstream_socket_ s) (.downstream_data_ s) n)
      (.handle_upstream_write s)).handler.bridge = some s := rfl
  have hpeers := hI.peers _ hp s (by simp [Handler.relays])
  simp only [complete, Request.effect, Handler.invoke] at hs
  cases error with
  | true =>
    simp only [client_splice.handle_upstream_write, Bool.true_eq_false, if_false] at hs
    refine hI.on_error_step hp hb [] (Or.inl hs) rfl (by simp) rfl rfl rfl
      (fun x => rfl) (fun x => rfl) (fun x => rfl) (fun x => rfl) (fun x => rfl) (fun x => rfl)
      (by simp) ?_ ?_
    swap
    · exact (hI.down_to_up s).drop hp
    · exact (hI.up_to_down s).drop hp
  | false =>
    simp only [client_splice.handle_upstream_write, if_true] at hs
    split at hs
    · simp at hs
    · rename_i csp hlock
      have hcsp := lock_server_some hlock
      simp at hcsp
      have hc := hI.wssp _ _ hcsp
      subst hc
      simp only [Option.some.injEq] at hs
      subst hs
      refine hI.relay_step hp hb
        [⟨.async_read_some (.downstream_socket_ csp) (.downstream_data_ csp) max_data_length,
          .handle_downstream_read csp⟩] []
        rfl (by simp [async_read_some]) rfl rfl (Or.inl rfl)
        (fun x => rfl) (fun x => rfl) (fun x => Or.inl rfl) (fun x => Or.inl rfl)
        (fun x => id) (fun x => id)
        (by simpa [Operation.wf, Handler.relays, async_read_some] using hpeers)
        (by simp) ?_ ?_
      swap
      · have := (hI.down_to_up csp).advance hp
          [⟨.async_read_some (.downstream_socket_ csp) (.downstream_data_ csp) max_data_length,
            .handle_downstream_read csp⟩] []
          (by simp [Handler.down_to_up]) (by simp [log_written, log_delivered])
          (by simp [log_written, log_delivered]) (by simp [log_written])
        simpa [async_read_some] using this
      · have := (hI.up_to_down csp).advance hp
          [⟨.async_read_some (.downstream_socket_ csp) (.downstream_data_ csp) max_data_length,
            .handle_downstream_read csp⟩] []
          (by simp [Handler.up_to_down]) (by simp [log_written, log_delivered])
          (by simp [log_written, log_delivered]) (by simp [log_written])
        simpa [async_read_some] using this

theorem Inv.step_upstream_connect {w w1 : World} (hI : Inv w) {c port : Nat} {host : String}
    {error : Bool} {data : List Nat}
    (hs : step w ⟨⟨.async_connect (.upstream_socket_ c) host port,
      .handle_upstream_connect c⟩, error, data⟩ = some w1) : Inv w1 := by
  simp only [step] at hs
  split at hs
  case isFalse => simp at hs
  case isTrue hp =>
  have hb : (Operation.mk (.async_connect (.upstream_socket_ c) host port)
      (.handle_upstream_connect c)).handler.bridge = some c := rfl
  have hst := hI.started hp hb
  have hreg := hI.connect_registered _ hp c rfl
  have hwbp := hI.wbp_client c hst.2
  simp only [complete, Request.effect, Handler.invoke] at hs
  cases error with
  | true =>
    simp only [client_splice.handle_upstream_connect, Bool.true_eq_false, if_false] at hs
    refine hI.on_error_step hp hb [] (Or.inl hs) rfl (by simp) rfl rfl rfl
      (fun x => rfl) (fun x => rfl) (fun x => rfl) (fun x => rfl) (fun x => rfl) (fun x => rfl)
      (by simp) ?_ ?_
    · exact (hI.up_to_down c).drop hp
    · exact (hI.down_to_up c).drop hp
  | false =>
    simp only [client_splice.handle_upstream_connect, if_true] at hs
    rw [lock_bridge_eq _ _ c hwbp] at hs
    simp only [hreg, if_true, Option.some.injEq] at hs
    subst hs
    refine hI.relay_step hp hb
      [⟨.async_read_some (.upstream_socket_ c) (.upstream_data_ c) max_data_length,
          .handle_upstream_read c⟩,
        ⟨.async_read_some (.downstream_socket_ c) (.downstream_data_ c) max_data_length,
          .handle_downstream_read c⟩] []
      (by simp [async_read_some, client_splice.set_ss, server_splice.set_cs])
      (by simp [async_read_some, client_splice.set_ss, server_splice.set_cs]) rfl rfl (Or.inl rfl)
      (fun x => by simp [async_read_some, client_splice.set_ss, server_splice.set_cs])
      (fun x => by simp [async_read_some, client_splice.set_ss, server_splice.set_cs])
      (fun x => by
        by_cases hx : x = c <;>
          simp [async_read_some, client_splice.set_ss, server_splice.set_cs,
            Function.update_apply, hx])
      (fun x => by
        by_cases hx : x = c <;>
          simp [async_read_some, client_splice.set_ss, server_splice.set_cs,
            Function.update_apply, hx])
      (fun x => by simp [async_read_some, client_splice.set_ss, server_splice.set_cs])
      (fun x => by simp [async_read_some, client_splice.set_ss, server_splice.set_cs])
      (by simp [Operation.wf, Handler.relays, async_read_some, client_splice.set_ss,
        server_splice.set_cs])
      (by simp) ?_ ?_
    · have := (hI.up_to_down c).advance hp
        [⟨.async_read_some (.upstream_socket_ c) (.upstream_data_ c) max_data_length,
            .handle_upstream_read c⟩,
          ⟨.async_read_some (.downstream_socket_ c) (.downstream_data_ c) max_data_length,
            .handle_downstream_read c⟩] []
        (by simp [Handler.up_to_down]) (by simp [log_written, log_delivered])
        (by simp [log_written, log_delivered]) (by simp [log_written])
      simpa [async_read_some, client_splice.set_ss, server_splice.set_cs] using this
    · have := (hI.down_to_up c).advance hp
        [⟨.async_read_some (.upstream_socket_ c) (.upstream_data_ c) max_data_length,
            .handle_upstream_read c⟩,
          ⟨.async_read_some (.downstream_socket_ c) (.downstream_data_ c) max_data_length,
            .handle_downstream_read c⟩] []
        (by simp [Handler.down_to_up]) (by simp [log_written, log_delivered])
        (by simp [log_written, log_delivered]) (by simp [log_written])
      simpa [async_read_some, client_splice.set_ss, server_splice.set_cs] using this

theorem Inv.dequeue {w : World} (hI : Inv w) {p : Operation} (hp : p ∈ w.pending) :
    Inv { w with pending := w.pending.erase p } := by
  have hsub : ∀ q, q ∈ w.pending.erase p → q ∈ w.pending := fun q => List.mem_of_mem_erase
  refine
    { wf := fun q hq => hI.wf q (hsub q hq)
      accept_le := ?_
      accept_session := fun q hq => hI.accept_session q (hsub q hq)
      session := hI.session
      fresh := fun b hb => ⟨fun q hq => (hI.fresh b hb).1 q (hsub q hq), (hI.fresh b hb).2⟩
      registered_lt := hI.registered_lt
      nodup := hI.nodup
      connect_registered := fun q hq => hI.connect_registered q (hsub q hq)
      connect_silent := fun q hq => hI.connect_silent q (hsub q hq)
      wbp_client := hI.wbp_client
      wbp_server := hI.wbp_server
      closed_of_unregistered := hI.closed_of_unregistered
      wssp := hI.wssp
      wcsp := hI.wcsp
      peers := fun q hq => hI.peers q (hsub q hq)
      up_to_down := fun b => (hI.up_to_down b).drop hp
      down_to_up := fun b => (hI.down_to_up b).drop hp }
  have := hI.accept_le
  rw [countP_erase_add _ _ _ hp] at this
  show List.countP _ (w.pending.erase p) ≤ 1
  omega

theorem Inv.session_registered {w : World} (hI : Inv w) :
    ∃ s, w.session_ = some s ∧ s ∈ w.bridge_instances ∧ s < w.next := by
  obtain ⟨s, h1, h2⟩ := hI.session
  have : s ∈ w.bridge_instances := List.mem_of_getLast?_eq_some h2
  exact ⟨s, h1, this, hI.registered_lt s this⟩

theorem Direction.fresh {f : Handler → Bool} {dst src : Socket} {pending : List Operation}
    {log : List Event} {b : Nat} (hd : dst.bridge = b) (hs : src.bridge = b)
    (hlog : ∀ e ∈ log, e.bridge ≠ b) (hc : (pending.countP fun p => f p.handler) ≤ 1) :
    Direction f dst src pending log := by
  have h1 : log_written dst log = [] :=
    log_written_of_bridge_ne _ _ fun e he => by rw [hd]; exact hlog e he
  have h2 : log_delivered src log = [] :=
    log_delivered_of_bridge_ne _ _ fun e he => by rw [hs]; exact hlog e he
  refine ⟨hc, ?_, fun _ => ?_⟩ <;> simp [h1, h2]

/-- A handler bound to a splice does not leave by an exception: only
`handle_accept` does. -/
theorem thrown_of_bridge {w : World} {c : Completion} {b : Nat}
    (h : c.op.handler.bridge = some b) : thrown w c = none := by
  obtain ⟨⟨req, hd⟩, error, data⟩ := c
  cases hd <;> simp [thrown, Handler.bridge] at h ⊢

/-- The state in which `handle_accept` returns: after an error the state it
was called in; without error, and with a forward host that is the text of an
address, the state in which the connect has been issued and
`accept_connections` has run.  It does not return when `session_.lock()` is
null, and when `bridge::start` throws. -/
theorem handle_accept_returns (error : Bool) (w : World) :
    (acceptor.handle_accept error w).bind Except.toOption =
      if error = false then
        match lock_bridge w w.session_ with
        | none => none
        | some bp =>
          if (ip.address.from_string w.upstream_host_).isSome = true then
            some (acceptor.accept_connections
              (async_connect (.upstream_socket_ bp) w.upstream_host_ w.upstream_port_
                (.handle_upstream_connect bp)
                { w with
                  num_server_connections_ :=
                    (w.num_server_connections_ + 1) % uint64_range })).2
          else none
      else some w := by
  cases error with
  | true => rfl
  | false =>
    simp only [acceptor.handle_accept, if_true]
    cases lock_bridge w w.session_ with
    | none => rfl
    | some bp =>
      simp only [bridge.start]
      cases ip.address.from_string w.upstream_host_ <;> rfl

theorem Inv.step_accept {w w1 : World} (hI : Inv w) {p : Operation} {error : Bool}
    {data : List Nat} (hh : p.handler = .handle_accept)
    (hs : step w ⟨p, error, data⟩ = some w1) : Inv w1 := by
  simp only [step] at hs
  split at hs
  case isFalse => simp at hs
  case isTrue hp =>
  obtain ⟨s, hsess, hsreg, hslt⟩ := hI.session_registered
  obtain ⟨s1, hs1, hreq⟩ := hI.accept_session _ hp hh
  have hss : s1 = s := by rw [hsess] at hs1; exact (Option.some.inj hs1).symm
  subst hss
  simp only [complete, Request.effect, Handler.invoke, hreq, hh] at hs
  rw [handle_accept_returns] at hs
  cases error with
  | true =>
    simp only [Bool.true_eq_false, if_false, Option.some.injEq] at hs
    subst hs
    exact hI.dequeue hp
  | false =>
    simp only [if_true] at hs
    rw [lock_bridge_eq _ _ s1 (by simpa [World.set_open] using hsess)] at hs
    simp only [World.set_open, hsreg, if_true] at hs
    split at hs
    case isFalse => simp at hs
    case isTrue hhost =>
    simp only [Option.some.injEq] at hs
    have hD := hI.dequeue hp
    have hfresh := hI.fresh s1 (Or.inl hsess)
    have hacc0 : (w.pending.erase p).countP (fun p => p.handler.accepts) = 0 := by
      have := hI.accept_le
      rw [countP_erase_add _ _ _ hp] at this
      simpa [hh, Handler.accepts] using this
    have hnoacc : ∀ q ∈ w.pending.erase p, q.handler ≠ .handle_accept := by
      intro q hq hqa
      rw [List.countP_eq_zero] at hacc0
      exact hacc0 q hq (by simp [hqa, Handler.accepts])
    have hsub : ∀ q, q ∈ w.pending.erase p → q ∈ w.pending := fun q => List.mem_of_mem_erase
    have hnext : s1 ≠ w.next := by omega
    subst hs
    refine
      { wf := ?_, accept_le := ?_, accept_session := ?_, session := ?_, fresh := ?_,
        registered_lt := ?_, nodup := ?_, connect_registered := ?_, connect_silent := ?_,
        wbp_client := ?_,
        wbp_server := ?_, closed_of_unregistered := ?_, wssp := ?_, wcsp := ?_, peers := ?_,
        up_to_down := ?_, down_to_up := ?_ }
    all_goals
      simp only [acceptor.accept_connections, bridge.new, bridge.init, bridge.start,
        async_accept, async_connect, client_splice.set_bridge, server_splice.set_bridge,
        World.set_open]
    · intro q hq
      simp only [List.mem_append, List.mem_singleton] at hq
      rcases hq with (hq | rfl) | rfl
      · exact hI.wf q (hsub q hq)
      · simp [Operation.wf]
      · simp [Operation.wf]
    · simp only [List.countP_append, hacc0]
      simp [Handler.accepts]
    · intro q hq hqa
      simp only [List.mem_append, List.mem_singleton] at hq
      rcases hq with (hq | rfl) | rfl
      · exact absurd hqa (hnoacc q hq)
      · simp at hqa
      · exact ⟨w.next, rfl, rfl⟩
    · exact ⟨w.next, rfl, by simp⟩
    · intro b hb
      have hbn : w.next ≤ b := by
        rcases hb with hb | hb
        · exact Nat.le_of_eq (Option.some.inj hb)
        · omega
      have hf := hI.fresh b (Or.inr hbn)
      refine ⟨?_, hf.2⟩
      intro q hq
      simp only [List.mem_append, List.mem_singleton] at hq
      rcases hq with (hq | rfl) | rfl
      · exact hf.1 q (hsub q hq)
      · simp only [Handler.bridge, ne_eq, Option.some.injEq]
        omega
      · simp [Handler.bridge]
    · intro b hb
      simp only [List.mem_append, List.mem_singleton] at hb
      rcases hb with hb | rfl
      · have := hI.registered_lt b hb
        omega
      · omega
    · refine List.Nodup.append hI.nodup (List.nodup_singleton _) ?_
      simp only [List.disjoint_singleton]
      intro h
      have := hI.registered_lt _ h
      omega
    · intro q hq b hqb
      simp only [List.mem_append, List.mem_singleton] at hq ⊢
      rcases hq with (hq | rfl) | rfl
      · exact Or.inl (hI.connect_registered q (hsub q hq) b hqb)
      · simp only [Handler.handle_upstream_connect.injEq] at hqb
        subst hqb
        exact Or.inl hsreg
      · simp at hqb
    · intro q hq b hqb
      simp only [List.mem_append, List.mem_singleton] at hq
      rcases hq with (hq | rfl) | rfl
      · exact hI.connect_silent q (hsub q hq) b hqb
      · simp only [Handler.handle_upstream_connect.injEq] at hqb
        subst hqb
        exact hfresh.2
      · simp at hqb
    · intro c hc
      by_cases hcn : c = w.next
      · subst hcn
        simp
      · have hlt : c < w.next := by omega
        simp [Function.update_apply, hcn]
        split
        · rename_i h
          subst h
          exact hI.wbp_client _ hlt
        · exact hI.wbp_client _ hlt
    · intro c hc
      by_cases hcn : c = w.next
      · subst hcn
        simp
      · have hlt : c < w.next := by omega
        simp [Function.update_apply, hcn]
        split
        · rename_i h
          subst h
          exact hI.wbp_server _ hlt
        · exact hI.wbp_server _ hlt
    · intro b hb hbr
      simp only [List.mem_append, List.mem_singleton, not_or] at hbr
      have hlt : b < w.next := by omega
      have hbs : b ≠ s1 := fun h => hbr.1 (h ▸ hsreg)
      have := hI.closed_of_unregistered b hlt hbr.1
      simpa [Function.update_apply, hbr.2, hbs] using this
    · intro c x
      by_cases hcn : c = w.next
      · subst hcn
        simp
      · simp only [Function.update_apply, hcn, if_false]
        split
        · rename_i h
          subst h
          exact hI.wssp _ x
        · exact hI.wssp c x
    · intro c x
      by_cases hcn : c = w.next
      · subst hcn
        simp
      · simp only [Function.update_apply, hcn, if_false]
        split
        · rename_i h
          subst h
          exact hI.wcsp _ x
        · exact hI.wcsp c x
    · intro q hq b hqb
      simp only [List.mem_append, List.mem_singleton] at hq
      rcases hq with (hq | rfl) | rfl
      · have hpe := hI.peers q (hsub q hq) b hqb
        have hbn : b ≠ w.next := by
          have := (hI.started (hsub q hq) (Handler.bridge_of_relays hqb)).2
          omega
        by_cases hbs : b = s1
        · subst hbs
          simpa [Function.update_apply, hbn] using hpe
        · simpa [Function.update_apply, hbn, hbs] using hpe
      · simp [Handler.relays] at hqb
      · simp [Handler.relays] at hqb
    · intro b
      by_cases hbs : b = s1
      · subst hbs
        refine Direction.fresh rfl rfl hfresh.2 ?_
        have h0 : (w.pending.erase p).countP (fun q => Handler.up_to_down b q.handler) = 0 :=
          countP_eq_zero_of_forall fun q hq => by
            have := hfresh.1 q (hsub q hq)
            cases hqh : q.handler <;> simp_all [Handler.bridge, Handler.up_to_down]
        rw [List.countP_append, List.countP_append, h0]
        simp [Handler.up_to_down]
      · have := (hI.up_to_down b).drop hp
        obtain ⟨h1, h2, h3⟩ := this
        have hbs2 : ¬ (s1 = b) := fun h => hbs h.symm
        refine ⟨?_, h2, ?_⟩ <;>
          simpa [List.countP_append, Handler.up_to_down, hbs2] using ‹_›
    · intro b
      by_cases hbs : b = s1
      · subst hbs
        refine Direction.fresh rfl rfl hfresh.2 ?_
        have h0 : (w.pending.erase p).countP (fun q => Handler.down_to_up b q.handler) = 0 :=
          countP_eq_zero_of_forall fun q hq => by
            have := hfresh.1 q (hsub q hq)
            cases hqh : q.handler <;> simp_all [Handler.bridge, Handler.down_to_up]
        rw [List.countP_append, List.countP_append, h0]
        simp [Handler.down_to_up]
      · have := (hI.down_to_up b).drop hp
        obtain ⟨h1, h2, h3⟩ := this
        have hbs2 : ¬ (s1 = b) := fun h => hbs h.symm
        refine ⟨?_, h2, ?_⟩ <;>
          simpa [List.countP_append, Handler.down_to_up, hbs2] using ‹_›

theorem Inv.main (forward_host : String) (forward_port : Nat) :
    Inv (main forward_host forward_port) := by
  refine
    { wf := ?_, accept_le := ?_, accept_session := ?_, session := ?_, fresh := ?_,
      registered_lt := ?_, nodup := ?_, connect_registered := ?_, connect_silent := ?_,
      wbp_client := ?_,
      wbp_server := ?_, closed_of_unregistered := ?_, wssp := ?_, wcsp := ?_, peers := ?_,
      up_to_down := ?_, down_to_up := ?_ }
  all_goals
    simp [tcp_proxy.main, acceptor.accept_connections, bridge.new, bridge.init, async_accept,
      client_splice.set_bridge, server_splice.set_bridge, Operation.wf, Handler.accepts,
      Handler.bridge, Handler.up_to_down, Handler.down_to_up, Handler.relays, Direction,
      log_written, log_delivered, Function.update_apply]
  all_goals
    intro c x
    split <;> simp

/-- The invariant is kept by every iteration of the event loop. -/
theorem Inv.step {w w1 : World} (hI : Inv w) {c : Completion} (hs : step w c = some w1) :
    Inv w1 := by
  have hp : c.op ∈ w.pending := by
    simp only [tcp_proxy.step] at hs
    split at hs
    · assumption
    · simp at hs
  have hwf := hI.wf _ hp
  obtain ⟨⟨req, h⟩, error, data⟩ := c
  cases h with
  | handle_accept => exact hI.step_accept rfl hs
  | handle_upstream_connect c =>
    cases req <;> simp only [Operation.wf] at hwf
    subst hwf
    exact hI.step_upstream_connect hs
  | handle_upstream_write c =>
    cases req <;> simp only [Operation.wf] at hwf
    obtain ⟨rfl, rfl⟩ := hwf
    exact hI.step_upstream_write hs
  | handle_upstream_read c =>
    cases req <;> simp only [Operation.wf] at hwf
    obtain ⟨rfl, rfl, rfl⟩ := hwf
    exact hI.step_upstream_read hs
  | handle_downstream_write s =>
    cases req <;> simp only [Operation.wf] at hwf
    obtain ⟨rfl, rfl⟩ := hwf
    exact hI.step_downstream_write hs
  | handle_downstream_read s =>
    cases req <;> simp only [Operation.wf] at hwf
    obtain ⟨rfl, rfl, rfl⟩ := hwf
    exact hI.step_downstream_read hs

theorem Inv.run {cs : List Completion} : ∀ {w w1 : World}, Inv w → run w cs = some w1 → Inv w1 := by
  induction cs with
  | nil =>
    intro w w1 hI h
    simp only [tcp_proxy.run, Option.some.injEq] at h
    exact h ▸ hI
  | cons c cs ih =>
    intro w w1 hI h
    simp only [tcp_proxy.run] at h
    cases hs : tcp_proxy.step w c with
    | none => simp [hs] at h
    | some w2 =>
      rw [hs] at h
      exact ih (hI.step hs) h

theorem Reachable.inv {forward_host : String} {forward_port : Nat} {w : World}
    (h : Reachable forward_host forward_port w) : Inv w := by
  obtain ⟨cs, hcs⟩ := h
  exact (Inv.main forward_host forward_port).run hcs

theorem Inv.not_last {w : World} (hI : Inv w) {p : Operation} (hp : p ∈ w.pending) {b : Nat}
    (hb : p.handler.bridge = some b) : w.bridge_instances.getLast? ≠ some b := by
  obtain ⟨s, hs1, hs2⟩ := hI.session
  rw [hs2]
  intro h
  exact (hI.started hp hb).1 (by rw [hs1, h])

theorem bridge.close_of_not_last {b : Nat} {w : World} (hnd : w.bridge_instances.Nodup)
    (hlast : w.bridge_instances.getLast? ≠ some b) :
    bridge.close b w = some (closed_world b w) := by
  rw [bridge_close_eq, erase_loop_nodup hnd, if_neg hlast]
  rfl

theorem client_on_error_eq {b : Nat} {w : World} (hw : (w.clients b).wbp_ = some b)
    (hnd : w.bridge_instances.Nodup) (hlast : w.bridge_instances.getLast? ≠ some b) :
    client_splice.on_error b w =
      some (if b ∈ w.bridge_instances then closed_world b w
        else w.set_open false (.upstream_socket_ b)) := by
  by_cases hbr : b ∈ w.bridge_instances
  · simp [client_splice.on_error, lock_bridge_eq _ _ _ hw, hbr,
      bridge.close_of_not_last hnd hlast]
  · simp [client_splice.on_error, lock_bridge_eq _ _ _ hw, hbr, client_close_eq]

theorem server_on_error_eq {b : Nat} {w : World} (hw : (w.servers b).wbp_ = some b)
    (hnd : w.bridge_instances.Nodup) (hlast : w.bridge_instances.getLast? ≠ some b) :
    server_splice.on_error b w =
      some (if b ∈ w.bridge_instances then closed_world b w
        else w.set_open false (.downstream_socket_ b)) := by
  by_cases hbr : b ∈ w.bridge_instances
  · simp [server_splice.on_error, lock_bridge_eq _ _ _ hw, hbr,
      bridge.close_of_not_last hnd hlast]
  · simp [server_splice.on_error, lock_bridge_eq _ _ _ hw, hbr, server_close_eq]

theorem mem_pending_step {w : World} {p : Operation} (hp : p ∈ w.pending) (error : Bool)
    (data : List Nat) :
    step w ⟨p, error, data⟩ = complete ⟨p, error, data⟩ { w with pending := w.pending.erase p } := by
  simp [step, hp]

/-- A completion with an error on an operation of a started bridge is terminal. -/
theorem Inv.step_error {w : World} (hI : Inv w) {p : Operation} (hp : p ∈ w.pending) {b : Nat}
    (hb : p.handler.bridge = some b) (data : List Nat) :
    ∃ w1, tcp_proxy.step w ⟨p, true, data⟩ = some w1 ∧ Terminal b p w w1 := by
  have hst := hI.started hp hb
  have hlast := hI.not_last hp hb
  have hnd := hI.nodup
  have hwc := hI.wbp_client b hst.2
  have hws := hI.wbp_server b hst.2
  have hwf := hI.wf p hp
  rw [mem_pending_step hp]
  obtain ⟨req, h⟩ := p
  cases h with
  | handle_accept => simp [Handler.bridge] at hb
  | handle_upstream_connect c =>
    simp only [Handler.bridge, Option.some.injEq] at hb
    subst hb
    cases req <;> simp only [Operation.wf] at hwf
    subst hwf
    simp only [complete, Request.effect, Handler.invoke, client_splice.handle_upstream_connect,
      Bool.true_eq_false, if_false]
    rw [client_on_error_eq (by simpa [World.store] using hwc)
      (by simpa [World.store] using hnd) (by simpa [World.store] using hlast)]
    refine ⟨_, rfl, ?_⟩
    by_cases hbr : c ∈ w.bridge_instances <;> constructor <;>
      simp [hbr, closed_world, World.set_open, World.is_open, World.store, written,
        Event.written, log_written, Handler.leg, hnd.mem_erase_iff]
  | handle_upstream_write c =>
    simp only [Handler.bridge, Option.some.injEq] at hb
    subst hb
    cases req <;> simp only [Operation.wf] at hwf
    obtain ⟨rfl, rfl⟩ := hwf
    simp only [complete, Request.effect, Handler.invoke, client_splice.handle_upstream_write,
      Bool.true_eq_false, if_false]
    rw [client_on_error_eq (by simpa [World.store] using hwc)
      (by simpa [World.store] using hnd) (by simpa [World.store] using hlast)]
    refine ⟨_, rfl, ?_⟩
    by_cases hbr : c ∈ w.bridge_instances <;> constructor <;>
      simp [hbr, closed_world, World.set_open, World.is_open, World.store, written,
        Event.written, log_written, Handler.leg, hnd.mem_erase_iff]
  | handle_upstream_read c =>
    simp only [Handler.bridge, Option.some.injEq] at hb
    subst hb
    cases req <;> simp only [Operation.wf] at hwf
    obtain ⟨rfl, rfl, rfl⟩ := hwf
    simp only [complete, Request.effect, Handler.invoke, client_splice.handle_upstream_read,
      Bool.true_eq_false, if_false]
    rw [client_on_error_eq (by simpa [World.store] using hwc)
      (by simpa [World.store] using hnd) (by simpa [World.store] using hlast)]
    refine ⟨_, rfl, ?_⟩
    by_cases hbr : c ∈ w.bridge_instances <;> constructor <;>
      simp [hbr, closed_world, World.set_open, World.is_open, World.store, written,
        Event.written, log_written, Handler.leg, hnd.mem_erase_iff]
  | handle_downstream_write s =>
    simp only [Handler.bridge, Option.some.injEq] at hb
    subst hb
    cases req <;> simp only [Operation.wf] at hwf
    obtain ⟨rfl, rfl⟩ := hwf
    simp only [complete, Request.effect, Handler.invoke, server_splice.handle_downstream_write,
      Bool.true_eq_false, if_false]
    rw [server_on_error_eq (by simpa [World.store] using hws)
      (by simpa [World.store] using hnd) (by simpa [World.store] using hlast)]
    refine ⟨_, rfl, ?_⟩
    by_cases hbr : s ∈ w.bridge_instances <;> constructor <;>
      simp [hbr, closed_world, World.set_open, World.is_open, World.store, written,
        Event.written, log_written, Handler.leg, hnd.mem_erase_iff]
  | handle_downstream_read s =>
    simp only [Handler.bridge, Option.some.injEq] at hb
    subst hb
    cases req <;> simp only [Operation.wf] at hwf
    obtain ⟨rfl, rfl, rfl⟩ := hwf
    simp only [complete, Request.effect, Handler.invoke, server_splice.handle_downstream_read,
      Bool.true_eq_false, if_false]
    rw [server_on_error_eq (by simpa [World.store] using hws)
      (by simpa [World.store] using hnd) (by simpa [World.store] using hlast)]
    refine ⟨_, rfl, ?_⟩
    by_cases hbr : s ∈ w.bridge_instances <;> constructor <;>
      simp [hbr, closed_world, World.set_open, World.is_open, World.store, written,
        Event.written, log_written, Handler.leg, hnd.mem_erase_iff]

/-! ## What no handler but `handle_accept` touches -/

theorem Intake.trans {w w1 w2 : World} (h1 : Intake w w1) (h2 : Intake w1 w2)
    (hp : ∀ q ∈ w1.pending, q ∈ w.pending ∨ q.handler ≠ .handle_accept) : Intake w w2 where
  host := h2.host.trans h1.host
  port := h2.port.trans h1.port
  next := h2.next.trans h1.next
  accepted := h2.accepted.trans h1.accepted
  pending := fun q hq => (h2.pending q hq).elim (hp q) Or.inr

theorem Request.effect_intake (req : Request) (error : Bool) (data : List Nat) (w : World) :
    Intake w (req.effect error data w).1 := by
  cases req with
  | async_accept peer =>
    cases error <;> cases peer <;>
      constructor <;> simp [Request.effect, World.set_open] <;> exact fun q hq => Or.inl hq
  | async_connect sock host port =>
    constructor <;> simp [Request.effect]
    exact fun q hq => Or.inl hq
  | async_read_some sock buf size =>
    cases buf <;> constructor <;> simp [Request.effect, World.store] <;>
      exact fun q hq => Or.inl hq
  | async_write sock buf size =>
    constructor <;> simp [Request.effect]
    exact fun q hq => Or.inl hq

theorem bridge_close_intake {b : Nat} {w w1 : World} (h : bridge.close b w = some w1) :
    Intake w w1 := by
  rw [bridge_close_eq, Option.map_eq_some'] at h
  obtain ⟨v, _, rfl⟩ := h
  constructor <;> simp [World.set_open]
  exact fun q hq => Or.inl hq

theorem client_on_error_intake {c : Nat} {w w1 : World}
    (h : client_splice.on_error c w = some w1) : Intake w w1 := by
  simp only [client_splice.on_error] at h
  split at h
  · exact bridge_close_intake h
  · simp only [Option.some.injEq, client_close_eq] at h
    subst h
    constructor <;> simp [World.set_open]
    exact fun q hq => Or.inl hq

theorem server_on_error_intake {s : Nat} {w w1 : World}
    (h : server_splice.on_error s w = some w1) : Intake w w1 := by
  simp only [server_splice.on_error] at h
  split at h
  · exact bridge_close_intake h
  · simp only [Option.some.injEq, server_close_eq] at h
    subst h
    constructor <;> simp [World.set_open]
    exact fun q hq => Or.inl hq

theorem Handler.invoke_intake {h : Handler} (hh : h ≠ .handle_accept) {error : Bool} {n : Nat}
    {w w1 : World} (hs : h.invoke error n w = some w1) : Intake w w1 := by
  cases h with
  | handle_accept => exact absurd rfl hh
  | handle_upstream_connect c =>
    simp only [Handler.invoke, client_splice.handle_upstream_connect] at hs
    split at hs
    · split at hs
      · simp at hs
      · simp only [Option.some.injEq] at hs
        subst hs
        constructor <;>
          simp [async_read_some, client_splice.set_ss, server_splice.set_cs]
        intro q hq
        rcases hq with hq | rfl | rfl
        · exact Or.inl hq
        · simp
        · simp
    · have := client_on_error_intake hs
      exact ⟨this.host, this.port, this.next, this.accepted, this.pending⟩
  | handle_upstream_write c =>
    simp only [Handler.invoke, client_splice.handle_upstream_write] at hs
    split at hs
    · split at hs
      · simp at hs
      · simp only [Option.some.injEq] at hs
        subst hs
        constructor <;> simp [async_read_some]
        intro q hq
        rcases hq with hq | rfl
        · exact Or.inl hq
        · simp
    · exact client_on_error_intake hs
  | handle_upstream_read c =>
    simp only [Handler.invoke, client_splice.handle_upstream_read] at hs
    split at hs
    · split at hs
      · simp at hs
      · simp only [Option.some.injEq] at hs
        subst hs
        constructor <;> simp [async_write]
        intro q hq
        rcases hq with hq | rfl
        · exact Or.inl hq
        · simp
    · exact client_on_error_intake hs
  | handle_downstream_write s =>
    simp only [Handler.invoke, server_splice.handle_downstream_write] at hs
    split at hs
    · split at hs
      · simp at hs
      · simp only [Option.some.injEq] at hs
        subst hs
        constructor <;> simp [async_read_some]
        intro q hq
        rcases hq with hq | rfl
        · exact Or.inl hq
        · simp
    · exact server_on_error_intake hs
  | handle_downstream_read s =>
    simp only [Handler.invoke, server_splice.handle_downstream_read] at hs
    split at hs
    · split at hs
      · simp at hs
      · simp only [Option.some.injEq] at hs
        subst hs
        constructor <;> simp [async_write]
        intro q hq
        rcases hq with hq | rfl
        · exact Or.inl hq
        · simp
    · exact server_on_error_intake hs

theorem step_intake {w w1 : World} {c : Completion} (hh : c.op.handler ≠ .handle_accept)
    (hs : step w c = some w1) : Intake w w1 := by
  simp only [step] at hs
  split at hs
  case isFalse => simp at hs
  case isTrue hp =>
  simp only [complete] at hs
  have h1 : Intake w { w with pending := w.pending.erase c.op } := by
    constructor <;> simp
    exact fun q hq => Or.inl (List.mem_of_mem_erase hq)
  have h2 := Request.effect_intake c.op.request c.error c.data
    { w with pending := w.pending.erase c.op }
  have h3 := Handler.invoke_intake hh hs
  have h12 := h1.trans h2 h1.pending
  exact h12.trans h3 h12.pending

theorem step_config {w w1 : World} {c : Completion} (hs : step w c = some w1) :
    w1.upstream_host_ = w.upstream_host_ ∧ w1.upstream_port_ = w.upstream_port_ := by
  by_cases hh : c.op.handler = .handle_accept
  · have hp : c.op ∈ w.pending := by
      simp only [step] at hs
      split at hs
      · assumption
      · simp at hs
    simp only [step, hp, if_true] at hs
    have h2 := Request.effect_intake c.op.request c.error c.data
      { w with pending := w.pending.erase c.op }
    simp only [complete, hh, Handler.invoke] at hs
    rw [handle_accept_returns] at hs
    split at hs
    · split at hs
      · simp at hs
      · split at hs
        · simp only [Option.some.injEq] at hs
          subst hs
          exact ⟨h2.host, h2.port⟩
        · simp at hs
    · simp only [Option.some.injEq] at hs
      subst hs
      exact ⟨h2.host, h2.port⟩
  · exact ⟨(step_intake hh hs).host, (step_intake hh hs).port⟩

theorem run_config {cs : List Completion} : ∀ {w w1 : World}, run w cs = some w1 →
    w1.upstream_host_ = w.upstream_host_ ∧ w1.upstream_port_ = w.upstream_port_ := by
  induction cs with
  | nil =>
    intro w w1 h
    simp only [run, Option.some.injEq] at h
    subst h
    exact ⟨rfl, rfl⟩
  | cons c cs ih =>
    intro w w1 h
    simp only [run] at h
    cases hs : step w c with
    | none => simp [hs] at h
    | some w2 =>
      rw [hs] at h
      have h1 := step_config hs
      have h2 := ih h
      exact ⟨h2.1.trans h1.1, h2.2.trans h1.2⟩

theorem Reachable.config {forward_host : String} {forward_port : Nat} {w : World}
    (h : Reachable forward_host forward_port w) :
    w.upstream_host_ = forward_host ∧ w.upstream_port_ = forward_port := by
  obtain ⟨cs, hcs⟩ := h
  exact run_config hcs

/-- Once no accept is outstanding, none is ever outstanding again, no bridge
is constructed and no connection is counted as accepted. -/
theorem run_without_accept {cs : List Completion} : ∀ {w w1 : World},
    (∀ q ∈ w.pending, q.handler ≠ .handle_accept) → run w cs = some w1 →
    (∀ q ∈ w1.pending, q.handler ≠ .handle_accept) ∧ w1.next = w.next ∧
      w1.num_server_connections_ = w.num_server_connections_ := by
  induction cs with
  | nil =>
    intro w w1 hw h
    simp only [run, Option.some.injEq] at h
    subst h
    exact ⟨hw, rfl, rfl⟩
  | cons c cs ih =>
    intro w w1 hw h
    simp only [run] at h
    cases hs : step w c with
    | none => simp [hs] at h
    | some w2 =>
      rw [hs] at h
      have hp : c.op ∈ w.pending := by
        simp only [step] at hs
        split at hs
        · assumption
        · simp at hs
      have hi := step_intake (hw c.op hp) hs
      have hw2 : ∀ q ∈ w2.pending, q.handler ≠ .handle_accept := fun q hq =>
        (hi.pending q hq).elim (hw q) id
      obtain ⟨h1, h2, h3⟩ := ih hw2 h
      exact ⟨h1, h2.trans hi.next, h3.trans hi.accepted⟩

theorem lock_server_of {w : World} {o : Option Nat} {b : Nat} (ho : o = some b)
    (h : b ∈ w.bridge_instances ∨ ∃ q ∈ w.pending, q.handler.holds_server b = true) :
    lock_server w o = some b := by
  subst ho
  simp only [lock_server]
  rw [if_pos]
  simpa using h

theorem lock_client_of {w : World} {o : Option Nat} {b : Nat} (ho : o = some b)
    (h : b ∈ w.bridge_instances ∨ ∃ q ∈ w.pending, q.handler.holds_client b = true) :
    lock_client w o = some b := by
  subst ho
  simp only [lock_client]
  rw [if_pos]
  simpa using h

theorem handle_upstream_read_ok (w : World) (c ssp n : Nat)
    (hl : lock_server w (w.clients c).wssp_ = some ssp) :
    client_splice.handle_upstream_read c false n w =
      some (async_write (.downstream_socket_ ssp) (.upstream_data_ c) n
        (.handle_downstream_write ssp) w) := by
  simp [client_splice.handle_upstream_read, hl]

theorem handle_downstream_read_ok (w : World) (s csp n : Nat)
    (hl : lock_client w (w.servers s).wcsp_ = some csp) :
    server_splice.handle_downstream_read s false n w =
      some (async_write (.upstream_socket_ csp) (.downstream_data_ s) n
        (.handle_upstream_write csp) w) := by
  simp [server_splice.handle_downstream_read, hl]

/-! ## The transitions of the event loop -/

theorem step_eq_invoke {w : World} {c : Completion} (hp : c.op ∈ w.pending) :
    step w c = c.op.handler.invoke c.error (w.arrived c).2 (w.arrived c).1 := by
  simp [step, hp, complete, World.arrived]

theorem mem_pending_of_step {w w1 : World} {c : Completion} (hs : step w c = some w1) :
    c.op ∈ w.pending := by
  simp only [step] at hs
  split at hs
  · assumption
  · simp at hs

theorem lock_server_eq_some {w : World} {o : Option Nat} {s : Nat}
    (h : lock_server w o = some s) :
    o = some s ∧
      (s ∈ w.bridge_instances ∨ ∃ q ∈ w.pending, q.handler.holds_server s = true) := by
  have ho := lock_server_some h
  subst ho
  simp only [lock_server] at h
  split at h
  · rename_i hc
    exact ⟨rfl, by simpa using hc⟩
  · simp at h

theorem lock_client_eq_some {w : World} {o : Option Nat} {s : Nat}
    (h : lock_client w o = some s) :
    o = some s ∧
      (s ∈ w.bridge_instances ∨ ∃ q ∈ w.pending, q.handler.holds_client s = true) := by
  have ho := lock_client_some h
  subst ho
  simp only [lock_client] at h
  split at h
  · rename_i hc
    exact ⟨rfl, by simpa using hc⟩
  · simp at h

theorem Inv.transition {w w1 : World} (hI : Inv w) {c : Completion}
    (hs : tcp_proxy.step w c = some w1) : Transition w c w1 := by
  have hp := mem_pending_of_step hs
  have hwf := hI.wf _ hp
  have hnd := hI.nodup
  rw [step_eq_invoke hp] at hs
  obtain ⟨⟨req, h⟩, error, data⟩ := c
  cases h with
  | handle_accept =>
    obtain ⟨s, hs1, hreq⟩ := hI.accept_session _ hp rfl
    simp only at hreq
    subst hreq
    obtain ⟨s2, hs2, hsreg, -⟩ := hI.session_registered
    have hss : s2 = s := by rw [hs1] at hs2; exact (Option.some.inj hs2).symm
    subst hss
    simp only [Handler.invoke] at hs
    rw [handle_accept_returns] at hs
    cases error with
    | true =>
      simp only [Bool.true_eq_false, if_false, Option.some.injEq] at hs
      subst hs
      exact Transition.refused s2 rfl rfl
    | false =>
      simp only [if_true, World.arrived, Request.effect] at hs
      rw [lock_bridge_eq _ _ s2 (by simpa [World.set_open] using hs1)] at hs
      simp only [World.set_open, hsreg, if_true] at hs
      split at hs
      case isFalse => simp at hs
      case isTrue hhost =>
      simp only [Option.some.injEq] at hs
      subst hs
      exact Transition.accepted s2 rfl rfl hs1 hhost
  | handle_upstream_connect b =>
    cases req <;> simp only [Operation.wf] at hwf
    subst hwf
    have hst := hI.started hp (b := b) rfl
    have hwc := hI.wbp_client b hst.2
    have hlast := hI.not_last hp (b := b) rfl
    cases error with
    | true =>
      simp only [Handler.invoke, client_splice.handle_upstream_connect, Bool.true_eq_false,
        if_false, World.arrived, Request.effect] at hs
      rw [client_on_error_eq (by simpa using hwc) (by simpa using hnd)
        (by simpa using hlast)] at hs
      simp only [Option.some.injEq] at hs
      subst hs
      exact Transition.failed b (.upstream_socket_ b)
        ((w.num_client_connections_ + 1) % uint64_range) rfl rfl rfl (by simp)
    | false =>
      have hreg := hI.connect_registered _ hp b rfl
      simp only [Handler.invoke, client_splice.handle_upstream_connect, if_true, World.arrived,
        Request.effect] at hs
      rw [lock_bridge_eq _ _ b (by simpa using hwc)] at hs
      simp only [hreg, if_true, Option.some.injEq] at hs
      subst hs
      exact Transition.connected b _ _ rfl rfl hreg
  | handle_upstream_write b =>
    cases req <;> simp only [Operation.wf] at hwf
    obtain ⟨rfl, rfl⟩ := hwf
    rename_i size
    have hst := hI.started hp (b := b) rfl
    have hwc := hI.wbp_client b hst.2
    have hlast := hI.not_last hp (b := b) rfl
    cases error with
    | true =>
      simp only [Handler.invoke, client_splice.handle_upstream_write, Bool.true_eq_false,
        if_false] at hs
      rw [client_on_error_eq (by simpa [World.arrived, Request.effect, World.store] using hwc)
        (by simpa [World.arrived, Request.effect, World.store] using hnd)
        (by simpa [World.arrived, Request.effect, World.store] using hlast)] at hs
      simp only [Option.some.injEq] at hs
      subst hs
      have := Transition.failed (w := w)
        (c := ⟨⟨.async_write (.upstream_socket_ b) (.downstream_data_ b) size,
          .handle_upstream_write b⟩, true, data⟩)
        b (.upstream_socket_ b) (w.num_client_connections_) rfl rfl rfl (by simp)
      simpa [World.arrived, Request.effect, World.store] using this
    | false =>
      simp only [Handler.invoke, client_splice.handle_upstream_write, if_true] at hs
      split at hs
      · simp at hs
      · rename_i x hl
        simp only [Option.some.injEq] at hs
        obtain ⟨hx, halive⟩ := lock_server_eq_some hl
        have hxb : x = b := by
          simp only [World.arrived, Request.effect, World.store] at hx
          exact hI.wssp b x (by simpa using hx)
        subst hxb
        subst hs
        exact Transition.upstream_write x _ rfl rfl
          (by simpa [World.arrived, Request.effect, World.store] using halive)
  | handle_upstream_read b =>
    cases req <;> simp only [Operation.wf] at hwf
    obtain ⟨rfl, rfl, rfl⟩ := hwf
    have hst := hI.started hp (b := b) rfl
    have hwc := hI.wbp_client b hst.2
    have hlast := hI.not_last hp (b := b) rfl
    cases error with
    | true =>
      simp only [Handler.invoke, client_splice.handle_upstream_read, Bool.true_eq_false,
        if_false] at hs
      rw [client_on_error_eq (by simpa [World.arrived, Request.effect, World.store] using hwc)
        (by simpa [World.arrived, Request.effect, World.store] using hnd)
        (by simpa [World.arrived, Request.effect, World.store] using hlast)] at hs
      simp only [Option.some.injEq] at hs
      subst hs
      have := Transition.failed (w := w)
        (c := ⟨⟨.async_read_some (.upstream_socket_ b) (.upstream_data_ b) max_data_length,
          .handle_upstream_read b⟩, true, data⟩)
        b (.upstream_socket_ b) (w.num_client_connections_) rfl rfl rfl (by simp)
      simpa [World.arrived, Request.effect, World.store] using this
    | false =>
      simp only [Handler.invoke, client_splice.handle_upstream_read, if_true] at hs
      split at hs
      · simp at hs
      · rename_i x hl
        simp only [Option.some.injEq] at hs
        obtain ⟨hx, halive⟩ := lock_server_eq_some hl
        have hxb : x = b := by
          simp only [World.arrived, Request.effect, World.store] at hx
          exact hI.wssp b x (by simpa using hx)
        subst hxb
        subst hs
        exact Transition.upstream_read x rfl rfl
          (by simpa [World.arrived, Request.effect, World.store] using halive)
  | handle_downstream_write b =>
    cases req <;> simp only [Operation.wf] at hwf
    obtain ⟨rfl, rfl⟩ := hwf
    rename_i size
    have hst := hI.started hp (b := b) rfl
    have hwc := hI.wbp_server b hst.2
    have hlast := hI.not_last hp (b := b) rfl
    cases error with
    | true =>
      simp only [Handler.invoke, server_splice.handle_downstream_write, Bool.true_eq_false,
        if_false] at hs
      rw [server_on_error_eq (by simpa [World.arrived, Request.effect, World.store] using hwc)
        (by simpa [World.arrived, Request.effect, World.store] using hnd)
        (by simpa [World.arrived, Request.effect, World.store] using hlast)] at hs
      simp only [Option.some.injEq] at hs
      subst hs
      have := Transition.failed (w := w)
        (c := ⟨⟨.async_write (.downstream_socket_ b) (.upstream_data_ b) size,
          .handle_downstream_write b⟩, true, data⟩)
        b (.downstream_socket_ b) (w.num_client_connections_) rfl rfl rfl (by simp)
      simpa [World.arrived, Request.effect, World.store] using this
    | false =>
      simp only [Handler.invoke, server_splice.handle_downstream_write, if_true] at hs
      split at hs
      · simp at hs
      · rename_i x hl
        simp only [Option.some.injEq] at hs
        obtain ⟨hx, halive⟩ := lock_client_eq_some hl
        have hxb : x = b := by
          simp only [World.arrived, Request.effect, World.store] at hx
          exact hI.wcsp b x (by simpa using hx)
        subst hxb
        subst hs
        exact Transition.downstream_write x _ rfl rfl
          (by simpa [World.arrived, Request.effect, World.store] using halive)
  | handle_downstream_read b =>
    cases req <;> simp only [Operation.wf] at hwf
    obtain ⟨rfl, rfl, rfl⟩ := hwf
    have hst := hI.started hp (b := b) rfl
    have hwc := hI.wbp_server b hst.2
    have hlast := hI.not_last hp (b := b) rfl
    cases error with
    | true =>
      simp only [Handler.invoke, server_splice.handle_downstream_read, Bool.true_eq_false,
        if_false] at hs
      rw [server_on_error_eq (by simpa [World.arrived, Request.effect, World.store] using hwc)
        (by simpa [World.arrived, Request.effect, World.store] using hnd)
        (by simpa [World.arrived, Request.effect, World.store] using hlast)] at hs
      simp only [Option.some.injEq] at hs
      subst hs
      have := Transition.failed (w := w)
        (c := ⟨⟨.async_read_some (.downstream_socket_ b) (.downstream_data_ b) max_data_length,
          .handle_downstream_read b⟩, true, data⟩)
        b (.downstream_socket_ b) (w.num_client_connections_) rfl rfl rfl (by simp)
      simpa [World.arrived, Request.effect, World.store] using this
    | false =>
      simp only [Handler.invoke, server_splice.handle_downstream_read, if_true] at hs
      split at hs
      · simp at hs
      · rename_i x hl
        simp only [Option.some.injEq] at hs
        obtain ⟨hx, halive⟩ := lock_client_eq_some hl
        have hxb : x = b := by
          simp only [World.arrived, Request.effect, World.store] at hx
          exact hI.wcsp b x (by simpa using hx)
        subst hxb
        subst hs
        exact Transition.downstream_read x rfl rfl
          (by simpa [World.arrived, Request.effect, World.store] using halive)

theorem handle_upstream_write_ok (w : World) (c ssp : Nat)
    (hl : lock_server w (w.clients c).wssp_ = some ssp) :
    client_splice.handle_upstream_write c false w =
      some (async_read_some (.downstream_socket_ ssp) (.downstream_data_ ssp) max_data_length
        (.handle_downstream_read ssp) w) := by
  simp [client_splice.handle_upstream_write, hl]

theorem handle_downstream_write_ok (w : World) (s csp : Nat)
    (hl : lock_client w (w.servers s).wcsp_ = some csp) :
    server_splice.handle_downstream_write s false w =
      some (async_read_some (.upstream_socket_ csp) (.upstream_data_ csp) max_data_length
        (.handle_upstream_read csp) w) := by
  simp [server_splice.handle_downstream_write, hl]

theorem Transition.step_eq {w w1 : World} {c : Completion} (hI : Inv w) (hp : c.op ∈ w.pending)
    (ht : Transition w c w1) : step w c = some w1 := by
  have hnd := hI.nodup
  rw [step_eq_invoke hp]
  obtain ⟨op, error, data⟩ := c
  cases ht with
  | accepted s hop herr hsess hhost =>
    simp only at hop herr
    subst hop herr
    obtain ⟨s2, hs2, hsreg, -⟩ := hI.session_registered
    have hss : s2 = s := by rw [hsess] at hs2; exact (Option.some.inj hs2).symm
    subst hss
    simp only [Handler.invoke, accept_op]
    rw [handle_accept_returns]
    simp only [if_true, World.arrived, Request.effect]
    rw [lock_bridge_eq _ _ s2 (by simpa [World.set_open] using hsess)]
    simp only [World.set_open, hsreg, if_true]
    rw [if_pos (by simpa [World.set_open] using hhost)]
  | refused s hop herr =>
    simp only at hop herr
    subst hop herr
    simp only [Handler.invoke, accept_op]
    rw [handle_accept_returns]
    simp
  | connected b host port hop herr hreg =>
    simp only at hop herr
    subst hop herr
    have hst := hI.started hp (b := b) rfl
    have hwc := hI.wbp_client b hst.2
    simp only [Handler.invoke, client_splice.handle_upstream_connect, if_true, World.arrived,
      Request.effect, connect_op]
    rw [lock_bridge_eq _ _ b (by simpa using hwc)]
    simp only [hreg, if_true]
  | upstream_read b hop herr halive =>
    simp only at hop herr halive
    subst hop herr
    have hpeers := hI.peers _ hp b (by simp [Handler.relays, upstream_read_op])
    simp only [Handler.invoke, upstream_read_op]
    exact handle_upstream_read_ok _ _ b _
      (lock_server_of (by simpa [World.arrived, Request.effect, World.store] using hpeers.1)
        (by simpa [World.arrived, Request.effect, World.store, upstream_read_op] using halive))
  | downstream_read b hop herr halive =>
    simp only at hop herr halive
    subst hop herr
    have hpeers := hI.peers _ hp b (by simp [Handler.relays, downstream_read_op])
    simp only [Handler.invoke, downstream_read_op]
    exact handle_downstream_read_ok _ _ b _
      (lock_client_of (by simpa [World.arrived, Request.effect, World.store] using hpeers.2)
        (by simpa [World.arrived, Request.effect, World.store, downstream_read_op] using halive))
  | upstream_write b n hop herr halive =>
    simp only at hop herr halive
    subst hop herr
    have hpeers := hI.peers _ hp b (by simp [Handler.relays, upstream_write_op])
    simp only [Handler.invoke, upstream_write_op]
    exact handle_upstream_write_ok _ _ b
      (lock_server_of (by simpa [World.arrived, Request.effect] using hpeers.1)
        (by simpa [World.arrived, Request.effect, upstream_write_op] using halive))
  | downstream_write b n hop herr halive =>
    simp only at hop herr halive
    subst hop herr
    have hpeers := hI.peers _ hp b (by simp [Handler.relays, downstream_write_op])
    simp only [Handler.invoke, downstream_write_op]
    exact handle_downstream_write_ok _ _ b
      (lock_client_of (by simpa [World.arrived, Request.effect] using hpeers.2)
        (by simpa [World.arrived, Request.effect, downstream_write_op] using halive))
  | failed b sock n hb hleg herr hn =>
    simp only at hb hleg herr hn hp
    subst herr
    have hwf := hI.wf _ hp
    have hst := hI.started hp hb
    have hlast := hI.not_last hp hb
    have hwc := hI.wbp_client b hst.2
    have hws := hI.wbp_server b hst.2
    obtain ⟨req, h⟩ := op
    cases h with
    | handle_accept => simp [Handler.bridge] at hb
    | handle_upstream_connect c =>
      simp only [Handler.bridge, Option.some.injEq] at hb
      subst hb
      cases req <;> simp only [Operation.wf] at hwf
      subst hwf
      simp only [Handler.leg, Option.some.injEq] at hleg
      subst hleg
      simp only [if_true] at hn
      subst hn
      simp only [Handler.invoke, client_splice.handle_upstream_connect, Bool.true_eq_false,
        if_false, World.arrived, Request.effect]
      rw [client_on_error_eq (by simpa using hwc) (by simpa using hnd) (by simpa using hlast)]
    | handle_upstream_write c =>
      simp only [Handler.bridge, Option.some.injEq] at hb
      subst hb
      cases req <;> simp only [Operation.wf] at hwf
      obtain ⟨rfl, rfl⟩ := hwf
      simp only [Handler.leg, Option.some.injEq] at hleg
      subst hleg
      simp only [reduceCtorEq, if_false] at hn
      subst hn
      simp only [Handler.invoke, client_splice.handle_upstream_write, Bool.true_eq_false, if_false]
      rw [client_on_error_eq (by simpa [World.arrived, Request.effect, World.store] using hwc)
        (by simpa [World.arrived, Request.effect, World.store] using hnd)
        (by simpa [World.arrived, Request.effect, World.store] using hlast)]
      simp [World.arrived, Request.effect, World.store]
    | handle_upstream_read c =>
      simp only [Handler.bridge, Option.some.injEq] at hb
      subst hb
      cases req <;> simp only [Operation.wf] at hwf
      obtain ⟨rfl, rfl, rfl⟩ := hwf
      simp only [Handler.leg, Option.some.injEq] at hleg
      subst hleg
      simp only [reduceCtorEq, if_false] at hn
      subst hn
      simp only [Handler.invoke, client_splice.handle_upstream_read, Bool.true_eq_false, if_false]
      rw [client_on_error_eq (by simpa [World.arrived, Request.effect, World.store] using hwc)
        (by simpa [World.arrived, Request.effect, World.store] using hnd)
        (by simpa [World.arrived, Request.effect, World.store] using hlast)]
      simp [World.arrived, Request.effect, World.store]
    | handle_downstream_write c =>
      simp only [Handler.bridge, Option.some.injEq] at hb
      subst hb
      cases req <;> simp only [Operation.wf] at hwf
      obtain ⟨rfl, rfl⟩ := hwf
      simp only [Handler.leg, Option.some.injEq] at hleg
      subst hleg
      simp only [reduceCtorEq, if_false] at hn
      subst hn
      simp only [Handler.invoke, server_splice.handle_downstream_write, Bool.true_eq_false,
        if_false]
      rw [server_on_error_eq (by simpa [World.arrived, Request.effect, World.store] using hws)
        (by simpa [World.arrived, Request.effect, World.store] using hnd)
        (by simpa [World.arrived, Request.effect, World.store] using hlast)]
      simp [World.arrived, Request.effect, World.store]
    | handle_downstream_read c =>
      simp only [Handler.bridge, Option.some.injEq] at hb
      subst hb
      cases req <;> simp only [Operation.wf] at hwf
      obtain ⟨rfl, rfl, rfl⟩ := hwf
      simp only [Handler.leg, Option.some.injEq] at hleg
      subst hleg
      simp only [reduceCtorEq, if_false] at hn
      subst hn
      simp only [Handler.invoke, server_splice.handle_downstream_read, Bool.true_eq_false, if_false]
      rw [server_on_error_eq (by simpa [World.arrived, Request.effect, World.store] using hws)
        (by simpa [World.arrived, Request.effect, World.store] using hnd)
        (by simpa [World.arrived, Request.effect, World.store] using hlast)]
      simp [World.arrived, Request.effect, World.store]

theorem Transition.to_change {w w1 : World} {c : Completion} (hI : Inv w) (hp : c.op ∈ w.pending)
    (ht : Transition w c w1) : Change w c w1 := by
  obtain ⟨op, error, data⟩ := c
  cases ht with
  | accepted s hop herr hsess =>
    simp only at hop herr hp
    subst hop herr
    obtain ⟨s2, hs2, hsreg, hslt⟩ := hI.session_registered
    have hss : s2 = s := by rw [hsess] at hs2; exact (Option.some.inj hs2).symm
    subst hss
    have hne : s2 ≠ w.next := Nat.ne_of_lt hslt
    refine Change.accepted s2 rfl rfl hsess hsreg ?_ rfl rfl rfl rfl ?_ ?_ ?_ ?_ ?_ ?_
    · simp [acceptor.accept_connections, bridge.new, bridge.init, bridge.start, async_accept,
        async_connect, client_splice.set_bridge, server_splice.set_bridge, World.set_open,
        World.arrived, Request.effect, connect_op, accept_op]
    · simp [acceptor.accept_connections, bridge.new, bridge.init, bridge.start, async_accept,
        async_connect, client_splice.set_bridge, server_splice.set_bridge, World.set_open,
        World.arrived, Request.effect, accept_op, World.is_open, Function.update_apply, hne]
    · simp [acceptor.accept_connections, bridge.new, bridge.init, bridge.start, async_accept,
        async_connect, client_splice.set_bridge, server_splice.set_bridge, World.set_open,
        World.arrived, Request.effect, accept_op, World.is_open]
    · intro x hx1 hx2
      simp [acceptor.accept_connections, bridge.new, bridge.init, bridge.start, async_accept,
        async_connect, client_splice.set_bridge, server_splice.set_bridge, World.set_open,
        World.arrived, Request.effect, accept_op, Function.update_apply, hx1, hx2]
    · intro x hx1 hx2
      simp [acceptor.accept_connections, bridge.new, bridge.init, bridge.start, async_accept,
        async_connect, client_splice.set_bridge, server_splice.set_bridge, World.set_open,
        World.arrived, Request.effect, accept_op, Function.update_apply, hx1, hx2]
    · simp [acceptor.accept_connections, bridge.new, bridge.init, bridge.start, async_accept,
        async_connect, client_splice.set_bridge, server_splice.set_bridge, World.set_open,
        World.arrived, Request.effect, accept_op, Function.update_apply, hne]
    · simp [acceptor.accept_connections, bridge.new, bridge.init, bridge.start, async_accept,
        async_connect, client_splice.set_bridge, server_splice.set_bridge, World.set_open,
        World.arrived, Request.effect, accept_op, Function.update_apply, hne, Ne.symm hne]
  | refused s hop herr =>
    simp only at hop herr hp
    subst hop herr
    obtain ⟨s1, hs1, hreq⟩ := hI.accept_session _ hp rfl
    simp only [accept_op, Request.async_accept.injEq, Socket.downstream_socket_.injEq] at hreq
    subst hreq
    exact Change.refused s rfl rfl hs1 (by simp [World.arrived, Request.effect, accept_op])
  | connected b host port hop herr hreg =>
    simp only at hop herr hp
    subst hop herr
    refine Change.connected b host port rfl rfl hreg ?_ ⟨?_, ?_, ⟨[], ?_, ?_⟩, ?_, ?_⟩ ?_ ?_
    · simp [async_read_some, async_write, client_splice.set_ss, server_splice.set_cs,
      World.arrived, Request.effect, World.store, connect_op, upstream_read_op, downstream_read_op,
      upstream_write_op, downstream_write_op]
    · simp [async_read_some, async_write, client_splice.set_ss, server_splice.set_cs,
      World.arrived, Request.effect, World.store, connect_op, upstream_read_op, downstream_read_op,
      upstream_write_op, downstream_write_op]
    · simp [async_read_some, async_write, client_splice.set_ss, server_splice.set_cs,
      World.arrived, Request.effect, World.store, connect_op, upstream_read_op, downstream_read_op,
      upstream_write_op, downstream_write_op]
    · simp [async_read_some, async_write, client_splice.set_ss, server_splice.set_cs,
      World.arrived, Request.effect, World.store, connect_op, upstream_read_op, downstream_read_op,
      upstream_write_op, downstream_write_op]
    · simp
    · intro x hx
      simp [async_read_some, async_write, client_splice.set_ss, server_splice.set_cs,
        World.arrived, Request.effect, World.store, connect_op, upstream_read_op,
        downstream_read_op, upstream_write_op, downstream_write_op, Function.update_apply, hx]
    · intro x hx
      simp [async_read_some, async_write, client_splice.set_ss, server_splice.set_cs,
        World.arrived, Request.effect, World.store, connect_op, upstream_read_op,
        downstream_read_op, upstream_write_op, downstream_write_op, Function.update_apply, hx]
    · simp [async_read_some, async_write, client_splice.set_ss, server_splice.set_cs,
      World.arrived, Request.effect, World.store, connect_op, upstream_read_op, downstream_read_op,
      upstream_write_op, downstream_write_op]
    · intro sock
      cases sock <;> simp [async_read_some, async_write, client_splice.set_ss,
        server_splice.set_cs, World.arrived, Request.effect, World.store, connect_op,
        upstream_read_op, downstream_read_op, upstream_write_op, downstream_write_op,
        World.is_open]
  | upstream_read b hop herr halive =>
    simp only at hop herr hp halive
    subst hop herr
    refine Change.upstream_read b (World.arrived w ⟨upstream_read_op b, false, data⟩).2 rfl rfl halive ?_
      ⟨?_, ?_,
        ⟨[.read (.upstream_socket_ b) (data.take max_data_length),
          .write (.downstream_socket_ b) ((World.arrived w ⟨upstream_read_op b, false, data⟩).1.view
            (.upstream_data_ b) (World.arrived w ⟨upstream_read_op b, false, data⟩).2)], ?_, ?_⟩,
        ?_, ?_⟩ ?_ ?_
    · simp [async_read_some, async_write, client_splice.set_ss, server_splice.set_cs,
      World.arrived, Request.effect, World.store, connect_op, upstream_read_op, downstream_read_op,
      upstream_write_op, downstream_write_op]
    · simp [async_read_some, async_write, client_splice.set_ss, server_splice.set_cs,
      World.arrived, Request.effect, World.store, connect_op, upstream_read_op, downstream_read_op,
      upstream_write_op, downstream_write_op]
    · simp [async_read_some, async_write, client_splice.set_ss, server_splice.set_cs,
      World.arrived, Request.effect, World.store, connect_op, upstream_read_op, downstream_read_op,
      upstream_write_op, downstream_write_op]
    · simp [async_read_some, async_write, client_splice.set_ss, server_splice.set_cs,
      World.arrived, Request.effect, World.store, connect_op, upstream_read_op, downstream_read_op,
      upstream_write_op, downstream_write_op]
    · simp [Event.bridge, Socket.bridge]
    · intro x hx
      simp [async_read_some, async_write, client_splice.set_ss, server_splice.set_cs,
        World.arrived, Request.effect, World.store, connect_op, upstream_read_op,
        downstream_read_op, upstream_write_op, downstream_write_op, Function.update_apply, hx]
    · intro x hx
      simp [async_read_some, async_write, client_splice.set_ss, server_splice.set_cs,
        World.arrived, Request.effect, World.store, connect_op, upstream_read_op,
        downstream_read_op, upstream_write_op, downstream_write_op, Function.update_apply, hx]
    · simp [async_read_some, async_write, client_splice.set_ss, server_splice.set_cs,
      World.arrived, Request.effect, World.store, connect_op, upstream_read_op, downstream_read_op,
      upstream_write_op, downstream_write_op]
    · intro sock
      cases sock <;> simp [async_read_some, async_write, client_splice.set_ss,
        server_splice.set_cs, World.arrived, Request.effect, World.store, connect_op,
        upstream_read_op, downstream_read_op, upstream_write_op, downstream_write_op,
        World.is_open]
  | downstream_read b hop herr halive =>
    simp only at hop herr hp halive
    subst hop herr
    refine Change.downstream_read b (World.arrived w ⟨downstream_read_op b, false, data⟩).2 rfl rfl halive ?_
      ⟨?_, ?_,
        ⟨[.read (.downstream_socket_ b) (data.take max_data_length),
          .write (.upstream_socket_ b) ((World.arrived w ⟨downstream_read_op b, false, data⟩).1.view
            (.downstream_data_ b) (World.arrived w ⟨downstream_read_op b, false, data⟩).2)], ?_, ?_⟩,
        ?_, ?_⟩ ?_ ?_
    · simp [async_read_some, async_write, client_splice.set_ss, server_splice.set_cs,
      World.arrived, Request.effect, World.store, connect_op, upstream_read_op, downstream_read_op,
      upstream_write_op, downstream_write_op]
    · simp [async_read_some, async_write, client_splice.set_ss, server_splice.set_cs,
      World.arrived, Request.effect, World.store, connect_op, upstream_read_op, downstream_read_op,
      upstream_write_op, downstream_write_op]
    · simp [async_read_some, async_write, client_splice.set_ss, server_splice.set_cs,
      World.arrived, Request.effect, World.store, connect_op, upstream_read_op, downstream_read_op,
      upstream_write_op, downstream_write_op]
    · simp [async_read_some, async_write, client_splice.set_ss, server_splice.set_cs,
      World.arrived, Request.effect, World.store, connect_op, upstream_read_op, downstream_read_op,
      upstream_write_op, downstream_write_op]
    · simp [Event.bridge, Socket.bridge]
    · intro x hx
      simp [async_read_some, async_write, client_splice.set_ss, server_splice.set_cs,
        World.arrived, Request.effect, World.store, connect_op, upstream_read_op,
        downstream_read_op, upstream_write_op, downstream_write_op, Function.update_apply, hx]
    · intro x hx
      simp [async_read_some, async_write, client_splice.set_ss, server_splice.set_cs,
        World.arrived, Request.effect, World.store, connect_op, upstream_read_op,
        downstream_read_op, upstream_write_op, downstream_write_op, Function.update_apply, hx]
    · simp [async_read_some, async_write, client_splice.set_ss, server_splice.set_cs,
      World.arrived, Request.effect, World.store, connect_op, upstream_read_op, downstream_read_op,
      upstream_write_op, downstream_write_op]
    · intro sock
      cases sock <;> simp [async_read_some, async_write, client_splice.set_ss,
        server_splice.set_cs, World.arrived, Request.effect, World.store, connect_op,
        upstream_read_op, downstream_read_op, upstream_write_op, downstream_write_op,
        World.is_open]
  | upstream_write b n hop herr halive =>
    simp only at hop herr hp halive
    subst hop herr
    refine Change.upstream_write b n rfl rfl halive ?_ ⟨?_, ?_, ⟨[], ?_, ?_⟩, ?_, ?_⟩ ?_ ?_
    · simp [async_read_some, async_write, client_splice.set_ss, server_splice.set_cs,
      World.arrived, Request.effect, World.store, connect_op, upstream_read_op, downstream_read_op,
      upstream_write_op, downstream_write_op]
    · simp [async_read_some, async_write, client_splice.set_ss, server_splice.set_cs,
      World.arrived, Request.effect, World.store, connect_op, upstream_read_op, downstream_read_op,
      upstream_write_op, downstream_write_op]
    · simp [async_read_some, async_write, client_splice.set_ss, server_splice.set_cs,
      World.arrived, Request.effect, World.store, connect_op, upstream_read_op, downstream_read_op,
      upstream_write_op, downstream_write_op]
    · simp [async_read_some, async_write, client_splice.set_ss, server_splice.set_cs,
      World.arrived, Request.effect, World.store, connect_op, upstream_read_op, downstream_read_op,
      upstream_write_op, downstream_write_op]
    · simp [Event.bridge, Socket.bridge]
    · intro x hx
      simp [async_read_some, async_write, client_splice.set_ss, server_splice.set_cs,
        World.arrived, Request.effect, World.store, connect_op, upstream_read_op,
        downstream_read_op, upstream_write_op, downstream_write_op, Function.update_apply, hx]
    · intro x hx
      simp [async_read_some, async_write, client_splice.set_ss, server_splice.set_cs,
        World.arrived, Request.effect, World.store, connect_op, upstream_read_op,
        downstream_read_op, upstream_write_op, downstream_write_op, Function.update_apply, hx]
    · simp [async_read_some, async_write, client_splice.set_ss, server_splice.set_cs,
      World.arrived, Request.effect, World.store, connect_op, upstream_read_op, downstream_read_op,
      upstream_write_op, downstream_write_op]
    · intro sock
      cases sock <;> simp [async_read_some, async_write, client_splice.set_ss,
        server_splice.set_cs, World.arrived, Request.effect, World.store, connect_op,
        upstream_read_op, downstream_read_op, upstream_write_op, downstream_write_op,
        World.is_open]
  | downstream_write b n hop herr halive =>
    simp only at hop herr hp halive
    subst hop herr
    refine Change.downstream_write b n rfl rfl halive ?_ ⟨?_, ?_, ⟨[], ?_, ?_⟩, ?_, ?_⟩
      ?_ ?_
    · simp [async_read_some, async_write, client_splice.set_ss, server_splice.set_cs,
      World.arrived, Request.effect, World.store, connect_op, upstream_read_op, downstream_read_op,
      upstream_write_op, downstream_write_op]
    · simp [async_read_some, async_write, client_splice.set_ss, server_splice.set_cs,
      World.arrived, Request.effect, World.store, connect_op, upstream_read_op, downstream_read_op,
      upstream_write_op, downstream_write_op]
    · simp [async_read_some, async_write, client_splice.set_ss, server_splice.set_cs,
      World.arrived, Request.effect, World.store, connect_op, upstream_read_op, downstream_read_op,
      upstream_write_op, downstream_write_op]
    · simp [async_read_some, async_write, client_splice.set_ss, server_splice.set_cs,
      World.arrived, Request.effect, World.store, connect_op, upstream_read_op, downstream_read_op,
      upstream_write_op, downstream_write_op]
    · simp [Event.bridge, Socket.bridge]
    · intro x hx
      simp [async_read_some, async_write, client_splice.set_ss, server_splice.set_cs,
        World.arrived, Request.effect, World.store, connect_op, upstream_read_op,
        downstream_read_op, upstream_write_op, downstream_write_op, Function.update_apply, hx]
    · intro x hx
      simp [async_read_some, async_write, client_splice.set_ss, server_splice.set_cs,
        World.arrived, Request.effect, World.store, connect_op, upstream_read_op,
        downstream_read_op, upstream_write_op, downstream_write_op, Function.update_apply, hx]
    · simp [async_read_some, async_write, client_splice.set_ss, server_splice.set_cs,
      World.arrived, Request.effect, World.store, connect_op, upstream_read_op, downstream_read_op,
      upstream_write_op, downstream_write_op]
    · intro sock
      cases sock <;> simp [async_read_some, async_write, client_splice.set_ss,
        server_splice.set_cs, World.arrived, Request.effect, World.store, connect_op,
        upstream_read_op, downstream_read_op, upstream_write_op, downstream_write_op,
        World.is_open]
  | failed b sock n hb hleg herr hn =>
    simp only at hb hleg herr hn hp
    subst herr
    have hwf := hI.wf _ hp
    have hst := hI.started hp hb
    have hnd := hI.nodup
    have hcl := hI.closed_of_unregistered b hst.2
    obtain ⟨req, h⟩ := op
    cases h with
    | handle_accept => simp [Handler.bridge] at hb
    | handle_upstream_connect x =>
      simp only [Handler.bridge, Option.some.injEq] at hb
      subst hb
      cases req <;> simp only [Operation.wf] at hwf
      subst hwf
      simp only [Handler.leg, Option.some.injEq] at hleg
      subst hleg
      by_cases hbr : x ∈ w.bridge_instances
      · simp only [hbr, if_true]
        refine Change.failed x rfl rfl ?_ ⟨?_, ?_, ⟨[], ?_, ?_⟩, ?_, ?_⟩ ?_
          (fun h => absurd hbr h)
        · simp [closed_world, World.set_open, World.arrived, Request.effect, World.store]
        · simp [closed_world, World.set_open, World.arrived, Request.effect, World.store]
        · simp [closed_world, World.set_open, World.arrived, Request.effect, World.store]
        · simp [closed_world, World.set_open, World.arrived, Request.effect, World.store]
        · simp [Event.bridge, Socket.bridge]
        · intro y hy
          simp [closed_world, World.set_open, World.arrived, Request.effect, World.store,
            Function.update_apply, hy]
        · intro y hy
          simp [closed_world, World.set_open, World.arrived, Request.effect, World.store,
            Function.update_apply, hy]
        · intro _
          simp [closed_world, World.set_open, World.arrived, Request.effect, World.store,
            World.is_open]
      · simp only [hbr, if_false]
        have hc := hcl hbr
        refine Change.failed x rfl rfl ?_ ⟨?_, ?_, ⟨[], ?_, ?_⟩, ?_, ?_⟩
          (fun h => absurd h hbr) ?_
        · simp [closed_world, World.set_open, World.arrived, Request.effect, World.store]
        · simp [closed_world, World.set_open, World.arrived, Request.effect, World.store]
        · simp [closed_world, World.set_open, World.arrived, Request.effect, World.store]
        · simp [closed_world, World.set_open, World.arrived, Request.effect, World.store]
        · simp [Event.bridge, Socket.bridge]
        · intro y hy
          simp [closed_world, World.set_open, World.arrived, Request.effect, World.store,
            Function.update_apply, hy]
        · intro y hy
          simp [closed_world, World.set_open, World.arrived, Request.effect, World.store,
            Function.update_apply, hy]
        · intro _
          refine ⟨by simp [closed_world, World.set_open, World.arrived, Request.effect,
            World.store], fun sock => ?_⟩
          cases sock with
          | upstream_socket_ y =>
            by_cases hy : y = x <;>
              simp [closed_world, World.set_open, World.arrived, Request.effect, World.store,
                World.is_open, Function.update_apply, hy, hc.1]
          | downstream_socket_ y =>
            by_cases hy : y = x <;>
              simp [closed_world, World.set_open, World.arrived, Request.effect, World.store,
                World.is_open, Function.update_apply, hy, hc.2]
    | handle_upstream_write x =>
      simp only [Handler.bridge, Option.some.injEq] at hb
      subst hb
      cases req <;> simp only [Operation.wf] at hwf
      obtain ⟨rfl, rfl⟩ := hwf
      simp only [Handler.leg, Option.some.injEq] at hleg
      subst hleg
      by_cases hbr : x ∈ w.bridge_instances
      · simp only [hbr, if_true]
        refine Change.failed x rfl rfl ?_ ⟨?_, ?_, ⟨[], ?_, ?_⟩, ?_, ?_⟩ ?_
          (fun h => absurd hbr h)
        · simp [closed_world, World.set_open, World.arrived, Request.effect, World.store]
        · simp [closed_world, World.set_open, World.arrived, Request.effect, World.store]
        · simp [closed_world, World.set_open, World.arrived, Request.effect, World.store]
        · simp [closed_world, World.set_open, World.arrived, Request.effect, World.store]
        · simp [Event.bridge, Socket.bridge]
        · intro y hy
          simp [closed_world, World.set_open, World.arrived, Request.effect, World.store,
            Function.update_apply, hy]
        · intro y hy
          simp [closed_world, World.set_open, World.arrived, Request.effect, World.store,
            Function.update_apply, hy]
        · intro _
          simp [closed_world, World.set_open, World.arrived, Request.effect, World.store,
            World.is_open]
      · simp only [hbr, if_false]
        have hc := hcl hbr
        refine Change.failed x rfl rfl ?_ ⟨?_, ?_, ⟨[], ?_, ?_⟩, ?_, ?_⟩
          (fun h => absurd h hbr) ?_
        · simp [closed_world, World.set_open, World.arrived, Request.effect, World.store]
        · simp [closed_world, World.set_open, World.arrived, Request.effect, World.store]
        · simp [closed_world, World.set_open, World.arrived, Request.effect, World.store]
        · simp [closed_world, World.set_open, World.arrived, Request.effect, World.store]
        · simp [Event.bridge, Socket.bridge]
        · intro y hy
          simp [closed_world, World.set_open, World.arrived, Request.effect, World.store,
            Function.update_apply, hy]
        · intro y hy
          simp [closed_world, World.set_open, World.arrived, Request.effect, World.store,
            Function.update_apply, hy]
        · intro _
          refine ⟨by simp [closed_world, World.set_open, World.arrived, Request.effect,
            World.store], fun sock => ?_⟩
          cases sock with
          | upstream_socket_ y =>
            by_cases hy : y = x <;>
              simp [closed_world, World.set_open, World.arrived, Request.effect, World.store,
                World.is_open, Function.update_apply, hy, hc.1]
          | downstream_socket_ y =>
            by_cases hy : y = x <;>
              simp [closed_world, World.set_open, World.arrived, Request.effect, World.store,
                World.is_open, Function.update_apply, hy, hc.2]
    | handle_upstream_read x =>
      simp only [Handler.bridge, Option.some.injEq] at hb
      subst hb
      cases req <;> simp only [Operation.wf] at hwf
      obtain ⟨rfl, rfl, rfl⟩ := hwf
      simp only [Handler.leg, Option.some.injEq] at hleg
      subst hleg
      by_cases hbr : x ∈ w.bridge_instances
      · simp only [hbr, if_true]
        refine Change.failed x rfl rfl ?_
          ⟨?_, ?_, ⟨[.read (.upstream_socket_ x) (data.take max_data_length)], ?_, ?_⟩, ?_, ?_⟩ ?_
          (fun h => absurd hbr h)
        · simp [closed_world, World.set_open, World.arrived, Request.effect, World.store]
        · simp [closed_world, World.set_open, World.arrived, Request.effect, World.store]
        · simp [closed_world, World.set_open, World.arrived, Request.effect, World.store]
        · simp [closed_world, World.set_open, World.arrived, Request.effect, World.store]
        · simp [Event.bridge, Socket.bridge]
        · intro y hy
          simp [closed_world, World.set_open, World.arrived, Request.effect, World.store,
            Function.update_apply, hy]
        · intro y hy
          simp [closed_world, World.set_open, World.arrived, Request.effect, World.store,
            Function.update_apply, hy]
        · intro _
          simp [closed_world, World.set_open, World.arrived, Request.effect, World.store,
            World.is_open]
      · simp only [hbr, if_false]
        have hc := hcl hbr
        refine Change.failed x rfl rfl ?_
          ⟨?_, ?_, ⟨[.read (.upstream_socket_ x) (data.take max_data_length)], ?_, ?_⟩, ?_, ?_⟩
          (fun h => absurd h hbr) ?_
        · simp [closed_world, World.set_open, World.arrived, Request.effect, World.store]
        · simp [closed_world, World.set_open, World.arrived, Request.effect, World.store]
        · simp [closed_world, World.set_open, World.arrived, Request.effect, World.store]
        · simp [closed_world, World.set_open, World.arrived, Request.effect, World.store]
        · simp [Event.bridge, Socket.bridge]
        · intro y hy
          simp [closed_world, World.set_open, World.arrived, Request.effect, World.store,
            Function.update_apply, hy]
        · intro y hy
          simp [closed_world, World.set_open, World.arrived, Request.effect, World.store,
            Function.update_apply, hy]
        · intro _
          refine ⟨by simp [closed_world, World.set_open, World.arrived, Request.effect,
            World.store], fun sock => ?_⟩
          cases sock with
          | upstream_socket_ y =>
            by_cases hy : y = x <;>
              simp [closed_world, World.set_open, World.arrived, Request.effect, World.store,
                World.is_open, Function.update_apply, hy, hc.1]
          | downstream_socket_ y =>
            by_cases hy : y = x <;>
              simp [closed_world, World.set_open, World.arrived, Request.effect, World.store,
                World.is_open, Function.update_apply, hy, hc.2]
    | handle_downstream_write x =>
      simp only [Handler.bridge, Option.some.injEq] at hb
      subst hb
      cases req <;> simp only [Operation.wf] at hwf
      obtain ⟨rfl, rfl⟩ := hwf
      simp only [Handler.leg, Option.some.injEq] at hleg
      subst hleg
      by_cases hbr : x ∈ w.bridge_instances
      · simp only [hbr, if_true]
        refine Change.failed x rfl rfl ?_ ⟨?_, ?_, ⟨[], ?_, ?_⟩, ?_, ?_⟩ ?_
          (fun h => absurd hbr h)
        · simp [closed_world, World.set_open, World.arrived, Request.effect, World.store]
        · simp [closed_world, World.set_open, World.arrived, Request.effect, World.store]
        · simp [closed_world, World.set_open, World.arrived, Request.effect, World.store]
        · simp [closed_world, World.set_open, World.arrived, Request.effect, World.store]
        · simp [Event.bridge, Socket.bridge]
        · intro y hy
          simp [closed_world, World.set_open, World.arrived, Request.effect, World.store,
            Function.update_apply, hy]
        · intro y hy
          simp [closed_world, World.set_open, World.arrived, Request.effect, World.store,
            Function.update_apply, hy]
        · intro _
          simp [closed_world, World.set_open, World.arrived, Request.effect, World.store,
            World.is_open]
      · simp only [hbr, if_false]
        have hc := hcl hbr
        refine Change.failed x rfl rfl ?_ ⟨?_, ?_, ⟨[], ?_, ?_⟩, ?_, ?_⟩
          (fun h => absurd h hbr) ?_
        · simp [closed_world, World.set_open, World.arrived, Request.effect, World.store]
        · simp [closed_world, World.set_open, World.arrived, Request.effect, World.store]
        · simp [closed_world, World.set_open, World.arrived, Request.effect, World.store]
        · simp [closed_world, World.set_open, World.arrived, Request.effect, World.store]
        · simp [Event.bridge, Socket.bridge]
        · intro y hy
          simp [closed_world, World.set_open, World.arrived, Request.effect, World.store,
            Function.update_apply, hy]
        · intro y hy
          simp [closed_world, World.set_open, World.arrived, Request.effect, World.store,
            Function.update_apply, hy]
        · intro _
          refine ⟨by simp [closed_world, World.set_open, World.arrived, Request.effect,
            World.store], fun sock => ?_⟩
          cases sock with
          | upstream_socket_ y =>
            by_cases hy : y = x <;>
              simp [closed_world, World.set_open, World.arrived, Request.effect, World.store,
                World.is_open, Function.update_apply, hy, hc.1]
          | downstream_socket_ y =>
            by_cases hy : y = x <;>
              simp [closed_world, World.set_open, World.arrived, Request.effect, World.store,
                World.is_open, Function.update_apply, hy, hc.2]
    | handle_downstream_read x =>
      simp only [Handler.bridge, Option.some.injEq] at hb
      subst hb
      cases req <;> simp only [Operation.wf] at hwf
      obtain ⟨rfl, rfl, rfl⟩ := hwf
      simp only [Handler.leg, Option.some.injEq] at hleg
      subst hleg
      by_cases hbr : x ∈ w.bridge_instances
      · simp only [hbr, if_true]
        refine Change.failed x rfl rfl ?_
          ⟨?_, ?_, ⟨[.read (.downstream_socket_ x) (data.take max_data_length)], ?_, ?_⟩, ?_, ?_⟩ ?_
          (fun h => absurd hbr h)
        · simp [closed_world, World.set_open, World.arrived, Request.effect, World.store]
        · simp [closed_world, World.set_open, World.arrived, Request.effect, World.store]
        · simp [closed_world, World.set_open, World.arrived, Request.effect, World.store]
        · simp [closed_world, World.set_open, World.arrived, Request.effect, World.store]
        · simp [Event.bridge, Socket.bridge]
        · intro y hy
          simp [closed_world, World.set_open, World.arrived, Request.effect, World.store,
            Function.update_apply, hy]
        · intro y hy
          simp [closed_world, World.set_open, World.arrived, Request.effect, World.store,
            Function.update_apply, hy]
        · intro _
          simp [closed_world, World.set_open, World.arrived, Request.effect, World.store,
            World.is_open]
      · simp only [hbr, if_false]
        have hc := hcl hbr
        refine Change.failed x rfl rfl ?_
          ⟨?_, ?_, ⟨[.read (.downstream_socket_ x) (data.take max_data_length)], ?_, ?_⟩, ?_, ?_⟩
          (fun h => absurd h hbr) ?_
        · simp [closed_world, World.set_open, World.arrived, Request.effect, World.store]
        · simp [closed_world, World.set_open, World.arrived, Request.effect, World.store]
        · simp [closed_world, World.set_open, World.arrived, Request.effect, World.store]
        · simp [closed_world, World.set_open, World.arrived, Request.effect, World.store]
        · simp [Event.bridge, Socket.bridge]
        · intro y hy
          simp [closed_world, World.set_open, World.arrived, Request.effect, World.store,
            Function.update_apply, hy]
        · intro y hy
          simp [closed_world, World.set_open, World.arrived, Request.effect, World.store,
            Function.update_apply, hy]
        · intro _
          refine ⟨by simp [closed_world, World.set_open, World.arrived, Request.effect,
            World.store], fun sock => ?_⟩
          cases sock with
          | upstream_socket_ y =>
            by_cases hy : y = x <;>
              simp [closed_world, World.set_open, World.arrived, Request.effect, World.store,
                World.is_open, Function.update_apply, hy, hc.1]
          | downstream_socket_ y =>
            by_cases hy : y = x <;>
              simp [closed_world, World.set_open, World.arrived, Request.effect, World.store,
                World.is_open, Function.update_apply, hy, hc.2]

theorem Inv.change_of_step {w w1 : World} (hI : Inv w) {c : Completion}
    (hs : tcp_proxy.step w c = some w1) : Change w c w1 :=
  (hI.transition hs).to_change hI (mem_pending_of_step hs)

/-! ## Induction over the reachable states -/

theorem countP_le_add {α : Type} (f g h : α → Bool) (l : List α)
    (hfg : ∀ x ∈ l, f x = true → g x = true ∨ h x = true) :
    l.countP f ≤ l.countP g + l.countP h := by
  induction l with
  | nil => simp
  | cons x xs ih =>
    have ih1 := ih fun y hy => hfg y (List.mem_cons_of_mem _ hy)
    have hx := hfg x (List.mem_cons_self _ _)
    simp only [List.countP_cons]
    cases hf : f x <;> cases hg : g x <;> cases hh : h x <;>
      simp only [hf, hg, hh, Bool.false_eq_true, if_true, if_false] at hx ⊢ <;>
      first | omega | simp at hx

/-- Besides an outstanding operation of a bridge, at most one more operation
of that bridge is outstanding. -/
theorem Inv.count_bridge_erase {w : World} (hI : Inv w) {p : Operation} (hp : p ∈ w.pending)
    {b : Nat} (hb : p.handler.bridge = some b) :
    (w.pending.erase p).countP (fun q => decide (q.handler.bridge = some b)) ≤ 1 := by
  have h1 := countP_le_add (fun q : Operation => decide (q.handler.bridge = some b))
    (fun q => Handler.up_to_down b q.handler) (fun q => Handler.down_to_up b q.handler)
    (w.pending.erase p) (fun q _ hq => Handler.direction_of_bridge (by simpa using hq))
  have c1 := countP_erase_add (fun o => Handler.up_to_down b o.handler) _ _ hp
  have c2 := countP_erase_add (fun o => Handler.down_to_up b o.handler) _ _ hp
  have u := (hI.up_to_down b).1
  have d := (hI.down_to_up b).1
  rcases Handler.direction_of_bridge hb with h | h
  · simp only [h, if_true] at c1
    omega
  · simp only [h, if_true] at c2
    omega

/-- Induction over the states the event loop reaches. -/
theorem Reachable.induction {forward_host : String} {forward_port : Nat} (P : World → Prop)
    (h0 : P (main forward_host forward_port))
    (hstep : ∀ w c w1, Inv w → P w → c.op ∈ w.pending → Change w c w1 → P w1) :
    ∀ w, Reachable forward_host forward_port w → P w := by
  intro w ⟨cs, hcs⟩
  have key : ∀ (cs : List Completion) (w0 w1 : World), Inv w0 → P w0 → run w0 cs = some w1 →
      P w1 := by
    intro cs
    induction cs with
    | nil =>
      intro w0 w1 _ hP h
      simp only [run, Option.some.injEq] at h
      exact h ▸ hP
    | cons c cs ih =>
      intro w0 w1 hI hP h
      simp only [run] at h
      cases hs : step w0 c with
      | none => simp [hs] at h
      | some w2 =>
        rw [hs] at h
        exact ih w2 w1 (hI.step hs) (hstep w0 c w2 hI hP (mem_pending_of_step hs)
          (hI.change_of_step hs)) h
  exact key cs _ w (Inv.main forward_host forward_port) h0 hcs

theorem countP_bridge_singleton (q : Operation) (b : Nat) :
    [q].countP (fun q => decide (q.handler.bridge = some b)) =
      if q.handler.bridge = some b then 1 else 0 := by
  simp [List.countP_cons]

/-- At most one operation of a bridge that is not in the registry is
outstanding. -/
theorem Reachable.orphan {forward_host : String} {forward_port : Nat} {w : World}
    (hr : Reachable forward_host forward_port w) :
    ∀ b, b ∉ w.bridge_instances →
      w.pending.countP (fun q => decide (q.handler.bridge = some b)) ≤ 1 := by
  refine Reachable.induction
    (fun w => ∀ b, b ∉ w.bridge_instances →
      w.pending.countP (fun q => decide (q.handler.bridge = some b)) ≤ 1) ?_ ?_ w hr
  · intro b _
    simp [main, acceptor.accept_connections, async_accept, bridge.new, bridge.init,
      client_splice.set_bridge, server_splice.set_bridge, Handler.bridge]
  · intro w c w1 hI hP hp hc b hb
    have hle : (w.pending.erase c.op).countP (fun q => decide (q.handler.bridge = some b)) ≤
        w.pending.countP (fun q => decide (q.handler.bridge = some b)) :=
      (List.erase_sublist _ _).countP_le _
    have hadd := countP_erase_add (fun q => decide (q.handler.bridge = some b)) _ _ hp
    cases hc with
    | accepted s hop herr hsess hsreg pending registry session next log opened fresh clients
        servers =>
      rw [registry] at hb
      simp only [List.mem_append, List.mem_singleton, not_or] at hb
      have hbs : s ≠ b := fun h => hb.1 (h ▸ hsreg)
      have := hP b hb.1
      have hops : [connect_op s w.upstream_host_ w.upstream_port_, accept_op w.next].countP
          (fun q => decide (q.handler.bridge = some b)) = 0 := by
        simp [List.countP_cons, connect_op, accept_op, Handler.bridge, hbs]
      rw [pending, List.countP_append, hops]
      omega
    | refused s hop herr hsess eq =>
      subst eq
      have := hP b hb
      simp only
      omega
    | connected b1 host port hop herr hreg pending confined registry sockets =>
      rw [registry] at hb
      have hbs : b1 ≠ b := fun h => hb (h ▸ hreg)
      have := hP b hb
      have hops : [upstream_read_op b1, downstream_read_op b1].countP
          (fun q => decide (q.handler.bridge = some b)) = 0 := by
        simp [List.countP_cons, upstream_read_op, downstream_read_op, Handler.bridge, hbs]
      rw [pending, List.countP_append, hops]
      omega
    | upstream_read b1 n hop herr halive pending confined registry sockets =>
      rw [registry] at hb
      have := hP b hb
      have hops : [downstream_write_op b1 n].countP (fun q => decide (q.handler.bridge = some b)) =
          if b1 = b then 1 else 0 := by
        simp [List.countP_cons, downstream_write_op, Handler.bridge]
      have hpb : (fun q : Operation => decide (q.handler.bridge = some b)) c.op =
          decide (b1 = b) := by
        rw [hop]
        simp [upstream_read_op, Handler.bridge]
      rw [hpb] at hadd
      rw [pending, List.countP_append, hops]
      by_cases hbb : b1 = b <;> simp only [hbb, decide_True, decide_False, if_true, if_false,
        Bool.false_eq_true] at hadd ⊢ <;> omega
    | downstream_read b1 n hop herr halive pending confined registry sockets =>
      rw [registry] at hb
      have := hP b hb
      have hops : [upstream_write_op b1 n].countP (fun q => decide (q.handler.bridge = some b)) =
          if b1 = b then 1 else 0 := by
        simp [List.countP_cons, upstream_write_op, Handler.bridge]
      have hpb : (fun q : Operation => decide (q.handler.bridge = some b)) c.op =
          decide (b1 = b) := by
        rw [hop]
        simp [downstream_read_op, Handler.bridge]
      rw [hpb] at hadd
      rw [pending, List.countP_append, hops]
      by_cases hbb : b1 = b <;> simp only [hbb, decide_True, decide_False, if_true, if_false,
        Bool.false_eq_true] at hadd ⊢ <;> omega
    | upstream_write b1 n hop herr halive pending confined registry sockets =>
      rw [registry] at hb
      have := hP b hb
      have hops : [downstream_read_op b1].countP (fun q => decide (q.handler.bridge = some b)) =
          if b1 = b then 1 else 0 := by
        simp [List.countP_cons, downstream_read_op, Handler.bridge]
      have hpb : (fun q : Operation => decide (q.handler.bridge = some b)) c.op =
          decide (b1 = b) := by
        rw [hop]
        simp [upstream_write_op, Handler.bridge]
      rw [hpb] at hadd
      rw [pending, List.countP_append, hops]
      by_cases hbb : b1 = b <;> simp only [hbb, decide_True, decide_False, if_true, if_false,
        Bool.false_eq_true] at hadd ⊢ <;> omega
    | downstream_write b1 n hop herr halive pending confined registry sockets =>
      rw [registry] at hb
      have := hP b hb
      have hops : [upstream_read_op b1].countP (fun q => decide (q.handler.bridge = some b)) =
          if b1 = b then 1 else 0 := by
        simp [List.countP_cons, upstream_read_op, Handler.bridge]
      have hpb : (fun q : Operation => decide (q.handler.bridge = some b)) c.op =
          decide (b1 = b) := by
        rw [hop]
        simp [downstream_write_op, Handler.bridge]
      rw [hpb] at hadd
      rw [pending, List.countP_append, hops]
      by_cases hbb : b1 = b <;> simp only [hbb, decide_True, decide_False, if_true, if_false,
        Bool.false_eq_true] at hadd ⊢ <;> omega
    | failed b1 hb1 herr pending confined registered unregistered =>
      rw [pending]
      by_cases hbr : b1 ∈ w.bridge_instances
      · by_cases hbb : b = b1
        · subst hbb
          exact hI.count_bridge_erase hp hb1
        · rw [(registered hbr).1] at hb
          have hb0 : b ∉ w.bridge_instances := fun h =>
            hb ((List.mem_erase_of_ne hbb).mpr h)
          have := hP b hb0
          omega
      · rw [(unregistered hbr).1] at hb
        have := hP b hb
        omega

theorem Handler.bridge_of_holds_server {b : Nat} {h : Handler} (hh : h.holds_server b = true) :
    h.bridge = some b := by
  cases h <;> simp_all [Handler.holds_server, Handler.bridge]

theorem Handler.bridge_of_holds_client {b : Nat} {h : Handler} (hh : h.holds_client b = true) :
    h.bridge = some b := by
  cases h <;> simp_all [Handler.holds_client, Handler.bridge]

/-- When a bridge has left the registry, no operation besides the given one
holds a splice of it. -/
theorem Reachable.alone {forward_host : String} {forward_port : Nat} {w : World}
    (hr : Reachable forward_host forward_port w) {b : Nat} (hb : b ∉ w.bridge_instances)
    {p : Operation} (hp : p ∈ w.pending) (hpb : p.handler.bridge = some b) :
    ∀ q ∈ w.pending.erase p, q.handler.bridge ≠ some b := by
  intro q hq hqb
  have h1 := hr.orphan b hb
  rw [countP_erase_add _ _ _ hp] at h1
  have h2 : 0 < (w.pending.erase p).countP (fun q => decide (q.handler.bridge = some b)) :=
    List.countP_pos_iff.mpr ⟨q, hq, by simpa using hqb⟩
  simp only [hpb, decide_True, if_true] at h1
  omega

/-! ## The accept of the session bridge, and the calls of `bridge::close` -/

/-- While no accept has failed, the accept of the session bridge stays
outstanding. -/
theorem run_awaiting {cs : List Completion} : ∀ {w w1 : World}, Inv w →
    (∃ s, w.session_ = some s ∧ accept_op s ∈ w.pending) →
    (∀ c ∈ cs, c.op.handler = .handle_accept → c.error = false) → run w cs = some w1 →
    ∃ s, w1.session_ = some s ∧ accept_op s ∈ w1.pending := by
  induction cs with
  | nil =>
    intro w w1 _ h _ hrun
    simp only [run, Option.some.injEq] at hrun
    exact hrun ▸ h
  | cons c cs ih =>
    intro w w1 hI h hok hrun
    simp only [run] at hrun
    cases hs : step w c with
    | none => simp [hs] at hrun
    | some w2 =>
      rw [hs] at hrun
      refine ih (hI.step hs) ?_ (fun c hc => hok c (List.mem_cons_of_mem _ hc)) hrun
      obtain ⟨s, hsess, hacc⟩ := h
      have hc0 := hok c (List.mem_cons_self _ _)
      have keep : ∀ ops, c.op ≠ accept_op s → accept_op s ∈ w.pending.erase c.op ++ ops :=
        fun ops hne => List.mem_append_left _ ((List.mem_erase_of_ne (Ne.symm hne)).mpr hacc)
      cases hI.change_of_step hs with
      | accepted s1 hop herr hsess1 hsreg pending registry session next log opened fresh clients
          servers =>
        exact ⟨w.next, session, by rw [pending]; simp⟩
      | refused s1 hop herr hsess1 eq =>
        rw [hc0 (by rw [hop]; rfl)] at herr
        simp at herr
      | connected b1 host port hop herr hreg pending confined registry sockets =>
        exact ⟨s, by rw [confined.session, hsess], by
          rw [pending]; exact keep _ (by rw [hop]; simp [connect_op, accept_op])⟩
      | upstream_read b1 n hop herr halive pending confined registry sockets =>
        exact ⟨s, by rw [confined.session, hsess], by
          rw [pending]; exact keep _ (by rw [hop]; simp [upstream_read_op, accept_op])⟩
      | downstream_read b1 n hop herr halive pending confined registry sockets =>
        exact ⟨s, by rw [confined.session, hsess], by
          rw [pending]; exact keep _ (by rw [hop]; simp [downstream_read_op, accept_op])⟩
      | upstream_write b1 n hop herr halive pending confined registry sockets =>
        exact ⟨s, by rw [confined.session, hsess], by
          rw [pending]; exact keep _ (by rw [hop]; simp [upstream_write_op, accept_op])⟩
      | downstream_write b1 n hop herr halive pending confined registry sockets =>
        exact ⟨s, by rw [confined.session, hsess], by
          rw [pending]; exact keep _ (by rw [hop]; simp [downstream_write_op, accept_op])⟩
      | failed b1 hb1 herr pending confined registered unregistered =>
        refine ⟨s, by rw [confined.session, hsess], ?_⟩
        rw [pending]
        have := keep [] (fun h => by rw [h] at hb1; simp [accept_op, Handler.bridge] at hb1)
        simpa using this

theorem main_awaiting (forward_host : String) (forward_port : Nat) :
    ∃ s, (main forward_host forward_port).session_ = some s ∧
      accept_op s ∈ (main forward_host forward_port).pending :=
  ⟨0, rfl, by simp [main, acceptor.accept_connections, async_accept, bridge.new, bridge.init,
    client_splice.set_bridge, server_splice.set_bridge, accept_op]⟩

/-- The socket of an operation belongs to the bridge of its handler. -/
theorem Operation.socket_of_wf {p : Operation} (hwf : p.wf) {b : Nat}
    (hb : p.handler.bridge = some b) : p.request.socket.bridge = b := by
  obtain ⟨req, h⟩ := p
  cases h <;> cases req <;> simp only [Operation.wf] at hwf <;>
    simp_all [Handler.bridge, Request.socket, Socket.bridge]

/-- What `close_call` gives is the call the handler makes: the handler returns
what `bridge::close` returns, the registry is still the one the step started
with, and the bridge is the registered bridge of the handler. -/
theorem Inv.close_call_spec {w : World} (hI : Inv w) {c : Completion} (hp : c.op ∈ w.pending)
    {b : Nat} {w0 : World} (h : close_call w c = some (b, w0)) :
    tcp_proxy.step w c = bridge.close b w0 ∧ w0.bridge_instances = w.bridge_instances ∧
      b ∈ w.bridge_instances ∧ c.op.handler.bridge = some b := by
  have hwf := hI.wf _ hp
  obtain ⟨⟨req, hd⟩, error, data⟩ := c
  cases error with
  | false => simp [tcp_proxy.close_call] at h
  | true =>
    cases hd with
    | handle_accept => simp [tcp_proxy.close_call] at h
    | handle_upstream_connect x =>
      cases req <;> simp only [Operation.wf] at hwf
      subst hwf
      have hst := hI.started hp (b := x) rfl
      have hw := hI.wbp_client x hst.2
      simp only [tcp_proxy.close_call, if_true, Option.map_eq_some', Prod.mk.injEq] at h
      obtain ⟨bp, hl, rfl, rfl⟩ := h
      have hl2 := hl
      rw [lock_bridge_eq _ _ x (by simpa [World.arrived, Request.effect, World.store] using hw)]
        at hl2
      split at hl2
      · rename_i hreg
        simp only [Option.some.injEq] at hl2
        subst hl2
        refine ⟨?_, by simp [World.arrived, Request.effect, World.store],
          by simpa [World.arrived, Request.effect, World.store] using hreg, rfl⟩
        rw [step_eq_invoke hp]
        simp only [Handler.invoke, client_splice.handle_upstream_connect, Bool.true_eq_false,
          if_false,
          client_splice.on_error]
        rw [hl]
      · simp at hl2
    | handle_upstream_write x =>
      cases req <;> simp only [Operation.wf] at hwf
      obtain ⟨rfl, rfl⟩ := hwf
      have hst := hI.started hp (b := x) rfl
      have hw := hI.wbp_client x hst.2
      simp only [tcp_proxy.close_call, if_true, Option.map_eq_some', Prod.mk.injEq] at h
      obtain ⟨bp, hl, rfl, rfl⟩ := h
      have hl2 := hl
      rw [lock_bridge_eq _ _ x (by simpa [World.arrived, Request.effect, World.store] using hw)]
        at hl2
      split at hl2
      · rename_i hreg
        simp only [Option.some.injEq] at hl2
        subst hl2
        refine ⟨?_, by simp [World.arrived, Request.effect, World.store],
          by simpa [World.arrived, Request.effect, World.store] using hreg, rfl⟩
        rw [step_eq_invoke hp]
        simp only [Handler.invoke, client_splice.handle_upstream_write, Bool.true_eq_false,
          if_false,
          client_splice.on_error]
        rw [hl]
      · simp at hl2
    | handle_upstream_read x =>
      cases req <;> simp only [Operation.wf] at hwf
      obtain ⟨rfl, rfl, rfl⟩ := hwf
      have hst := hI.started hp (b := x) rfl
      have hw := hI.wbp_client x hst.2
      simp only [tcp_proxy.close_call, if_true, Option.map_eq_some', Prod.mk.injEq] at h
      obtain ⟨bp, hl, rfl, rfl⟩ := h
      have hl2 := hl
      rw [lock_bridge_eq _ _ x (by simpa [World.arrived, Request.effect, World.store] using hw)]
        at hl2
      split at hl2
      · rename_i hreg
        simp only [Option.some.injEq] at hl2
        subst hl2
        refine ⟨?_, by simp [World.arrived, Request.effect, World.store],
          by simpa [World.arrived, Request.effect, World.store] using hreg, rfl⟩
        rw [step_eq_invoke hp]
        simp only [Handler.invoke, client_splice.handle_upstream_read, Bool.true_eq_false, if_false,
          client_splice.on_error]
        rw [hl]
      · simp at hl2
    | handle_downstream_write x =>
      cases req <;> simp only [Operation.wf] at hwf
      obtain ⟨rfl, rfl⟩ := hwf
      have hst := hI.started hp (b := x) rfl
      have hw := hI.wbp_server x hst.2
      simp only [tcp_proxy.close_call, if_true, Option.map_eq_some', Prod.mk.injEq] at h
      obtain ⟨bp, hl, rfl, rfl⟩ := h
      have hl2 := hl
      rw [lock_bridge_eq _ _ x (by simpa [World.arrived, Request.effect, World.store] using hw)]
        at hl2
      split at hl2
      · rename_i hreg
        simp only [Option.some.injEq] at hl2
        subst hl2
        refine ⟨?_, by simp [World.arrived, Request.effect, World.store],
          by simpa [World.arrived, Request.effect, World.store] using hreg, rfl⟩
        rw [step_eq_invoke hp]
        simp only [Handler.invoke, server_splice.handle_downstream_write, Bool.true_eq_false,
          if_false,
          server_splice.on_error]
        rw [hl]
      · simp at hl2
    | handle_downstream_read x =>
      cases req <;> simp only [Operation.wf] at hwf
      obtain ⟨rfl, rfl, rfl⟩ := hwf
      have hst := hI.started hp (b := x) rfl
      have hw := hI.wbp_server x hst.2
      simp only [tcp_proxy.close_call, if_true, Option.map_eq_some', Prod.mk.injEq] at h
      obtain ⟨bp, hl, rfl, rfl⟩ := h
      have hl2 := hl
      rw [lock_bridge_eq _ _ x (by simpa [World.arrived, Request.effect, World.store] using hw)]
        at hl2
      split at hl2
      · rename_i hreg
        simp only [Option.some.injEq] at hl2
        subst hl2
        refine ⟨?_, by simp [World.arrived, Request.effect, World.store],
          by simpa [World.arrived, Request.effect, World.store] using hreg, rfl⟩
        rw [step_eq_invoke hp]
        simp only [Handler.invoke, server_splice.handle_downstream_read, Bool.true_eq_false,
          if_false,
          server_splice.on_error]
        rw [hl]
      · simp at hl2

/-! ## A handler is confined to its bridge -/

theorem Confined.sockets {b : Nat} {w w1 : World} (h : Confined b w w1) (sock : Socket)
    (hs : sock.bridge ≠ b) : w1.is_open sock = w.is_open sock := by
  cases sock with
  | upstream_socket_ x => simp only [World.is_open, h.clients x hs]
  | downstream_socket_ x => simp only [World.is_open, h.servers x hs]

theorem Confined.traffic {b : Nat} {w w1 : World} (h : Confined b w w1) {sock : Socket}
    (hs : sock.bridge ≠ b) :
    written sock w1 = written sock w ∧ delivered sock w1 = delivered sock w := by
  obtain ⟨events, hlog, hev⟩ := h.log
  have hne : ∀ e ∈ events, e.bridge ≠ sock.bridge := fun e he heq =>
    hs (by rw [← heq, hev e he])
  simp only [written, delivered, hlog, log_written_append, log_delivered_append,
    log_written_of_bridge_ne _ _ hne, log_delivered_of_bridge_ne _ _ hne, List.append_nil,
    and_self]

/-- What a step on an operation of bridge `a` does is confined to `a`. -/
theorem Change.bound {w w1 : World} {c : Completion} (hc : Change w c w1) {a : Nat}
    (ha : c.op.handler.bridge = some a) :
    Confined a w w1 ∧
      (∃ ops, w1.pending = w.pending.erase c.op ++ ops ∧
        ∀ q ∈ ops, q.request.socket.bridge = a ∧ q.handler.bridge = some a) ∧
      (∀ x, x ≠ a → (x ∈ w1.bridge_instances ↔ x ∈ w.bridge_instances)) ∧
      (∀ sock, w1.is_open sock ≠ w.is_open sock → sock.bridge = a) := by
  cases hc with
  | accepted s hop herr hsess hsreg pending registry session next log opened fresh clients
      servers =>
    rw [hop] at ha
    simp [accept_op, Handler.bridge] at ha
  | refused s hop herr hsess eq =>
    rw [hop] at ha
    simp [accept_op, Handler.bridge] at ha
  | connected b1 host port hop herr hreg pending confined registry sockets =>
    have hab : b1 = a := by rw [hop] at ha; simpa [connect_op, Handler.bridge] using ha
    subst hab
    refine ⟨confined, ⟨_, pending, ?_⟩, fun x _ => by rw [registry],
      fun sock h => absurd (sockets sock) h⟩
    simp [upstream_read_op, downstream_read_op, Request.socket, Socket.bridge, Handler.bridge]
  | upstream_read b1 n hop herr halive pending confined registry sockets =>
    have hab : b1 = a := by rw [hop] at ha; simpa [upstream_read_op, Handler.bridge] using ha
    subst hab
    refine ⟨confined, ⟨_, pending, ?_⟩, fun x _ => by rw [registry],
      fun sock h => absurd (sockets sock) h⟩
    simp [downstream_write_op, Request.socket, Socket.bridge, Handler.bridge]
  | downstream_read b1 n hop herr halive pending confined registry sockets =>
    have hab : b1 = a := by rw [hop] at ha; simpa [downstream_read_op, Handler.bridge] using ha
    subst hab
    refine ⟨confined, ⟨_, pending, ?_⟩, fun x _ => by rw [registry],
      fun sock h => absurd (sockets sock) h⟩
    simp [upstream_write_op, Request.socket, Socket.bridge, Handler.bridge]
  | upstream_write b1 n hop herr halive pending confined registry sockets =>
    have hab : b1 = a := by rw [hop] at ha; simpa [upstream_write_op, Handler.bridge] using ha
    subst hab
    refine ⟨confined, ⟨_, pending, ?_⟩, fun x _ => by rw [registry],
      fun sock h => absurd (sockets sock) h⟩
    simp [downstream_read_op, Request.socket, Socket.bridge, Handler.bridge]
  | downstream_write b1 n hop herr halive pending confined registry sockets =>
    have hab : b1 = a := by rw [hop] at ha; simpa [downstream_write_op, Handler.bridge] using ha
    subst hab
    refine ⟨confined, ⟨_, pending, ?_⟩, fun x _ => by rw [registry],
      fun sock h => absurd (sockets sock) h⟩
    simp [upstream_read_op, Request.socket, Socket.bridge, Handler.bridge]
  | failed b1 hb1 herr pending confined registered unregistered =>
    have hab : b1 = a := by rw [hb1] at ha; exact Option.some.inj ha
    subst hab
    refine ⟨confined, ⟨[], by simpa using pending, by simp⟩, ?_, ?_⟩
    · intro x hx
      by_cases hbr : b1 ∈ w.bridge_instances
      · rw [(registered hbr).1]
        exact List.mem_erase_of_ne hx
      · rw [(unregistered hbr).1]
    · intro sock h
      by_contra hne
      exact h (confined.sockets sock hne)

/-- A completion on an operation of a registered bridge is always defined. -/
theorem Inv.defined_of_registered {w : World} (hI : Inv w) {p : Operation} (hp : p ∈ w.pending)
    {a : Nat} (ha : p.handler.bridge = some a) (hreg : a ∈ w.bridge_instances) (error : Bool)
    (data : List Nat) : ∃ w1, tcp_proxy.step w ⟨p, error, data⟩ = some w1 := by
  cases error with
  | true =>
    obtain ⟨w1, h, -⟩ := hI.step_error hp ha data
    exact ⟨w1, h⟩
  | false =>
    have hwf := hI.wf p hp
    obtain ⟨req, h⟩ := p
    cases h with
    | handle_accept => simp [Handler.bridge] at ha
    | handle_upstream_connect x =>
      simp only [Handler.bridge, Option.some.injEq] at ha
      subst ha
      cases req <;> simp only [Operation.wf] at hwf
      subst hwf
      exact ⟨_, Transition.step_eq hI hp (Transition.connected x _ _ rfl rfl hreg)⟩
    | handle_upstream_write x =>
      simp only [Handler.bridge, Option.some.injEq] at ha
      subst ha
      cases req <;> simp only [Operation.wf] at hwf
      obtain ⟨rfl, rfl⟩ := hwf
      exact ⟨_, Transition.step_eq hI hp (Transition.upstream_write x _ rfl rfl (Or.inl hreg))⟩
    | handle_upstream_read x =>
      simp only [Handler.bridge, Option.some.injEq] at ha
      subst ha
      cases req <;> simp only [Operation.wf] at hwf
      obtain ⟨rfl, rfl, rfl⟩ := hwf
      exact ⟨_, Transition.step_eq hI hp (Transition.upstream_read x rfl rfl (Or.inl hreg))⟩
    | handle_downstream_write x =>
      simp only [Handler.bridge, Option.some.injEq] at ha
      subst ha
      cases req <;> simp only [Operation.wf] at hwf
      obtain ⟨rfl, rfl⟩ := hwf
      exact ⟨_, Transition.step_eq hI hp
        (Transition.downstream_write x _ rfl rfl (Or.inl hreg))⟩
    | handle_downstream_read x =>
      simp only [Handler.bridge, Option.some.injEq] at ha
      subst ha
      cases req <;> simp only [Operation.wf] at hwf
      obtain ⟨rfl, rfl, rfl⟩ := hwf
      exact ⟨_, Transition.step_eq hI hp (Transition.downstream_read x rfl rfl (Or.inl hreg))⟩

/-! ## Two runs that differ on other bridges -/

theorem filter_erase_other (f : Operation → Bool) (l : List Operation) (p : Operation)
    (hf : f p = false) : (l.erase p).filter f = l.filter f := by
  rw [← List.erase_filter]
  apply List.erase_of_not_mem
  intro h
  rw [(List.mem_filter.mp h).2] at hf
  simp at hf

/-- A step on an operation of another bridge leaves what `b` sees alone. -/
theorem Change.unseen {w w1 : World} {c : Completion} (hc : Change w c w1) {a b : Nat}
    (ha : c.op.handler.bridge = some a) (hab : a ≠ b) :
    w1.clients b = w.clients b ∧ w1.servers b = w.servers b ∧
      (b ∈ w1.bridge_instances ↔ b ∈ w.bridge_instances) ∧
      w1.pending.filter (fun q => decide (q.handler.bridge = some b)) =
        w.pending.filter (fun q => decide (q.handler.bridge = some b)) ∧
      w1.session_ = w.session_ ∧ w1.next = w.next ∧
      (∀ sock : Socket, sock.bridge = b →
        written sock w1 = written sock w ∧ delivered sock w1 = delivered sock w) := by
  have hba : b ≠ a := fun h => hab h.symm
  obtain ⟨hconf, ⟨ops, hpend, hops⟩, hreg, -⟩ := hc.bound ha
  refine ⟨hconf.clients b hba, hconf.servers b hba, hreg b hba, ?_, hconf.session, hconf.next,
    fun sock hs => hconf.traffic (by rw [hs]; exact hba)⟩
  rw [hpend, List.filter_append, filter_erase_other _ _ _ (by simp [ha, hab])]
  have : ops.filter (fun q => decide (q.handler.bridge = some b)) = [] := by
    rw [List.filter_eq_nil_iff]
    intro q hq
    simp [(hops q hq).2, hab]
  rw [this, List.append_nil]

theorem written_of_log {w w1 : World} (h : w1.log = w.log) (sock : Socket) :
    written sock w1 = written sock w ∧ delivered sock w1 = delivered sock w := by
  simp only [written, delivered, h, and_self]

/-- An accept step keeps the agreement. -/
theorem Agree.accept {b : Nat} {w w2 w1 v : World} {c c2 : Completion}
    (hA : Agree b w w2) (hsame : c.same_for b c2) (ha : c.op.handler.bridge = none)
    (hc : Change w c w1) (hc2 : Change w2 c2 v)
    (hcfg : w1.upstream_host_ = w.upstream_host_ ∧ w1.upstream_port_ = w.upstream_port_)
    (hcfg2 : v.upstream_host_ = w2.upstream_host_ ∧ v.upstream_port_ = w2.upstream_port_) :
    Agree b w1 v := by
  have ha2 : c2.op.handler.bridge = none := by rw [← hsame.2.1]; exact ha
  have hf : (fun q : Operation => decide (q.handler.bridge = some b)) c.op = false := by
    simp [ha]
  have hf2 : (fun q : Operation => decide (q.handler.bridge = some b)) c2.op = false := by
    simp [ha2]
  cases hc with
  | accepted s hop herr hsess hsreg pending registry session next log opened fresh clients
      servers started created =>
    cases hc2 with
    | accepted s2 hop2 herr2 hsess2 hsreg2 pending2 registry2 session2 next2 log2 opened2 fresh2
        clients2 servers2 started2 created2 =>
      have hss : s2 = s := by
        have := hA.session
        rw [hsess, hsess2] at this
        exact (Option.some.inj this).symm
      subst hss
      have hn := hA.next
      constructor
      · by_cases h1 : b = s2
        · subst h1
          rw [started.1, started2.1, hA.clients]
        · by_cases h2 : b = w.next
          · subst h2
            rw [created.1]
            rw [hn, created2.1, ← hn, hA.clients]
          · rw [clients b h1 h2, clients2 b h1 (by rw [← hn]; exact h2), hA.clients]
      · by_cases h1 : b = s2
        · subst h1
          rw [started.2, started2.2, hA.servers]
        · by_cases h2 : b = w.next
          · subst h2
            rw [created.2]
            rw [hn, created2.2, ← hn, hA.servers]
          · rw [servers b h1 h2, servers2 b h1 (by rw [← hn]; exact h2), hA.servers]
      · rw [registry, registry2, ← hn]
        simp only [List.mem_append, List.mem_singleton, hA.registered]
      · rw [pending, pending2, List.filter_append, List.filter_append,
          filter_erase_other _ _ _ hf, filter_erase_other _ _ _ hf2, hA.pending, hA.host, hA.port,
          hn]
      · rw [session, session2, hn]
      · rw [next, next2, hn]
      · rw [hcfg.1, hcfg2.1, hA.host]
      · rw [hcfg.2, hcfg2.2, hA.port]
      · intro sock hs
        rw [(written_of_log log sock).1, (written_of_log log2 sock).1]
        exact hA.written sock hs
      · intro sock hs
        rw [(written_of_log log sock).2, (written_of_log log2 sock).2]
        exact hA.delivered sock hs
    | refused s2 hop2 herr2 hsess2 eq2 =>
      rw [hsame.1, herr2] at herr
      simp at herr
    | connected b1 host port hop2 herr2 hreg2 pending2 confined2 registry2 sockets2 =>
      rw [hop2] at ha2
      simp [connect_op, Handler.bridge] at ha2
    | upstream_read b1 n hop2 herr2 halive2 pending2 confined2 registry2 sockets2 =>
      rw [hop2] at ha2
      simp [upstream_read_op, Handler.bridge] at ha2
    | downstream_read b1 n hop2 herr2 halive2 pending2 confined2 registry2 sockets2 =>
      rw [hop2] at ha2
      simp [downstream_read_op, Handler.bridge] at ha2
    | upstream_write b1 n hop2 herr2 halive2 pending2 confined2 registry2 sockets2 =>
      rw [hop2] at ha2
      simp [upstream_write_op, Handler.bridge] at ha2
    | downstream_write b1 n hop2 herr2 halive2 pending2 confined2 registry2 sockets2 =>
      rw [hop2] at ha2
      simp [downstream_write_op, Handler.bridge] at ha2
    | failed b1 hb1 herr2 pending2 confined2 registered2 unregistered2 =>
      rw [hb1] at ha2
      simp at ha2
  | refused s hop herr hsess eq =>
    cases hc2 with
    | accepted s2 hop2 herr2 hsess2 hsreg2 pending2 registry2 session2 next2 log2 opened2 fresh2
        clients2 servers2 started2 created2 =>
      rw [hsame.1, herr2] at herr
      simp at herr
    | refused s2 hop2 herr2 hsess2 eq2 =>
      subst eq eq2
      refine ⟨hA.clients, hA.servers, hA.registered, ?_, hA.session, hA.next, hA.host, hA.port,
        hA.written, hA.delivered⟩
      simp only
      rw [filter_erase_other _ _ _ hf, filter_erase_other _ _ _ hf2, hA.pending]
    | connected b1 host port hop2 herr2 hreg2 pending2 confined2 registry2 sockets2 =>
      rw [hop2] at ha2
      simp [connect_op, Handler.bridge] at ha2
    | upstream_read b1 n hop2 herr2 halive2 pending2 confined2 registry2 sockets2 =>
      rw [hop2] at ha2
      simp [upstream_read_op, Handler.bridge] at ha2
    | downstream_read b1 n hop2 herr2 halive2 pending2 confined2 registry2 sockets2 =>
      rw [hop2] at ha2
      simp [downstream_read_op, Handler.bridge] at ha2
    | upstream_write b1 n hop2 herr2 halive2 pending2 confined2 registry2 sockets2 =>
      rw [hop2] at ha2
      simp [upstream_write_op, Handler.bridge] at ha2
    | downstream_write b1 n hop2 herr2 halive2 pending2 confined2 registry2 sockets2 =>
      rw [hop2] at ha2
      simp [downstream_write_op, Handler.bridge] at ha2
    | failed b1 hb1 herr2 pending2 confined2 registered2 unregistered2 =>
      rw [hb1] at ha2
      simp at ha2
  | connected b1 host port hop herr hreg pending confined registry sockets =>
    rw [hop] at ha
    simp [connect_op, Handler.bridge] at ha
  | upstream_read b1 n hop herr halive pending confined registry sockets =>
    rw [hop] at ha
    simp [upstream_read_op, Handler.bridge] at ha
  | downstream_read b1 n hop herr halive pending confined registry sockets =>
    rw [hop] at ha
    simp [downstream_read_op, Handler.bridge] at ha
  | upstream_write b1 n hop herr halive pending confined registry sockets =>
    rw [hop] at ha
    simp [upstream_write_op, Handler.bridge] at ha
  | downstream_write b1 n hop herr halive pending confined registry sockets =>
    rw [hop] at ha
    simp [downstream_write_op, Handler.bridge] at ha
  | failed b1 hb1 herr pending confined registered unregistered =>
    rw [hb1] at ha
    simp at ha

/-- A step of `b` itself that completes without error keeps the agreement. -/
theorem Agree.own_ok {b : Nat} {w w2 w1 v : World} {c : Completion}
    (hA : Agree b w w2) (hb : c.op.handler.bridge = some b) (herr : c.error = false)
    (ht : Transition w c w1) (ht2 : Transition w2 c v)
    (hhost : w1.upstream_host_ = v.upstream_host_)
    (hport : w1.upstream_port_ = v.upstream_port_) :
    Agree b w1 v := by
  obtain ⟨op, error, data⟩ := c
  simp only at hb herr
  subst herr
  have hcl := hA.clients
  have hsv := hA.servers
  cases ht with
  | accepted s hop herr hsess =>
    simp only at hop
    subst hop
    simp [accept_op, Handler.bridge] at hb
  | refused s hop herr => simp at herr
  | failed b1 sock n hb1 hleg herr hn => simp at herr
  | connected b1 host port hop herr hreg =>
    simp only at hop
    subst hop
    simp only [connect_op, Handler.bridge, Option.some.injEq] at hb
    subst hb
    cases ht2 with
    | connected b2 host2 port2 hop2 herr2 hreg2 =>
      simp only [connect_op] at hop2
      cases hop2
      constructor
      · simp [async_read_some, async_write, client_splice.set_ss, server_splice.set_cs,
        World.arrived, Request.effect, World.store, connect_op, upstream_read_op,
        downstream_read_op, upstream_write_op, downstream_write_op, hcl]
      · simp [async_read_some, async_write, client_splice.set_ss, server_splice.set_cs,
        World.arrived, Request.effect, World.store, connect_op, upstream_read_op,
        downstream_read_op, upstream_write_op, downstream_write_op, hsv]
      · simpa [async_read_some, async_write, client_splice.set_ss, server_splice.set_cs,
        World.arrived, Request.effect, World.store, connect_op, upstream_read_op,
        downstream_read_op, upstream_write_op, downstream_write_op] using hA.registered
      · simp only [async_read_some, async_write, client_splice.set_ss, server_splice.set_cs,
        World.arrived, Request.effect, World.store, connect_op, upstream_read_op,
        downstream_read_op, upstream_write_op, downstream_write_op]
        simp only [List.filter_append, ← List.erase_filter, hA.pending]
      · simpa [async_read_some, async_write, client_splice.set_ss, server_splice.set_cs,
        World.arrived, Request.effect, World.store, connect_op, upstream_read_op,
        downstream_read_op, upstream_write_op, downstream_write_op] using hA.session
      · simpa [async_read_some, async_write, client_splice.set_ss, server_splice.set_cs,
        World.arrived, Request.effect, World.store, connect_op, upstream_read_op,
        downstream_read_op, upstream_write_op, downstream_write_op] using hA.next
      · exact hhost
      · exact hport
      · intro sock hs
        have := hA.written sock hs
        simp only [tcp_proxy.written] at this
        simp [tcp_proxy.written, async_read_some, async_write, client_splice.set_ss,
          server_splice.set_cs, World.arrived, Request.effect, World.store, connect_op,
          upstream_read_op, downstream_read_op, upstream_write_op, downstream_write_op, this,
          World.view, World.buffer, hcl, hsv]
      · intro sock hs
        have := hA.delivered sock hs
        simp only [tcp_proxy.delivered] at this
        simp [tcp_proxy.delivered, async_read_some, async_write, client_splice.set_ss,
          server_splice.set_cs, World.arrived, Request.effect, World.store, connect_op,
          upstream_read_op, downstream_read_op, upstream_write_op, downstream_write_op, this,
          World.view, World.buffer, hcl, hsv]
    | accepted s hop2 herr2 hsess2 => simp [connect_op, accept_op] at hop2
    | refused s hop2 herr2 => simp at herr2
    | failed b2 sock n3 hb2 hleg herr2 hn => simp at herr2
    | upstream_read b2 hop2 herr2 halive2 => simp [connect_op, upstream_read_op] at hop2
    | downstream_read b2 hop2 herr2 halive2 => simp [connect_op, downstream_read_op] at hop2
    | upstream_write b2 n2 hop2 herr2 halive2 => simp [connect_op, upstream_write_op] at hop2
    | downstream_write b2 n2 hop2 herr2 halive2 => simp [connect_op, downstream_write_op] at hop2
  | upstream_read b1 hop herr halive =>
    simp only at hop
    subst hop
    simp only [upstream_read_op, Handler.bridge, Option.some.injEq] at hb
    subst hb
    cases ht2 with
    | upstream_read b2 hop2 herr2 halive2 =>
      simp only [upstream_read_op] at hop2
      cases hop2
      constructor
      · simp [async_read_some, async_write, client_splice.set_ss, server_splice.set_cs,
        World.arrived, Request.effect, World.store, connect_op, upstream_read_op,
        downstream_read_op, upstream_write_op, downstream_write_op, hcl]
      · simp [async_read_some, async_write, client_splice.set_ss, server_splice.set_cs,
        World.arrived, Request.effect, World.store, connect_op, upstream_read_op,
        downstream_read_op, upstream_write_op, downstream_write_op, hsv]
      · simpa [async_read_some, async_write, client_splice.set_ss, server_splice.set_cs,
        World.arrived, Request.effect, World.store, connect_op, upstream_read_op,
        downstream_read_op, upstream_write_op, downstream_write_op] using hA.registered
      · simp only [async_read_some, async_write, client_splice.set_ss, server_splice.set_cs,
        World.arrived, Request.effect, World.store, connect_op, upstream_read_op,
        downstream_read_op, upstream_write_op, downstream_write_op]
        simp only [List.filter_append, ← List.erase_filter, hA.pending]
      · simpa [async_read_some, async_write, client_splice.set_ss, server_splice.set_cs,
        World.arrived, Request.effect, World.store, connect_op, upstream_read_op,
        downstream_read_op, upstream_write_op, downstream_write_op] using hA.session
      · simpa [async_read_some, async_write, client_splice.set_ss, server_splice.set_cs,
        World.arrived, Request.effect, World.store, connect_op, upstream_read_op,
        downstream_read_op, upstream_write_op, downstream_write_op] using hA.next
      · exact hhost
      · exact hport
      · intro sock hs
        have := hA.written sock hs
        simp only [tcp_proxy.written] at this
        simp [tcp_proxy.written, async_read_some, async_write, client_splice.set_ss,
          server_splice.set_cs, World.arrived, Request.effect, World.store, connect_op,
          upstream_read_op, downstream_read_op, upstream_write_op, downstream_write_op, this,
          World.view, World.buffer, hcl, hsv]
      · intro sock hs
        have := hA.delivered sock hs
        simp only [tcp_proxy.delivered] at this
        simp [tcp_proxy.delivered, async_read_some, async_write, client_splice.set_ss,
          server_splice.set_cs, World.arrived, Request.effect, World.store, connect_op,
          upstream_read_op, downstream_read_op, upstream_write_op, downstream_write_op, this,
          World.view, World.buffer, hcl, hsv]
    | accepted s hop2 herr2 hsess2 => simp [upstream_read_op, accept_op] at hop2
    | refused s hop2 herr2 => simp at herr2
    | failed b2 sock n3 hb2 hleg herr2 hn => simp at herr2
    | connected b2 host2 port2 hop2 herr2 hreg2 => simp [upstream_read_op, connect_op] at hop2
    | downstream_read b2 hop2 herr2 halive2 => simp [upstream_read_op, downstream_read_op] at hop2
    | upstream_write b2 n2 hop2 herr2 halive2 => simp [upstream_read_op, upstream_write_op] at hop2
    | downstream_write b2 n2 hop2 herr2 halive2 => simp [upstream_read_op,
      downstream_write_op] at hop2
  | downstream_read b1 hop herr halive =>
    simp only at hop
    subst hop
    simp only [downstream_read_op, Handler.bridge, Option.some.injEq] at hb
    subst hb
    cases ht2 with
    | downstream_read b2 hop2 herr2 halive2 =>
      simp only [downstream_read_op] at hop2
      cases hop2
      constructor
      · simp [async_read_some, async_write, client_splice.set_ss, server_splice.set_cs,
        World.arrived, Request.effect, World.store, connect_op, upstream_read_op,
        downstream_read_op, upstream_write_op, downstream_write_op, hcl]
      · simp [async_read_some, async_write, client_splice.set_ss, server_splice.set_cs,
        World.arrived, Request.effect, World.store, connect_op, upstream_read_op,
        downstream_read_op, upstream_write_op, downstream_write_op, hsv]
      · simpa [async_read_some, async_write, client_splice.set_ss, server_splice.set_cs,
        World.arrived, Request.effect, World.store, connect_op, upstream_read_op,
        downstream_read_op, upstream_write_op, downstream_write_op] using hA.registered
      · simp only [async_read_some, async_write, client_splice.set_ss, server_splice.set_cs,
        World.arrived, Request.effect, World.store, connect_op, upstream_read_op,
        downstream_read_op, upstream_write_op, downstream_write_op]
        simp only [List.filter_append, ← List.erase_filter, hA.pending]
      · simpa [async_read_some, async_write, client_splice.set_ss, server_splice.set_cs,
        World.arrived, Request.effect, World.store, connect_op, upstream_read_op,
        downstream_read_op, upstream_write_op, downstream_write_op] using hA.session
      · simpa [async_read_some, async_write, client_splice.set_ss, server_splice.set_cs,
        World.arrived, Request.effect, World.store, connect_op, upstream_read_op,
        downstream_read_op, upstream_write_op, downstream_write_op] using hA.next
      · exact hhost
      · exact hport
      · intro sock hs
        have := hA.written sock hs
        simp only [tcp_proxy.written] at this
        simp [tcp_proxy.written, async_read_some, async_write, client_splice.set_ss,
          server_splice.set_cs, World.arrived, Request.effect, World.store, connect_op,
          upstream_read_op, downstream_read_op, upstream_write_op, downstream_write_op, this,
          World.view, World.buffer, hcl, hsv]
      · intro sock hs
        have := hA.delivered sock hs
        simp only [tcp_proxy.delivered] at this
        simp [tcp_proxy.delivered, async_read_some, async_write, client_splice.set_ss,
          server_splice.set_cs, World.arrived, Request.effect, World.store, connect_op,
          upstream_read_op, downstream_read_op, upstream_write_op, downstream_write_op, this,
          World.view, World.buffer, hcl, hsv]
    | accepted s hop2 herr2 hsess2 => simp [downstream_read_op, accept_op] at hop2
    | refused s hop2 herr2 => simp at herr2
    | failed b2 sock n3 hb2 hleg herr2 hn => simp at herr2
    | connected b2 host2 port2 hop2 herr2 hreg2 => simp [downstream_read_op, connect_op] at hop2
    | upstream_read b2 hop2 herr2 halive2 => simp [downstream_read_op, upstream_read_op] at hop2
    | upstream_write b2 n2 hop2 herr2 halive2 => simp [downstream_read_op,
      upstream_write_op] at hop2
    | downstream_write b2 n2 hop2 herr2 halive2 => simp [downstream_read_op,
      downstream_write_op] at hop2
  | upstream_write b1 n hop herr halive =>
    simp only at hop
    subst hop
    simp only [upstream_write_op, Handler.bridge, Option.some.injEq] at hb
    subst hb
    cases ht2 with
    | upstream_write b2 n2 hop2 herr2 halive2 =>
      simp only [upstream_write_op] at hop2
      cases hop2
      constructor
      · simp [async_read_some, async_write, client_splice.set_ss, server_splice.set_cs,
        World.arrived, Request.effect, World.store, connect_op, upstream_read_op,
        downstream_read_op, upstream_write_op, downstream_write_op, hcl]
      · simp [async_read_some, async_write, client_splice.set_ss, server_splice.set_cs,
        World.arrived, Request.effect, World.store, connect_op, upstream_read_op,
        downstream_read_op, upstream_write_op, downstream_write_op, hsv]
      · simpa [async_read_some, async_write, client_splice.set_ss, server_splice.set_cs,
        World.arrived, Request.effect, World.store, connect_op, upstream_read_op,
        downstream_read_op, upstream_write_op, downstream_write_op] using hA.registered
      · simp only [async_read_some, async_write, client_splice.set_ss, server_splice.set_cs,
        World.arrived, Request.effect, World.store, connect_op, upstream_read_op,
        downstream_read_op, upstream_write_op, downstream_write_op]
        simp only [List.filter_append, ← List.erase_filter, hA.pending]
      · simpa [async_read_some, async_write, client_splice.set_ss, server_splice.set_cs,
        World.arrived, Request.effect, World.store, connect_op, upstream_read_op,
        downstream_read_op, upstream_write_op, downstream_write_op] using hA.session
      · simpa [async_read_some, async_write, client_splice.set_ss, server_splice.set_cs,
        World.arrived, Request.effect, World.store, connect_op, upstream_read_op,
        downstream_read_op, upstream_write_op, downstream_write_op] using hA.next
      · exact hhost
      · exact hport
      · intro sock hs
        have := hA.written sock hs
        simp only [tcp_proxy.written] at this
        simp [tcp_proxy.written, async_read_some, async_write, client_splice.set_ss,
          server_splice.set_cs, World.arrived, Request.effect, World.store, connect_op,
          upstream_read_op, downstream_read_op, upstream_write_op, downstream_write_op, this,
          World.view, World.buffer, hcl, hsv]
      · intro sock hs
        have := hA.delivered sock hs
        simp only [tcp_proxy.delivered] at this
        simp [tcp_proxy.delivered, async_read_some, async_write, client_splice.set_ss,
          server_splice.set_cs, World.arrived, Request.effect, World.store, connect_op,
          upstream_read_op, downstream_read_op, upstream_write_op, downstream_write_op, this,
          World.view, World.buffer, hcl, hsv]
    | accepted s hop2 herr2 hsess2 => simp [upstream_write_op, accept_op] at hop2
    | refused s hop2 herr2 => simp at herr2
    | failed b2 sock n3 hb2 hleg herr2 hn => simp at herr2
    | connected b2 host2 port2 hop2 herr2 hreg2 => simp [upstream_write_op, connect_op] at hop2
    | upstream_read b2 hop2 herr2 halive2 => simp [upstream_write_op, upstream_read_op] at hop2
    | downstream_read b2 hop2 herr2 halive2 => simp [upstream_write_op, downstream_read_op] at hop2
    | downstream_write b2 n2 hop2 herr2 halive2 => simp [upstream_write_op,
      downstream_write_op] at hop2
  | downstream_write b1 n hop herr halive =>
    simp only at hop
    subst hop
    simp only [downstream_write_op, Handler.bridge, Option.some.injEq] at hb
    subst hb
    cases ht2 with
    | downstream_write b2 n2 hop2 herr2 halive2 =>
      simp only [downstream_write_op] at hop2
      cases hop2
      constructor
      · simp [async_read_some, async_write, client_splice.set_ss, server_splice.set_cs,
        World.arrived, Request.effect, World.store, connect_op, upstream_read_op,
        downstream_read_op, upstream_write_op, downstream_write_op, hcl]
      · simp [async_read_some, async_write, client_splice.set_ss, server_splice.set_cs,
        World.arrived, Request.effect, World.store, connect_op, upstream_read_op,
        downstream_read_op, upstream_write_op, downstream_write_op, hsv]
      · simpa [async_read_some, async_write, client_splice.set_ss, server_splice.set_cs,
        World.arrived, Request.effect, World.store, connect_op, upstream_read_op,
        downstream_read_op, upstream_write_op, downstream_write_op] using hA.registered
      · simp only [async_read_some, async_write, client_splice.set_ss, server_splice.set_cs,
        World.arrived, Request.effect, World.store, connect_op, upstream_read_op,
        downstream_read_op, upstream_write_op, downstream_write_op]
        simp only [List.filter_append, ← List.erase_filter, hA.pending]
      · simpa [async_read_some, async_write, client_splice.set_ss, server_splice.set_cs,
        World.arrived, Request.effect, World.store, connect_op, upstream_read_op,
        downstream_read_op, upstream_write_op, downstream_write_op] using hA.session
      · simpa [async_read_some, async_write, client_splice.set_ss, server_splice.set_cs,
        World.arrived, Request.effect, World.store, connect_op, upstream_read_op,
        downstream_read_op, upstream_write_op, downstream_write_op] using hA.next
      · exact hhost
      · exact hport
      · intro sock hs
        have := hA.written sock hs
        simp only [tcp_proxy.written] at this
        simp [tcp_proxy.written, async_read_some, async_write, client_splice.set_ss,
          server_splice.set_cs, World.arrived, Request.effect, World.store, connect_op,
          upstream_read_op, downstream_read_op, upstream_write_op, downstream_write_op, this,
          World.view, World.buffer, hcl, hsv]
      · intro sock hs
        have := hA.delivered sock hs
        simp only [tcp_proxy.delivered] at this
        simp [tcp_proxy.delivered, async_read_some, async_write, client_splice.set_ss,
          server_splice.set_cs, World.arrived, Request.effect, World.store, connect_op,
          upstream_read_op, downstream_read_op, upstream_write_op, downstream_write_op, this,
          World.view, World.buffer, hcl, hsv]
    | accepted s hop2 herr2 hsess2 => simp [downstream_write_op, accept_op] at hop2
    | refused s hop2 herr2 => simp at herr2
    | failed b2 sock n3 hb2 hleg herr2 hn => simp at herr2
    | connected b2 host2 port2 hop2 herr2 hreg2 => simp [downstream_write_op, connect_op] at hop2
    | upstream_read b2 hop2 herr2 halive2 => simp [downstream_write_op, upstream_read_op] at hop2
    | downstream_read b2 hop2 herr2 halive2 => simp [downstream_write_op,
      downstream_read_op] at hop2
    | upstream_write b2 n2 hop2 herr2 halive2 => simp [downstream_write_op,
      upstream_write_op] at hop2

/-- A step of `b` itself that completes with an error keeps the agreement. -/
theorem Agree.own_failed {b : Nat} {w w2 w1 v : World} {c : Completion} (hI : Inv w)
    (hI2 : Inv w2) (hp : c.op ∈ w.pending)
    (hA : Agree b w w2) (hb : c.op.handler.bridge = some b) (herr : c.error = true)
    (ht : Transition w c w1) (ht2 : Transition w2 c v)
    (hhost : w1.upstream_host_ = v.upstream_host_)
    (hport : w1.upstream_port_ = v.upstream_port_) :
    Agree b w1 v := by
  have hwf := hI.wf _ hp
  have hnd := hI.nodup
  have hnd2 := hI2.nodup
  obtain ⟨⟨req, h⟩, error, data⟩ := c
  simp only at hb herr hwf
  subst herr
  have hcl := hA.clients
  have hsv := hA.servers
  cases ht with
  | accepted s hop herr hsess => simp at herr
  | refused s hop herr =>
    simp only [accept_op, Operation.mk.injEq] at hop
    rw [hop.2] at hb
    simp [Handler.bridge] at hb
  | connected b1 host port hop herr hreg => simp at herr
  | upstream_read b1 hop herr halive => simp at herr
  | downstream_read b1 hop herr halive => simp at herr
  | upstream_write b1 n hop herr halive => simp at herr
  | downstream_write b1 n hop herr halive => simp at herr
  | failed b1 sock n hb1 hleg herr hn =>
    simp only at hb1 hleg hn
    have hbb : b1 = b := by rw [hb] at hb1; exact (Option.some.inj hb1).symm
    subst hbb
    cases ht2 with
    | accepted s hop2 herr2 hsess2 => simp at herr2
    | refused s hop2 herr2 =>
      simp only [accept_op, Operation.mk.injEq] at hop2
      rw [hop2.2] at hb
      simp [Handler.bridge] at hb
    | connected b2 host port hop2 herr2 hreg2 => simp at herr2
    | upstream_read b2 hop2 herr2 halive2 => simp at herr2
    | downstream_read b2 hop2 herr2 halive2 => simp at herr2
    | upstream_write b2 n2 hop2 herr2 halive2 => simp at herr2
    | downstream_write b2 n2 hop2 herr2 halive2 => simp at herr2
    | failed b2 sock2 n2 hb2 hleg2 herr2 hn2 =>
      simp only at hb2 hleg2 hn2
      have hbb : b2 = b1 := by rw [hb] at hb2; exact (Option.some.inj hb2).symm
      subst hbb
      clear hn hn2
      cases h with
      | handle_accept => simp [Handler.bridge] at hb
      | handle_upstream_connect x =>
        simp only [Handler.bridge, Option.some.injEq] at hb
        subst hb
        cases req <;> simp only [Operation.wf] at hwf
        subst hwf
        simp only [Handler.leg, Option.some.injEq] at hleg hleg2
        subst hleg hleg2
        by_cases hbr : x ∈ w.bridge_instances
        · have hbr2 := hA.registered.mp hbr
          simp only [hbr, hbr2, if_true] at hhost hport ⊢
          constructor
          · simp [closed_world, World.set_open, World.arrived, Request.effect, World.store, hcl]
          · simp [closed_world, World.set_open, World.arrived, Request.effect, World.store, hsv]
          · simp [closed_world, World.set_open, World.arrived, Request.effect, World.store,
            hnd.mem_erase_iff, hnd2.mem_erase_iff]
          · simp only [closed_world, World.set_open, World.arrived, Request.effect, World.store]
            simp only [← List.erase_filter, hA.pending]
          · simpa [closed_world, World.set_open, World.arrived, Request.effect,
            World.store] using hA.session
          · simpa [closed_world, World.set_open, World.arrived, Request.effect,
            World.store] using hA.next
          · exact hhost
          · exact hport
          · intro sock hs
            have := hA.written sock hs
            simp only [tcp_proxy.written] at this
            simp [tcp_proxy.written, closed_world, World.set_open, World.arrived, Request.effect,
              World.store, this]
          · intro sock hs
            have := hA.delivered sock hs
            simp only [tcp_proxy.delivered] at this
            simp [tcp_proxy.delivered, closed_world, World.set_open, World.arrived, Request.effect,
              World.store, this]
        · have hbr2 : x ∉ w2.bridge_instances := fun h => hbr (hA.registered.mpr h)
          simp only [hbr, hbr2, if_false] at hhost hport ⊢
          constructor
          · simp [closed_world, World.set_open, World.arrived, Request.effect, World.store, hcl]
          · simp [closed_world, World.set_open, World.arrived, Request.effect, World.store, hsv]
          · simpa [closed_world, World.set_open, World.arrived, Request.effect,
            World.store] using hA.registered
          · simp only [closed_world, World.set_open, World.arrived, Request.effect, World.store]
            simp only [← List.erase_filter, hA.pending]
          · simpa [closed_world, World.set_open, World.arrived, Request.effect,
            World.store] using hA.session
          · simpa [closed_world, World.set_open, World.arrived, Request.effect,
            World.store] using hA.next
          · exact hhost
          · exact hport
          · intro sock hs
            have := hA.written sock hs
            simp only [tcp_proxy.written] at this
            simp [tcp_proxy.written, closed_world, World.set_open, World.arrived, Request.effect,
              World.store, this]
          · intro sock hs
            have := hA.delivered sock hs
            simp only [tcp_proxy.delivered] at this
            simp [tcp_proxy.delivered, closed_world, World.set_open, World.arrived, Request.effect,
              World.store, this]
      | handle_upstream_write x =>
        simp only [Handler.bridge, Option.some.injEq] at hb
        subst hb
        cases req <;> simp only [Operation.wf] at hwf
        obtain ⟨rfl, rfl⟩ := hwf
        simp only [Handler.leg, Option.some.injEq] at hleg hleg2
        subst hleg hleg2
        by_cases hbr : x ∈ w.bridge_instances
        · have hbr2 := hA.registered.mp hbr
          simp only [hbr, hbr2, if_true] at hhost hport ⊢
          constructor
          · simp [closed_world, World.set_open, World.arrived, Request.effect, World.store, hcl]
          · simp [closed_world, World.set_open, World.arrived, Request.effect, World.store, hsv]
          · simp [closed_world, World.set_open, World.arrived, Request.effect, World.store,
            hnd.mem_erase_iff, hnd2.mem_erase_iff]
          · simp only [closed_world, World.set_open, World.arrived, Request.effect, World.store]
            simp only [← List.erase_filter, hA.pending]
          · simpa [closed_world, World.set_open, World.arrived, Request.effect,
            World.store] using hA.session
          · simpa [closed_world, World.set_open, World.arrived, Request.effect,
            World.store] using hA.next
          · exact hhost
          · exact hport
          · intro sock hs
            have := hA.written sock hs
            simp only [tcp_proxy.written] at this
            simp [tcp_proxy.written, closed_world, World.set_open, World.arrived, Request.effect,
              World.store, this]
          · intro sock hs
            have := hA.delivered sock hs
            simp only [tcp_proxy.delivered] at this
            simp [tcp_proxy.delivered, closed_world, World.set_open, World.arrived, Request.effect,
              World.store, this]
        · have hbr2 : x ∉ w2.bridge_instances := fun h => hbr (hA.registered.mpr h)
          simp only [hbr, hbr2, if_false] at hhost hport ⊢
          constructor
          · simp [closed_world, World.set_open, World.arrived, Request.effect, World.store, hcl]
          · simp [closed_world, World.set_open, World.arrived, Request.effect, World.store, hsv]
          · simpa [closed_world, World.set_open, World.arrived, Request.effect,
            World.store] using hA.registered
          · simp only [closed_world, World.set_open, World.arrived, Request.effect, World.store]
            simp only [← List.erase_filter, hA.pending]
          · simpa [closed_world, World.set_open, World.arrived, Request.effect,
            World.store] using hA.session
          · simpa [closed_world, World.set_open, World.arrived, Request.effect,
            World.store] using hA.next
          · exact hhost
          · exact hport
          · intro sock hs
            have := hA.written sock hs
            simp only [tcp_proxy.written] at this
            simp [tcp_proxy.written, closed_world, World.set_open, World.arrived, Request.effect,
              World.store, this]
          · intro sock hs
            have := hA.delivered sock hs
            simp only [tcp_proxy.delivered] at this
            simp [tcp_proxy.delivered, closed_world, World.set_open, World.arrived, Request.effect,
              World.store, this]
      | handle_upstream_read x =>
        simp only [Handler.bridge, Option.some.injEq] at hb
        subst hb
        cases req <;> simp only [Operation.wf] at hwf
        obtain ⟨rfl, rfl, rfl⟩ := hwf
        simp only [Handler.leg, Option.some.injEq] at hleg hleg2
        subst hleg hleg2
        by_cases hbr : x ∈ w.bridge_instances
        · have hbr2 := hA.registered.mp hbr
          simp only [hbr, hbr2, if_true] at hhost hport ⊢
          constructor
          · simp [closed_world, World.set_open, World.arrived, Request.effect, World.store, hcl]
          · simp [closed_world, World.set_open, World.arrived, Request.effect, World.store, hsv]
          · simp [closed_world, World.set_open, World.arrived, Request.effect, World.store,
            hnd.mem_erase_iff, hnd2.mem_erase_iff]
          · simp only [closed_world, World.set_open, World.arrived, Request.effect, World.store]
            simp only [← List.erase_filter, hA.pending]
          · simpa [closed_world, World.set_open, World.arrived, Request.effect,
            World.store] using hA.session
          · simpa [closed_world, World.set_open, World.arrived, Request.effect,
            World.store] using hA.next
          · exact hhost
          · exact hport
          · intro sock hs
            have := hA.written sock hs
            simp only [tcp_proxy.written] at this
            simp [tcp_proxy.written, closed_world, World.set_open, World.arrived, Request.effect,
              World.store, this]
          · intro sock hs
            have := hA.delivered sock hs
            simp only [tcp_proxy.delivered] at this
            simp [tcp_proxy.delivered, closed_world, World.set_open, World.arrived, Request.effect,
              World.store, this]
        · have hbr2 : x ∉ w2.bridge_instances := fun h => hbr (hA.registered.mpr h)
          simp only [hbr, hbr2, if_false] at hhost hport ⊢
          constructor
          · simp [closed_world, World.set_open, World.arrived, Request.effect, World.store, hcl]
          · simp [closed_world, World.set_open, World.arrived, Request.effect, World.store, hsv]
          · simpa [closed_world, World.set_open, World.arrived, Request.effect,
            World.store] using hA.registered
          · simp only [closed_world, World.set_open, World.arrived, Request.effect, World.store]
            simp only [← List.erase_filter, hA.pending]
          · simpa [closed_world, World.set_open, World.arrived, Request.effect,
            World.store] using hA.session
          · simpa [closed_world, World.set_open, World.arrived, Request.effect,
            World.store] using hA.next
          · exact hhost
          · exact hport
          · intro sock hs
            have := hA.written sock hs
            simp only [tcp_proxy.written] at this
            simp [tcp_proxy.written, closed_world, World.set_open, World.arrived, Request.effect,
              World.store, this]
          · intro sock hs
            have := hA.delivered sock hs
            simp only [tcp_proxy.delivered] at this
            simp [tcp_proxy.delivered, closed_world, World.set_open, World.arrived, Request.effect,
              World.store, this]
      | handle_downstream_write x =>
        simp only [Handler.bridge, Option.some.injEq] at hb
        subst hb
        cases req <;> simp only [Operation.wf] at hwf
        obtain ⟨rfl, rfl⟩ := hwf
        simp only [Handler.leg, Option.some.injEq] at hleg hleg2
        subst hleg hleg2
        by_cases hbr : x ∈ w.bridge_instances
        · have hbr2 := hA.registered.mp hbr
          simp only [hbr, hbr2, if_true] at hhost hport ⊢
          constructor
          · simp [closed_world, World.set_open, World.arrived, Request.effect, World.store, hcl]
          · simp [closed_world, World.set_open, World.arrived, Request.effect, World.store, hsv]
          · simp [closed_world, World.set_open, World.arrived, Request.effect, World.store,
            hnd.mem_erase_iff, hnd2.mem_erase_iff]
          · simp only [closed_world, World.set_open, World.arrived, Request.effect, World.store]
            simp only [← List.erase_filter, hA.pending]
          · simpa [closed_world, World.set_open, World.arrived, Request.effect,
            World.store] using hA.session
          · simpa [closed_world, World.set_open, World.arrived, Request.effect,
            World.store] using hA.next
          · exact hhost
          · exact hport
          · intro sock hs
            have := hA.written sock hs
            simp only [tcp_proxy.written] at this
            simp [tcp_proxy.written, closed_world, World.set_open, World.arrived, Request.effect,
              World.store, this]
          · intro sock hs
            have := hA.delivered sock hs
            simp only [tcp_proxy.delivered] at this
            simp [tcp_proxy.delivered, closed_world, World.set_open, World.arrived, Request.effect,
              World.store, this]
        · have hbr2 : x ∉ w2.bridge_instances := fun h => hbr (hA.registered.mpr h)
          simp only [hbr, hbr2, if_false] at hhost hport ⊢
          constructor
          · simp [closed_world, World.set_open, World.arrived, Request.effect, World.store, hcl]
          · simp [closed_world, World.set_open, World.arrived, Request.effect, World.store, hsv]
          · simpa [closed_world, World.set_open, World.arrived, Request.effect,
            World.store] using hA.registered
          · simp only [closed_world, World.set_open, World.arrived, Request.effect, World.store]
            simp only [← List.erase_filter, hA.pending]
          · simpa [closed_world, World.set_open, World.arrived, Request.effect,
            World.store] using hA.session
          · simpa [closed_world, World.set_open, World.arrived, Request.effect,
            World.store] using hA.next
          · exact hhost
          · exact hport
          · intro sock hs
            have := hA.written sock hs
            simp only [tcp_proxy.written] at this
            simp [tcp_proxy.written, closed_world, World.set_open, World.arrived, Request.effect,
              World.store, this]
          · intro sock hs
            have := hA.delivered sock hs
            simp only [tcp_proxy.delivered] at this
            simp [tcp_proxy.delivered, closed_world, World.set_open, World.arrived, Request.effect,
              World.store, this]
      | handle_downstream_read x =>
        simp only [Handler.bridge, Option.some.injEq] at hb
        subst hb
        cases req <;> simp only [Operation.wf] at hwf
        obtain ⟨rfl, rfl, rfl⟩ := hwf
        simp only [Handler.leg, Option.some.injEq] at hleg hleg2
        subst hleg hleg2
        by_cases hbr : x ∈ w.bridge_instances
        · have hbr2 := hA.registered.mp hbr
          simp only [hbr, hbr2, if_true] at hhost hport ⊢
          constructor
          · simp [closed_world, World.set_open, World.arrived, Request.effect, World.store, hcl]
          · simp [closed_world, World.set_open, World.arrived, Request.effect, World.store, hsv]
          · simp [closed_world, World.set_open, World.arrived, Request.effect, World.store,
            hnd.mem_erase_iff, hnd2.mem_erase_iff]
          · simp only [closed_world, World.set_open, World.arrived, Request.effect, World.store]
            simp only [← List.erase_filter, hA.pending]
          · simpa [closed_world, World.set_open, World.arrived, Request.effect,
            World.store] using hA.session
          · simpa [closed_world, World.set_open, World.arrived, Request.effect,
            World.store] using hA.next
          · exact hhost
          · exact hport
          · intro sock hs
            have := hA.written sock hs
            simp only [tcp_proxy.written] at this
            simp [tcp_proxy.written, closed_world, World.set_open, World.arrived, Request.effect,
              World.store, this]
          · intro sock hs
            have := hA.delivered sock hs
            simp only [tcp_proxy.delivered] at this
            simp [tcp_proxy.delivered, closed_world, World.set_open, World.arrived, Request.effect,
              World.store, this]
        · have hbr2 : x ∉ w2.bridge_instances := fun h => hbr (hA.registered.mpr h)
          simp only [hbr, hbr2, if_false] at hhost hport ⊢
          constructor
          · simp [closed_world, World.set_open, World.arrived, Request.effect, World.store, hcl]
          · simp [closed_world, World.set_open, World.arrived, Request.effect, World.store, hsv]
          · simpa [closed_world, World.set_open, World.arrived, Request.effect,
            World.store] using hA.registered
          · simp only [closed_world, World.set_open, World.arrived, Request.effect, World.store]
            simp only [← List.erase_filter, hA.pending]
          · simpa [closed_world, World.set_open, World.arrived, Request.effect,
            World.store] using hA.session
          · simpa [closed_world, World.set_open, World.arrived, Request.effect,
            World.store] using hA.next
          · exact hhost
          · exact hport
          · intro sock hs
            have := hA.written sock hs
            simp only [tcp_proxy.written] at this
            simp [tcp_proxy.written, closed_world, World.set_open, World.arrived, Request.effect,
              World.store, this]
          · intro sock hs
            have := hA.delivered sock hs
            simp only [tcp_proxy.delivered] at this
            simp [tcp_proxy.delivered, closed_world, World.set_open, World.arrived, Request.effect,
              World.store, this]

/-- Steps that `b` cannot tell apart keep the agreement. -/
theorem Agree.kept {b : Nat} {w w2 w1 v : World} {c c2 : Completion} (hI : Inv w)
    (hI2 : Inv w2) (hA : Agree b w w2) (hsame : c.same_for b c2)
    (hs : tcp_proxy.step w c = some w1) (hs2 : tcp_proxy.step w2 c2 = some v) :
    Agree b w1 v := by
  have hcfg := step_config hs
  have hcfg2 := step_config hs2
  have hhost : w1.upstream_host_ = v.upstream_host_ := by rw [hcfg.1, hcfg2.1, hA.host]
  have hport : w1.upstream_port_ = v.upstream_port_ := by rw [hcfg.2, hcfg2.2, hA.port]
  cases hbr : c.op.handler.bridge with
  | none => exact hA.accept hsame hbr (hI.change_of_step hs) (hI2.change_of_step hs2) hcfg hcfg2
  | some a =>
    by_cases hab : a = b
    · subst hab
      have hcc : c = c2 := hsame.2.2 hbr
      subst hcc
      cases herr : c.error with
      | false => exact hA.own_ok hbr herr (hI.transition hs) (hI2.transition hs2) hhost hport
      | true =>
        exact Agree.own_failed hI hI2 (mem_pending_of_step hs) hA hbr herr (hI.transition hs)
          (hI2.transition hs2) hhost hport
    · have hbr2 : c2.op.handler.bridge = some a := by rw [← hsame.2.1]; exact hbr
      obtain ⟨h1, h2, h3, h4, h5, h6, h7⟩ := (hI.change_of_step hs).unseen hbr hab
      obtain ⟨k1, k2, k3, k4, k5, k6, k7⟩ := (hI2.change_of_step hs2).unseen hbr2 hab
      refine ⟨?_, ?_, ?_, ?_, ?_, ?_, hhost, hport, ?_, ?_⟩
      · rw [h1, k1, hA.clients]
      · rw [h2, k2, hA.servers]
      · rw [h3, k3, hA.registered]
      · rw [h4, k4, hA.pending]
      · rw [h5, k5, hA.session]
      · rw [h6, k6, hA.next]
      · intro sock hsock
        rw [(h7 sock hsock).1, (k7 sock hsock).1]
        exact hA.written sock hsock
      · intro sock hsock
        rw [(h7 sock hsock).2, (k7 sock hsock).2]
        exact hA.delivered sock hsock

theorem Agree.same_state (b : Nat) (w : World) : Agree b w w :=
  ⟨rfl, rfl, Iff.rfl, rfl, rfl, rfl, rfl, rfl, fun _ _ => rfl, fun _ _ => rfl⟩

theorem Agree.kept_by_runs {b : Nat} {cs cs2 : List Completion}
    (hsame : List.Forall₂ (Completion.same_for b) cs cs2) : ∀ {w w2 w1 v : World}, Inv w →
    Inv w2 → Agree b w w2 → run w cs = some w1 → run w2 cs2 = some v → Agree b w1 v := by
  induction hsame with
  | nil =>
    intro w w2 w1 v _ _ hA hrun hrun2
    simp only [tcp_proxy.run, Option.some.injEq] at hrun hrun2
    subst hrun hrun2
    exact hA
  | @cons c c2 cs cs2 hc _ ih =>
    intro w w2 w1 v hI hI2 hA hrun hrun2
    simp only [tcp_proxy.run] at hrun hrun2
    cases hs : tcp_proxy.step w c with
    | none => simp [hs] at hrun
    | some x =>
      cases hs2 : tcp_proxy.step w2 c2 with
      | none => simp [hs2] at hrun2
      | some y =>
        rw [hs] at hrun
        rw [hs2] at hrun2
        exact ih (hI.step hs) (hI2.step hs2) (hA.kept hI hI2 hc hs hs2) hrun hrun2

/-! ## The sockets closed in a run -/

theorem Closure.same {closed : Socket → Bool} {w w1 : World} (h : Closure closed w)
    (hreg : w1.bridge_instances = w.bridge_instances) (hsess : w1.session_ = w.session_)
    (hnext : w1.next = w.next) (hopen : ∀ sock, w1.is_open sock = w.is_open sock) :
    Closure (fun sock => closed sock || (w.is_open sock && !w1.is_open sock)) w1 := by
  have hk : (fun sock => closed sock || (w.is_open sock && !w1.is_open sock)) = closed := by
    funext sock
    rw [hopen]
    cases closed sock <;> cases w.is_open sock <;> rfl
  rw [hk]
  constructor
  · intro sock hs
    rw [hnext, hreg]
    exact h.unregistered sock hs
  · intro b hb1 hb2
    rw [hnext] at hb1
    rw [hreg] at hb2
    exact h.both b hb1 hb2
  · intro b hb1 hb2
    rw [hreg] at hb1
    rw [hsess] at hb2
    rw [hopen, hopen]
    exact h.open_of_registered b hb1 hb2
  · intro b hb
    rw [hsess, hnext] at hb
    rw [hopen, hopen]
    exact h.unopened b hb

theorem Closure.preserved {closed : Socket → Bool} {w w1 : World} {c : Completion} (hI : Inv w)
    (h : Closure closed w) (hp : c.op ∈ w.pending) (hc : Change w c w1) :
    Closure (fun sock => closed sock || (w.is_open sock && !w1.is_open sock)) w1 := by
  cases hc with
  | accepted s hop herr hsess hsreg pending registry session next log opened fresh clients
      servers =>
    have hslt : s < w.next := hI.registered_lt s hsreg
    have hother : ∀ sock : Socket, sock.bridge ≠ s → sock.bridge ≠ w.next →
        w1.is_open sock = w.is_open sock := by
      intro sock h1 h2
      cases sock with
      | upstream_socket_ x => simp only [World.is_open, clients x h1 h2]
      | downstream_socket_ x => simp only [World.is_open, servers x h1 h2]
    have hopened : ∀ sock : Socket, sock.bridge = s → w1.is_open sock = true := by
      intro sock h1
      cases sock with
      | upstream_socket_ x =>
        simp only [Socket.bridge] at h1
        subst h1
        exact opened.2
      | downstream_socket_ x =>
        simp only [Socket.bridge] at h1
        subst h1
        exact opened.1
    have hunopened : ∀ sock : Socket, w.next ≤ sock.bridge → w.is_open sock = false := by
      intro sock h1
      cases sock with
      | upstream_socket_ x => exact (h.unopened x (Or.inr h1)).1
      | downstream_socket_ x => exact (h.unopened x (Or.inr h1)).2
    have hk : (fun sock => closed sock || (w.is_open sock && !w1.is_open sock)) = closed := by
      funext sock
      by_cases h1 : sock.bridge = s
      · simp [hopened sock h1]
      · by_cases h2 : sock.bridge = w.next
        · simp [hunopened sock (Nat.le_of_eq h2.symm)]
        · rw [hother sock h1 h2]
          cases closed sock <;> cases w.is_open sock <;> rfl
    rw [hk]
    constructor
    · intro sock hs
      obtain ⟨h1, h2⟩ := h.unregistered sock hs
      rw [next, registry]
      refine ⟨by omega, ?_⟩
      simp only [List.mem_append, List.mem_singleton, not_or]
      exact ⟨h2, by omega⟩
    · intro b hb1 hb2
      rw [next] at hb1
      rw [registry] at hb2
      simp only [List.mem_append, List.mem_singleton, not_or] at hb2
      exact h.both b (by omega) hb2.1
    · intro b hb1 hb2
      rw [registry] at hb1
      rw [session] at hb2
      simp only [List.mem_append, List.mem_singleton] at hb1
      rcases hb1 with hb1 | hb1
      · by_cases hbs : b = s
        · subst hbs
          exact ⟨opened.2, opened.1⟩
        · have hlt := hI.registered_lt b hb1
          have := h.open_of_registered b hb1 (by rw [hsess]; simpa using fun h => hbs h.symm)
          rw [hother (.upstream_socket_ b) hbs (by simp only [Socket.bridge]; omega),
            hother (.downstream_socket_ b) hbs (by simp only [Socket.bridge]; omega)]
          exact this
      · exact absurd (by rw [hb1]) hb2
    · intro b hb
      rw [session, next] at hb
      have hb1 : w.next ≤ b := by
        rcases hb with hb | hb
        · exact Nat.le_of_eq (Option.some.inj hb)
        · omega
      by_cases hbn : b = w.next
      · subst hbn
        exact ⟨fresh.2, fresh.1⟩
      · rw [hother (.upstream_socket_ b) (by simp only [Socket.bridge]; omega) hbn,
          hother (.downstream_socket_ b) (by simp only [Socket.bridge]; omega) hbn]
        exact h.unopened b (Or.inr hb1)
  | refused s hop herr hsess eq =>
    subst eq
    exact h.same rfl rfl rfl (fun _ => rfl)
  | connected b1 host port hop herr hreg pending confined registry sockets =>
    exact h.same registry confined.session confined.next sockets
  | upstream_read b1 n hop herr halive pending confined registry sockets =>
    exact h.same registry confined.session confined.next sockets
  | downstream_read b1 n hop herr halive pending confined registry sockets =>
    exact h.same registry confined.session confined.next sockets
  | upstream_write b1 n hop herr halive pending confined registry sockets =>
    exact h.same registry confined.session confined.next sockets
  | downstream_write b1 n hop herr halive pending confined registry sockets =>
    exact h.same registry confined.session confined.next sockets
  | failed b1 hb1 herr pending confined registered unregistered =>
    by_cases hbr : b1 ∈ w.bridge_instances
    · obtain ⟨hreg1, hup, hdown⟩ := registered hbr
      have hst := hI.started hp hb1
      have hwas := h.open_of_registered b1 hbr hst.1
      have hnd := hI.nodup
      have hk : (fun sock => closed sock || (w.is_open sock && !w1.is_open sock)) =
          fun sock : Socket => closed sock || decide (sock.bridge = b1) := by
        funext sock
        by_cases h1 : sock.bridge = b1
        · cases sock with
          | upstream_socket_ x =>
            simp only [Socket.bridge] at h1
            subst h1
            simp [hwas.1, hup, Socket.bridge]
          | downstream_socket_ x =>
            simp only [Socket.bridge] at h1
            subst h1
            simp [hwas.2, hdown, Socket.bridge]
        · rw [confined.sockets sock h1]
          simp only [h1, decide_False]
          cases closed sock <;> cases w.is_open sock <;> rfl
      rw [hk]
      constructor
      · intro sock hs
        rw [confined.next, hreg1]
        simp only [Bool.or_eq_true, decide_eq_true_eq] at hs
        rcases hs with hs | hs
        · obtain ⟨h1, h2⟩ := h.unregistered sock hs
          exact ⟨h1, fun hm => h2 (List.mem_of_mem_erase hm)⟩
        · rw [hs]
          exact ⟨hst.2, by simp [hnd.mem_erase_iff]⟩
      · intro b hb2 hb3
        rw [confined.next] at hb2
        rw [hreg1] at hb3
        by_cases hbb : b = b1
        · subst hbb
          simp [Socket.bridge]
        · have := h.both b hb2 (fun hm => hb3 ((List.mem_erase_of_ne hbb).mpr hm))
          simp [this.1, this.2]
      · intro b hb2 hb3
        rw [hreg1] at hb2
        rw [confined.session] at hb3
        have hbb : b ≠ b1 := (hnd.mem_erase_iff.mp hb2).1
        rw [confined.sockets (.upstream_socket_ b) hbb,
          confined.sockets (.downstream_socket_ b) hbb]
        exact h.open_of_registered b (List.mem_of_mem_erase hb2) hb3
      · intro b hb2
        rw [confined.session, confined.next] at hb2
        have hbb : b ≠ b1 := by
          rintro rfl
          rcases hb2 with hb2 | hb2
          · exact hst.1 hb2
          · omega
        rw [confined.sockets (.upstream_socket_ b) hbb,
          confined.sockets (.downstream_socket_ b) hbb]
        exact h.unopened b hb2
    · exact h.same (unregistered hbr).1 confined.session confined.next (unregistered hbr).2

theorem Closure.along_run {cs : List Completion} : ∀ {w w1 : World} {closed : Socket → Bool},
    Inv w → Closure closed w → run w cs = some w1 →
    Closure (fun sock => closed sock || closed_in w cs sock) w1 := by
  induction cs with
  | nil =>
    intro w w1 closed _ h hrun
    simp only [tcp_proxy.run, Option.some.injEq] at hrun
    subst hrun
    simpa [closed_in] using h
  | cons c cs ih =>
    intro w w1 closed hI h hrun
    simp only [tcp_proxy.run] at hrun
    cases hs : tcp_proxy.step w c with
    | none => simp [hs] at hrun
    | some w2 =>
      rw [hs] at hrun
      have h2 := ih (hI.step hs) (h.preserved hI (mem_pending_of_step hs) (hI.change_of_step hs))
        hrun
      have hk : (fun sock => closed sock || closed_in w (c :: cs) sock) =
          fun sock => (closed sock || (w.is_open sock && !w2.is_open sock)) ||
            closed_in w2 cs sock := by
        funext sock
        simp only [closed_in, hs, Bool.or_assoc]
      rw [hk]
      exact h2

theorem Closure.at_start (forward_host : String) (forward_port : Nat) :
    Closure (fun _ => false) (main forward_host forward_port) := by
  constructor
  · intro sock h
    simp at h
  · intro b hb1 hb2
    exfalso
    simp [tcp_proxy.main, acceptor.accept_connections, async_accept, bridge.new, bridge.init,
      client_splice.set_bridge, server_splice.set_bridge] at hb1 hb2
    omega
  · intro b hb1 hb2
    exfalso
    simp [tcp_proxy.main, acceptor.accept_connections, async_accept, bridge.new, bridge.init,
      client_splice.set_bridge, server_splice.set_bridge] at hb1 hb2
    omega
  · intro b _
    constructor <;>
      simp [tcp_proxy.main, acceptor.accept_connections, async_accept, bridge.new, bridge.init,
        client_splice.set_bridge, server_splice.set_bridge, World.is_open, Function.update_apply]
    · split <;> rfl
    · split <;> rfl

/-! ## The operations issued in a run -/

theorem alternates_snoc : ∀ (l : List Bool) (e x : Bool), alternates e l = true →
    l.getLast? = some x → alternates e (l ++ [!x]) = true
  | [], _, _, _, h => by simp at h
  | [k], e, x, ha, h => by
    have hk : k = x := by simpa using h
    subst hk
    simp only [alternates, Bool.and_true, beq_iff_eq] at ha
    subst ha
    simp [alternates]
  | k :: k2 :: r, e, x, ha, h => by
    have ha1 : (k == e && alternates (!e) (k2 :: r)) = true := ha
    rw [Bool.and_eq_true, beq_iff_eq] at ha1
    have h1 : (k2 :: r).getLast? = some x := by simpa [List.getLast?_cons_cons] using h
    have ih := alternates_snoc (k2 :: r) (!e) x ha1.2 h1
    show (k == e && alternates (!e) ((k2 :: r) ++ [!x])) = true
    rw [ih, ha1.1]
    simp

/-- A step that issues no read or write of the direction. -/
theorem Alternation.idle {sel kind : Operation → Bool} {b : Nat} {line : List Operation}
    {w v : World} (h : Alternation sel kind b line w) {p : Operation}
    {ops : List Operation} (hpend : v.pending = w.pending.erase p ++ ops)
    (hops : ∀ q ∈ ops, sel q = false)
    (hconn : ∀ q ∈ ops, q.handler = .handle_upstream_connect b → w.session_ = some b)
    (hsess : v.session_ = some b → w.session_ = some b ∨ w.next ≤ b)
    (hnext : v.next ≤ b → w.next ≤ b) :
    Alternation sel kind b (line ++ ops.filter sel) v := by
  have hf : ops.filter sel = [] := by
    rw [List.filter_eq_nil_iff]
    intro q hq
    simp [hops q hq]
  rw [hf, List.append_nil]
  constructor
  · exact h.alt
  · intro q hq hsel
    rw [hpend, List.mem_append] at hq
    rcases hq with hq | hq
    · exact h.last q (List.mem_of_mem_erase hq) hsel
    · rw [hops q hq] at hsel
      simp at hsel
  · intro hn
    apply h.none_yet
    rcases hn with ⟨q, hq, hqc⟩ | hn | hn
    · rw [hpend, List.mem_append] at hq
      rcases hq with hq | hq
      · exact Or.inl ⟨q, List.mem_of_mem_erase hq, hqc⟩
      · exact Or.inr (Or.inl (hconn q hq hqc))
    · exact Or.inr (hsess hn)
    · exact Or.inr (Or.inr (hnext hn))

/-- A step on the outstanding operation `p` of the direction that issues the
next operation `q` of the direction. -/
theorem Alternation.next_op {sel kind : Operation → Bool} {b : Nat} {line : List Operation}
    {w w1 : World} (h : Alternation sel kind b line w) {p q : Operation}
    {ops : List Operation} (hpend : w1.pending = w.pending.erase p ++ ops)
    (hq : ops.filter sel = [q])
    (halone : ∀ r ∈ w.pending.erase p,
      sel r = false ∧ r.handler ≠ .handle_upstream_connect b)
    (hops : ∀ r ∈ ops, r.handler ≠ .handle_upstream_connect b)
    (hstarted : w1.session_ ≠ some b ∧ b < w1.next)
    (hkind : (line = [] ∧ kind q = true) ∨
      (line.getLast? = some p ∧ kind q = !kind p)) :
    Alternation sel kind b (line ++ ops.filter sel) w1 := by
  rw [hq]
  constructor
  · rcases hkind with ⟨h1, h2⟩ | ⟨h1, h2⟩
    · subst h1
      simp [alternates, h2]
    · rw [List.map_append, List.map_singleton, h2]
      exact alternates_snoc _ _ _ h.alt (by rw [List.getLast?_map, h1]; rfl)
  · intro r hr hsel
    rw [hpend, List.mem_append] at hr
    rcases hr with hr | hr
    · rw [(halone r hr).1] at hsel
      simp at hsel
    · have : r ∈ ops.filter sel := List.mem_filter.mpr ⟨hr, hsel⟩
      rw [hq, List.mem_singleton] at this
      rw [this, List.getLast?_concat]
  · intro hn
    exfalso
    rcases hn with ⟨r, hr, hrc⟩ | hn | hn
    · rw [hpend, List.mem_append] at hr
      rcases hr with hr | hr
      · exact (halone r hr).2 hrc
      · exact hops r hr hrc
    · exact hstarted.1 hn
    · omega

theorem Operation.up_to_down_of_wf {b : Nat} {r : Operation} (hwf : r.wf)
    (hsel : r.relays (.upstream_socket_ b) (.downstream_socket_ b) = true) :
    Handler.up_to_down b r.handler = true ∧ r.handler ≠ .handle_upstream_connect b := by
  obtain ⟨req, h⟩ := r
  cases h <;> cases req <;> simp only [Operation.wf] at hwf <;>
    simp_all [Operation.relays, Operation.reads, Operation.writes, Handler.up_to_down]

theorem Inv.alone_up_to_down {w : World} (hI : Inv w) {p : Operation} (hp : p ∈ w.pending)
    {b : Nat} (hf : Handler.up_to_down b p.handler = true) :
    ∀ r ∈ w.pending.erase p, r.relays (.upstream_socket_ b) (.downstream_socket_ b) = false ∧
      r.handler ≠ .handle_upstream_connect b := by
  intro r hr
  have hc := (hI.up_to_down b).1
  rw [countP_erase_add _ _ _ hp] at hc
  simp only [hf, if_true] at hc
  have h0 : (w.pending.erase p).countP (fun q => Handler.up_to_down b q.handler) = 0 := by omega
  rw [List.countP_eq_zero] at h0
  have hr0 := h0 r hr
  constructor
  · cases hsel : r.relays (.upstream_socket_ b) (.downstream_socket_ b) with
    | false => rfl
    | true =>
      exact absurd (Operation.up_to_down_of_wf (hI.wf r (List.mem_of_mem_erase hr)) hsel).1 hr0
  · intro hcon
    exact hr0 (by simp [hcon, Handler.up_to_down])

theorem Alternation.step_up_to_down {b : Nat} {line : List Operation} {w w1 : World}
    {c : Completion} (hI : Inv w)
    (h : Alternation (Operation.relays (.upstream_socket_ b) (.downstream_socket_ b))
      (Operation.reads (.upstream_socket_ b)) b line w)
    (hp : c.op ∈ w.pending) (hc : Change w c w1) :
    Alternation (Operation.relays (.upstream_socket_ b) (.downstream_socket_ b))
      (Operation.reads (.upstream_socket_ b)) b
      (line ++ (w1.pending.drop (w.pending.erase c.op).length).filter
        (Operation.relays (.upstream_socket_ b) (.downstream_socket_ b))) w1 := by
  cases hc with
  | accepted s hop herr hsess hsreg pending registry session next log opened fresh clients
      servers =>
    rw [pending, List.drop_left]
    refine h.idle pending ?_ ?_ ?_ ?_
    · simp [Operation.relays, Operation.reads, Operation.writes, accept_op, connect_op,
      upstream_read_op, downstream_read_op, upstream_write_op, downstream_write_op]
    · intro q hq hqc
      simp only [List.mem_cons, List.mem_singleton, List.not_mem_nil, or_false] at hq
      rcases hq with rfl | rfl
      · simp only [connect_op, Handler.handle_upstream_connect.injEq] at hqc
        rw [← hqc]
        exact hsess
      · simp [accept_op] at hqc
    · intro hs
      rw [session] at hs
      exact Or.inr (Nat.le_of_eq (Option.some.inj hs))
    · intro hn
      omega
  | refused s hop herr hsess eq =>
    subst eq
    have hpend : (w.pending.erase c.op) = w.pending.erase c.op ++ [] := by simp
    have := h.idle (v := { w with pending := w.pending.erase c.op }) hpend (by simp)
      (by simp) Or.inl id
    simpa using this
  | connected b1 host port hop herr hreg pending confined registry sockets =>
    rw [pending, List.drop_left]
    have hst := hI.started hp (b := b1) (by rw [hop]; rfl)
    by_cases hb : b1 = b
    · subst hb
      refine h.next_op (q := upstream_read_op b1) pending ?_
        (hI.alone_up_to_down hp (by rw [hop]; simp [connect_op, Handler.up_to_down])) ?_
        ⟨by rw [confined.session]; exact hst.1, by rw [confined.next]; exact hst.2⟩
        (Or.inl ⟨h.none_yet (Or.inl ⟨c.op, hp, by rw [hop]; rfl⟩), ?_⟩)
      · simp [List.filter_cons, Operation.relays, Operation.reads, Operation.writes, accept_op,
        connect_op, upstream_read_op, downstream_read_op, upstream_write_op, downstream_write_op]
      · simp [Operation.relays, Operation.reads, Operation.writes, accept_op, connect_op,
        upstream_read_op, downstream_read_op, upstream_write_op, downstream_write_op]
      · simp [Operation.relays, Operation.reads, Operation.writes, accept_op, connect_op,
        upstream_read_op, downstream_read_op, upstream_write_op, downstream_write_op]
    · refine h.idle pending ?_ ?_ (fun hs => Or.inl (by rw [← confined.session]; exact hs))
        (fun hn => by rw [← confined.next]; exact hn)
      · simp [Operation.relays, Operation.reads, Operation.writes, accept_op, connect_op,
        upstream_read_op, downstream_read_op, upstream_write_op, downstream_write_op, hb]
      · simp [Operation.relays, Operation.reads, Operation.writes, accept_op, connect_op,
        upstream_read_op, downstream_read_op, upstream_write_op, downstream_write_op]
  | upstream_read b1 n hop herr halive pending confined registry sockets =>
    rw [pending, List.drop_left]
    have hst := hI.started hp (b := b1) (by rw [hop]; rfl)
    by_cases hb : b1 = b
    · subst hb
      refine h.next_op (q := downstream_write_op b1 n) pending ?_
        (hI.alone_up_to_down hp (by rw [hop]; simp [upstream_read_op, Handler.up_to_down])) ?_
        ⟨by rw [confined.session]; exact hst.1, by rw [confined.next]; exact hst.2⟩
        (Or.inr ⟨h.last c.op hp (by rw [hop]; simp [Operation.relays, Operation.reads,
          Operation.writes, accept_op, connect_op, upstream_read_op, downstream_read_op,
          upstream_write_op, downstream_write_op]), ?_⟩)
      · simp [List.filter_cons, Operation.relays, Operation.reads, Operation.writes, accept_op,
        connect_op, upstream_read_op, downstream_read_op, upstream_write_op, downstream_write_op]
      · simp [Operation.relays, Operation.reads, Operation.writes, accept_op, connect_op,
        upstream_read_op, downstream_read_op, upstream_write_op, downstream_write_op]
      · rw [hop]
        simp [Operation.relays, Operation.reads, Operation.writes, accept_op, connect_op,
          upstream_read_op, downstream_read_op, upstream_write_op, downstream_write_op]
    · refine h.idle pending ?_ ?_ (fun hs => Or.inl (by rw [← confined.session]; exact hs))
        (fun hn => by rw [← confined.next]; exact hn)
      · simp [Operation.relays, Operation.reads, Operation.writes, accept_op, connect_op,
        upstream_read_op, downstream_read_op, upstream_write_op, downstream_write_op, hb]
      · simp [Operation.relays, Operation.reads, Operation.writes, accept_op, connect_op,
        upstream_read_op, downstream_read_op, upstream_write_op, downstream_write_op]
  | downstream_write b1 n hop herr halive pending confined registry sockets =>
    rw [pending, List.drop_left]
    have hst := hI.started hp (b := b1) (by rw [hop]; rfl)
    by_cases hb : b1 = b
    · subst hb
      refine h.next_op (q := upstream_read_op b1) pending ?_
        (hI.alone_up_to_down hp (by rw [hop]; simp [downstream_write_op, Handler.up_to_down])) ?_
        ⟨by rw [confined.session]; exact hst.1, by rw [confined.next]; exact hst.2⟩
        (Or.inr ⟨h.last c.op hp (by rw [hop]; simp [Operation.relays, Operation.reads,
          Operation.writes, accept_op, connect_op, upstream_read_op, downstream_read_op,
          upstream_write_op, downstream_write_op]), ?_⟩)
      · simp [List.filter_cons, Operation.relays, Operation.reads, Operation.writes, accept_op,
        connect_op, upstream_read_op, downstream_read_op, upstream_write_op, downstream_write_op]
      · simp [Operation.relays, Operation.reads, Operation.writes, accept_op, connect_op,
        upstream_read_op, downstream_read_op, upstream_write_op, downstream_write_op]
      · rw [hop]
        simp [Operation.relays, Operation.reads, Operation.writes, accept_op, connect_op,
          upstream_read_op, downstream_read_op, upstream_write_op, downstream_write_op]
    · refine h.idle pending ?_ ?_ (fun hs => Or.inl (by rw [← confined.session]; exact hs))
        (fun hn => by rw [← confined.next]; exact hn)
      · simp [Operation.relays, Operation.reads, Operation.writes, accept_op, connect_op,
        upstream_read_op, downstream_read_op, upstream_write_op, downstream_write_op, hb]
      · simp [Operation.relays, Operation.reads, Operation.writes, accept_op, connect_op,
        upstream_read_op, downstream_read_op, upstream_write_op, downstream_write_op]
  | downstream_read b1 n hop herr halive pending confined registry sockets =>
    rw [pending, List.drop_left]
    refine h.idle pending ?_ ?_ (fun hs => Or.inl (by rw [← confined.session]; exact hs))
      (fun hn => by rw [← confined.next]; exact hn)
    · simp [Operation.relays, Operation.reads, Operation.writes, accept_op, connect_op,
      upstream_read_op, downstream_read_op, upstream_write_op, downstream_write_op]
    · simp [Operation.relays, Operation.reads, Operation.writes, accept_op, connect_op,
      upstream_read_op, downstream_read_op, upstream_write_op, downstream_write_op]
  | upstream_write b1 n hop herr halive pending confined registry sockets =>
    rw [pending, List.drop_left]
    refine h.idle pending ?_ ?_ (fun hs => Or.inl (by rw [← confined.session]; exact hs))
      (fun hn => by rw [← confined.next]; exact hn)
    · simp [Operation.relays, Operation.reads, Operation.writes, accept_op, connect_op,
      upstream_read_op, downstream_read_op, upstream_write_op, downstream_write_op]
    · simp [Operation.relays, Operation.reads, Operation.writes, accept_op, connect_op,
      upstream_read_op, downstream_read_op, upstream_write_op, downstream_write_op]
  | failed b1 hb1 herr pending confined registered unregistered =>
    have hpend : w1.pending = w.pending.erase c.op ++ [] := by simpa using pending
    have := h.idle hpend (by simp) (by simp)
      (fun hs => Or.inl (by rw [← confined.session]; exact hs))
      (fun hn => by rw [← confined.next]; exact hn)
    rw [pending]
    simpa using this

theorem Operation.down_to_up_of_wf {b : Nat} {r : Operation} (hwf : r.wf)
    (hsel : r.relays (.downstream_socket_ b) (.upstream_socket_ b) = true) :
    Handler.down_to_up b r.handler = true ∧ r.handler ≠ .handle_upstream_connect b := by
  obtain ⟨req, h⟩ := r
  cases h <;> cases req <;> simp only [Operation.wf] at hwf <;>
    simp_all [Operation.relays, Operation.reads, Operation.writes, Handler.down_to_up]

theorem Inv.alone_down_to_up {w : World} (hI : Inv w) {p : Operation} (hp : p ∈ w.pending)
    {b : Nat} (hf : Handler.down_to_up b p.handler = true) :
    ∀ r ∈ w.pending.erase p, r.relays (.downstream_socket_ b) (.upstream_socket_ b) = false ∧
      r.handler ≠ .handle_upstream_connect b := by
  intro r hr
  have hc := (hI.down_to_up b).1
  rw [countP_erase_add _ _ _ hp] at hc
  simp only [hf, if_true] at hc
  have h0 : (w.pending.erase p).countP (fun q => Handler.down_to_up b q.handler) = 0 := by omega
  rw [List.countP_eq_zero] at h0
  have hr0 := h0 r hr
  constructor
  · cases hsel : r.relays (.downstream_socket_ b) (.upstream_socket_ b) with
    | false => rfl
    | true =>
      exact absurd (Operation.down_to_up_of_wf (hI.wf r (List.mem_of_mem_erase hr)) hsel).1 hr0
  · intro hcon
    exact hr0 (by simp [hcon, Handler.down_to_up])

theorem Alternation.step_down_to_up {b : Nat} {line : List Operation} {w w1 : World}
    {c : Completion} (hI : Inv w)
    (h : Alternation (Operation.relays (.downstream_socket_ b) (.upstream_socket_ b))
      (Operation.reads (.downstream_socket_ b)) b line w)
    (hp : c.op ∈ w.pending) (hc : Change w c w1) :
    Alternation (Operation.relays (.downstream_socket_ b) (.upstream_socket_ b))
      (Operation.reads (.downstream_socket_ b)) b
      (line ++ (w1.pending.drop (w.pending.erase c.op).length).filter
        (Operation.relays (.downstream_socket_ b) (.upstream_socket_ b))) w1 := by
  cases hc with
  | accepted s hop herr hsess hsreg pending registry session next log opened fresh clients
      servers =>
    rw [pending, List.drop_left]
    refine h.idle pending ?_ ?_ ?_ ?_
    · simp [Operation.relays, Operation.reads, Operation.writes, accept_op, connect_op,
      downstream_read_op, upstream_read_op, downstream_write_op, upstream_write_op]
    · intro q hq hqc
      simp only [List.mem_cons, List.mem_singleton, List.not_mem_nil, or_false] at hq
      rcases hq with rfl | rfl
      · simp only [connect_op, Handler.handle_upstream_connect.injEq] at hqc
        rw [← hqc]
        exact hsess
      · simp [accept_op] at hqc
    · intro hs
      rw [session] at hs
      exact Or.inr (Nat.le_of_eq (Option.some.inj hs))
    · intro hn
      omega
  | refused s hop herr hsess eq =>
    subst eq
    have hpend : (w.pending.erase c.op) = w.pending.erase c.op ++ [] := by simp
    have := h.idle (v := { w with pending := w.pending.erase c.op }) hpend (by simp)
      (by simp) Or.inl id
    simpa using this
  | connected b1 host port hop herr hreg pending confined registry sockets =>
    rw [pending, List.drop_left]
    have hst := hI.started hp (b := b1) (by rw [hop]; rfl)
    by_cases hb : b1 = b
    · subst hb
      refine h.next_op (q := downstream_read_op b1) pending ?_
        (hI.alone_down_to_up hp (by rw [hop]; simp [connect_op, Handler.down_to_up])) ?_
        ⟨by rw [confined.session]; exact hst.1, by rw [confined.next]; exact hst.2⟩
        (Or.inl ⟨h.none_yet (Or.inl ⟨c.op, hp, by rw [hop]; rfl⟩), ?_⟩)
      · simp [List.filter_cons, Operation.relays, Operation.reads, Operation.writes, accept_op,
        connect_op, downstream_read_op, upstream_read_op, downstream_write_op, upstream_write_op]
      · simp [Operation.relays, Operation.reads, Operation.writes, accept_op, connect_op,
        downstream_read_op, upstream_read_op, downstream_write_op, upstream_write_op]
      · simp [Operation.relays, Operation.reads, Operation.writes, accept_op, connect_op,
        downstream_read_op, upstream_read_op, downstream_write_op, upstream_write_op]
    · refine h.idle pending ?_ ?_ (fun hs => Or.inl (by rw [← confined.session]; exact hs))
        (fun hn => by rw [← confined.next]; exact hn)
      · simp [Operation.relays, Operation.reads, Operation.writes, accept_op, connect_op,
        downstream_read_op, upstream_read_op, downstream_write_op, upstream_write_op, hb]
      · simp [Operation.relays, Operation.reads, Operation.writes, accept_op, connect_op,
        downstream_read_op, upstream_read_op, downstream_write_op, upstream_write_op]
  | downstream_read b1 n hop herr halive pending confined registry sockets =>
    rw [pending, List.drop_left]
    have hst := hI.started hp (b := b1) (by rw [hop]; rfl)
    by_cases hb : b1 = b
    · subst hb
      refine h.next_op (q := upstream_write_op b1 n) pending ?_
        (hI.alone_down_to_up hp (by rw [hop]; simp [downstream_read_op, Handler.down_to_up])) ?_
        ⟨by rw [confined.session]; exact hst.1, by rw [confined.next]; exact hst.2⟩
        (Or.inr ⟨h.last c.op hp (by rw [hop]; simp [Operation.relays, Operation.reads,
          Operation.writes, accept_op, connect_op, downstream_read_op, upstream_read_op,
          downstream_write_op, upstream_write_op]), ?_⟩)
      · simp [List.filter_cons, Operation.relays, Operation.reads, Operation.writes, accept_op,
        connect_op, downstream_read_op, upstream_read_op, downstream_write_op, upstream_write_op]
      · simp [Operation.relays, Operation.reads, Operation.writes, accept_op, connect_op,
        downstream_read_op, upstream_read_op, downstream_write_op, upstream_write_op]
      · rw [hop]
        simp [Operation.relays, Operation.reads, Operation.writes, accept_op, connect_op,
          downstream_read_op, upstream_read_op, downstream_write_op, upstream_write_op]
    · refine h.idle pending ?_ ?_ (fun hs => Or.inl (by rw [← confined.session]; exact hs))
        (fun hn => by rw [← confined.next]; exact hn)
      · simp [Operation.relays, Operation.reads, Operation.writes, accept_op, connect_op,
        downstream_read_op, upstream_read_op, downstream_write_op, upstream_write_op, hb]
      · simp [Operation.relays, Operation.reads, Operation.writes, accept_op, connect_op,
        downstream_read_op, upstream_read_op, downstream_write_op, upstream_write_op]
  | upstream_write b1 n hop herr halive pending confined registry sockets =>
    rw [pending, List.drop_left]
    have hst := hI.started hp (b := b1) (by rw [hop]; rfl)
    by_cases hb : b1 = b
    · subst hb
      refine h.next_op (q := downstream_read_op b1) pending ?_
        (hI.alone_down_to_up hp (by rw [hop]; simp [upstream_write_op, Handler.down_to_up])) ?_
        ⟨by rw [confined.session]; exact hst.1, by rw [confined.next]; exact hst.2⟩
        (Or.inr ⟨h.last c.op hp (by rw [hop]; simp [Operation.relays, Operation.reads,
          Operation.writes, accept_op, connect_op, downstream_read_op, upstream_read_op,
          downstream_write_op, upstream_write_op]), ?_⟩)
      · simp [List.filter_cons, Operation.relays, Operation.reads, Operation.writes, accept_op,
        connect_op, downstream_read_op, upstream_read_op, downstream_write_op, upstream_write_op]
      · simp [Operation.relays, Operation.reads, Operation.writes, accept_op, connect_op,
        downstream_read_op, upstream_read_op, downstream_write_op, upstream_write_op]
      · rw [hop]
        simp [Operation.relays, Operation.reads, Operation.writes, accept_op, connect_op,
          downstream_read_op, upstream_read_op, downstream_write_op, upstream_write_op]
    · refine h.idle pending ?_ ?_ (fun hs => Or.inl (by rw [← confined.session]; exact hs))
        (fun hn => by rw [← confined.next]; exact hn)
      · simp [Operation.relays, Operation.reads, Operation.writes, accept_op, connect_op,
        downstream_read_op, upstream_read_op, downstream_write_op, upstream_write_op, hb]
      · simp [Operation.relays, Operation.reads, Operation.writes, accept_op, connect_op,
        downstream_read_op, upstream_read_op, downstream_write_op, upstream_write_op]
  | upstream_read b1 n hop herr halive pending confined registry sockets =>
    rw [pending, List.drop_left]
    refine h.idle pending ?_ ?_ (fun hs => Or.inl (by rw [← confined.session]; exact hs))
      (fun hn => by rw [← confined.next]; exact hn)
    · simp [Operation.relays, Operation.reads, Operation.writes, accept_op, connect_op,
      downstream_read_op, upstream_read_op, downstream_write_op, upstream_write_op]
    · simp [Operation.relays, Operation.reads, Operation.writes, accept_op, connect_op,
      downstream_read_op, upstream_read_op, downstream_write_op, upstream_write_op]
  | downstream_write b1 n hop herr halive pending confined registry sockets =>
    rw [pending, List.drop_left]
    refine h.idle pending ?_ ?_ (fun hs => Or.inl (by rw [← confined.session]; exact hs))
      (fun hn => by rw [← confined.next]; exact hn)
    · simp [Operation.relays, Operation.reads, Operation.writes, accept_op, connect_op,
      downstream_read_op, upstream_read_op, downstream_write_op, upstream_write_op]
    · simp [Operation.relays, Operation.reads, Operation.writes, accept_op, connect_op,
      downstream_read_op, upstream_read_op, downstream_write_op, upstream_write_op]
  | failed b1 hb1 herr pending confined registered unregistered =>
    have hpend : w1.pending = w.pending.erase c.op ++ [] := by simpa using pending
    have := h.idle hpend (by simp) (by simp)
      (fun hs => Or.inl (by rw [← confined.session]; exact hs))
      (fun hn => by rw [← confined.next]; exact hn)
    rw [pending]
    simpa using this

theorem Alternation.over_run {sel kind : Operation → Bool} {b : Nat}
    (hstep : ∀ {line : List Operation} {w w1 : World} {c : Completion}, Inv w →
      Alternation sel kind b line w → c.op ∈ w.pending → Change w c w1 →
      Alternation sel kind b
        (line ++ (w1.pending.drop (w.pending.erase c.op).length).filter sel) w1)
    {cs : List Completion} : ∀ {line : List Operation} {w w1 : World}, Inv w →
    Alternation sel kind b line w → run w cs = some w1 →
    Alternation sel kind b (line ++ (issued w cs).filter sel) w1 := by
  induction cs with
  | nil =>
    intro line w w1 _ h hrun
    simp only [tcp_proxy.run, Option.some.injEq] at hrun
    subst hrun
    simpa [issued] using h
  | cons c cs ih =>
    intro line w w1 hI h hrun
    simp only [tcp_proxy.run] at hrun
    cases hs : tcp_proxy.step w c with
    | none => simp [hs] at hrun
    | some w2 =>
      rw [hs] at hrun
      have h2 := ih (hI.step hs) (hstep hI h (mem_pending_of_step hs) (hI.change_of_step hs)) hrun
      simp only [issued, hs, List.filter_append, ← List.append_assoc]
      exact h2

theorem Alternation.at_start_of (sel kind : Operation → Bool) (b : Nat) (forward_host : String)
    (forward_port : Nat) (hsel : ∀ s, sel (accept_op s) = false) :
    Alternation sel kind b [] (main forward_host forward_port) := by
  constructor
  · rfl
  · intro p hp hs
    have : p = accept_op 0 := by
      simpa [tcp_proxy.main, acceptor.accept_connections, async_accept, bridge.new,
        bridge.init, client_splice.set_bridge, server_splice.set_bridge, accept_op] using hp
    rw [this, hsel] at hs
    simp at hs
  · intro _
    rfl

theorem countP_add_le {α : Type} (f g h : α → Bool) (l : List α)
    (hg : ∀ x ∈ l, g x = true → f x = true) (hh : ∀ x ∈ l, h x = true → f x = true)
    (hgh : ∀ x ∈ l, g x = true → h x = true → False) :
    l.countP g + l.countP h ≤ l.countP f := by
  induction l with
  | nil => simp
  | cons x xs ih =>
    have ih1 := ih (fun y hy => hg y (List.mem_cons_of_mem _ hy))
      (fun y hy => hh y (List.mem_cons_of_mem _ hy))
      (fun y hy => hgh y (List.mem_cons_of_mem _ hy))
    have hx1 := hg x (List.mem_cons_self _ _)
    have hx2 := hh x (List.mem_cons_self _ _)
    have hx3 := hgh x (List.mem_cons_self _ _)
    simp only [List.countP_cons]
    cases hf : f x <;> cases hg : g x <;> cases hh : h x <;>
      simp only [Bool.false_eq_true, if_true, if_false] <;>
      first
      | omega
      | exact (hx3 hg hh).elim
      | exact absurd (hx1 hg) (by rw [hf]; simp)
      | exact absurd (hx2 hh) (by rw [hf]; simp)

theorem two_le_countP {α : Type} [DecidableEq α] (f : α → Bool) {l : List α} {p q : α}
    (hp : p ∈ l) (hq : q ∈ l) (hne : q ≠ p) (hfp : f p = true) (hfq : f q = true) :
    2 ≤ l.countP f := by
  rw [countP_erase_add f l p hp]
  have : 0 < (l.erase p).countP f :=
    List.countP_pos_iff.mpr ⟨q, (List.mem_erase_of_ne hne).mpr hq, hfq⟩
  simp only [hfp, if_true]
  omega

/-- The operations outstanding after a step are those that were outstanding
besides the completed one, followed by the operations the step issued: this is
what `issued` collects. -/
theorem Inv.pending_after {w w1 : World} (hI : Inv w) {c : Completion}
    (hs : tcp_proxy.step w c = some w1) :
    w1.pending = w.pending.erase c.op ++ w1.pending.drop (w.pending.erase c.op).length := by
  cases hI.change_of_step hs with
  | accepted s hop herr hsess hsreg pending =>
    rw [pending, List.drop_left]
  | refused s hop herr hsess eq =>
    subst eq
    simp
  | connected b1 host port hop herr hreg pending =>
    rw [pending, List.drop_left]
  | upstream_read b1 n hop herr halive pending =>
    rw [pending, List.drop_left]
  | downstream_read b1 n hop herr halive pending =>
    rw [pending, List.drop_left]
  | upstream_write b1 n hop herr halive pending =>
    rw [pending, List.drop_left]
  | downstream_write b1 n hop herr halive pending =>
    rw [pending, List.drop_left]
  | failed b1 hb1 herr pending =>
    rw [pending]
    simp

/-- In each direction at most one read or write is outstanding. -/
theorem Inv.one_outstanding {w : World} (hI : Inv w) (b : Nat) :
    w.pending.countP (Operation.reads (.upstream_socket_ b)) +
        w.pending.countP (Operation.writes (.downstream_socket_ b)) ≤ 1 ∧
      w.pending.countP (Operation.reads (.downstream_socket_ b)) +
        w.pending.countP (Operation.writes (.upstream_socket_ b)) ≤ 1 := by
  constructor
  · refine Nat.le_trans (countP_add_le (fun q => Handler.up_to_down b q.handler) _ _ _ ?_ ?_ ?_)
      (hI.up_to_down b).1
    · intro x hx h
      exact (Operation.up_to_down_of_wf (hI.wf x hx) (by simp [Operation.relays, h])).1
    · intro x hx h
      exact (Operation.up_to_down_of_wf (hI.wf x hx) (by simp [Operation.relays, h])).1
    · intro x _ h1 h2
      simp only [Operation.reads, Operation.writes] at h1 h2
      cases hr : x.request <;> simp [hr] at h1 h2
  · refine Nat.le_trans (countP_add_le (fun q => Handler.down_to_up b q.handler) _ _ _ ?_ ?_ ?_)
      (hI.down_to_up b).1
    · intro x hx h
      exact (Operation.down_to_up_of_wf (hI.wf x hx) (by simp [Operation.relays, h])).1
    · intro x hx h
      exact (Operation.down_to_up_of_wf (hI.wf x hx) (by simp [Operation.relays, h])).1
    · intro x _ h1 h2
      simp only [Operation.reads, Operation.writes] at h1 h2
      cases hr : x.request <;> simp [hr] at h1 h2

/-- No read into an array is outstanding together with a write from it. -/
theorem Inv.buffer_not_shared {w : World} (hI : Inv w) {p q : Operation} (hp : p ∈ w.pending)
    (hq : q ∈ w.pending) {s1 s2 : Socket} {buf : Buffer} {n1 n2 : Nat}
    (hpr : p.request = .async_read_some s1 buf n1) (hqr : q.request = .async_write s2 buf n2) :
    False := by
  have hne : q ≠ p := by
    intro h
    rw [h, hpr] at hqr
    simp at hqr
  have hwp := hI.wf p hp
  have hwq := hI.wf q hq
  obtain ⟨preq, ph⟩ := p
  obtain ⟨qreq, qh⟩ := q
  simp only at hpr hqr
  subst hpr hqr
  cases ph <;> simp only [Operation.wf] at hwp <;> cases qh <;> simp only [Operation.wf] at hwq
  all_goals (rename_i x y)
  all_goals first
    | (obtain ⟨rfl, rfl, rfl⟩ := hwp
       obtain ⟨rfl, h2⟩ := hwq
       simp at h2
       done)
    | (obtain ⟨rfl, rfl, rfl⟩ := hwp
       obtain ⟨rfl, h2⟩ := hwq
       simp only [Buffer.upstream_data_.injEq] at h2
       have h3 := two_le_countP (fun o => Handler.up_to_down x o.handler) hp hq hne
         (by simp [Handler.up_to_down]) (by simp [Handler.up_to_down, h2])
       have h4 := (hI.up_to_down x).1
       omega)
    | (obtain ⟨rfl, rfl, rfl⟩ := hwp
       obtain ⟨rfl, h2⟩ := hwq
       simp only [Buffer.downstream_data_.injEq] at h2
       have h3 := two_le_countP (fun o => Handler.down_to_up x o.handler) hp hq hne
         (by simp [Handler.down_to_up]) (by simp [Handler.down_to_up, h2])
       have h4 := (hI.down_to_up x).1
       omega)

/-! ## Sample states are reachable -/

theorem sample_relaying_reachable : Reachable "192.0.2.7" 7 sample_relaying :=
  ⟨[⟨accept_op 0, false, []⟩, ⟨connect_op 0 "192.0.2.7" 7, false, []⟩], rfl⟩

theorem sample_connecting_reachable : Reachable "192.0.2.7" 7 sample_connecting :=
  ⟨[⟨accept_op 0, false, []⟩], rfl⟩

theorem sample_start_reachable : Reachable "192.0.2.7" 7 sample_start :=
  ⟨[], rfl⟩

theorem sample_ping_reachable : Reachable "192.0.2.7" 7 sample_ping :=
  ⟨[⟨accept_op 0, false, []⟩, ⟨connect_op 0 "192.0.2.7" 7, false, []⟩,
    ⟨downstream_read_op 0, false, [80, 73, 78, 71]⟩], rfl⟩

theorem sample_half_closed_reachable : Reachable "192.0.2.7" 7 sample_half_closed :=
  ⟨[⟨accept_op 0, false, []⟩, ⟨connect_op 0 "192.0.2.7" 7, false, []⟩,
    ⟨downstream_read_op 0, true, []⟩], rfl⟩

theorem sample_write_orphaned_reachable : Reachable "192.0.2.7" 7 sample_write_orphaned :=
  ⟨[⟨accept_op 0, false, []⟩, ⟨connect_op 0 "192.0.2.7" 7, false, []⟩,
    ⟨downstream_read_op 0, false, [80, 73, 78, 71]⟩, ⟨upstream_read_op 0, true, []⟩], rfl⟩

theorem sample_upstream_lost_reachable : Reachable "192.0.2.7" 7 sample_upstream_lost :=
  ⟨[⟨accept_op 0, false, []⟩, ⟨connect_op 0 "192.0.2.7" 7, false, []⟩,
    ⟨upstream_read_op 0, true, []⟩], rfl⟩

theorem sample_two_bridges_reachable : Reachable "192.0.2.7" 7 sample_two_bridges :=
  ⟨[⟨accept_op 0, false, []⟩, ⟨connect_op 0 "192.0.2.7" 7, false, []⟩,
    ⟨downstream_read_op 0, false, [80, 73, 78, 71]⟩, ⟨accept_op 1, false, []⟩,
    ⟨connect_op 1 "192.0.2.7" 7, false, []⟩], rfl⟩

/-! ## C1 -/

/-- C1: in every state the event loop reaches, and for every bridge `b`, the
bytes handed to `async_write` for the upstream socket, concatenated in the
order of the writes, are a prefix of the bytes the reads on the downstream
socket delivered, concatenated in the order of the reads; and the bytes
written to the downstream socket are a prefix of the bytes read from the
upstream socket. -/
theorem relay_byte_transparency (forward_host : String) (forward_port : Nat) (w : World)
    (hr : Reachable forward_host forward_port w) (b : Nat) :
    written (.upstream_socket_ b) w <+: delivered (.downstream_socket_ b) w ∧
      written (.downstream_socket_ b) w <+: delivered (.upstream_socket_ b) w :=
  ⟨(hr.inv.down_to_up b).2.1, (hr.inv.up_to_down b).2.1⟩

/-- After the client's "PING" has been read, exactly these four bytes have been
handed to the write on the upstream socket. -/
theorem relay_byte_transparency_witness :
    Reachable "192.0.2.7" 7 sample_ping ∧
      written (.upstream_socket_ 0) sample_ping = [80, 73, 78, 71] ∧
      (written (.upstream_socket_ 0) sample_ping <+:
          delivered (.downstream_socket_ 0) sample_ping ∧
        written (.downstream_socket_ 0) sample_ping <+:
          delivered (.upstream_socket_ 0) sample_ping) :=
  ⟨sample_ping_reachable, by decide,
    relay_byte_transparency "192.0.2.7" 7 sample_ping sample_ping_reachable 0⟩

/-! ## C2 -/

/-- C2 fails on the code: in the reachable state in which the read on the
downstream socket has failed and closed the bridge, the read on the upstream
socket is still outstanding and completes without error (here with four
bytes); `handle_upstream_read` then finds `wssp_.lock()` null and dereferences
it: the call has undefined behaviour and no write is issued. -/
theorem read_after_close_is_undefined :
    Reachable "192.0.2.7" 7 sample_half_closed ∧
      upstream_read_op 0 ∈ sample_half_closed.pending ∧
      step sample_half_closed ⟨upstream_read_op 0, false, [80, 79, 78, 71]⟩ = none :=
  ⟨sample_half_closed_reachable, by decide, rfl⟩

/-- What the read handlers do while the peer is alive: in a reachable state,
when a read completes without error with the bytes `data` (at most 8192) on a
leg whose peer leg is still alive (the bridge is registered, or an outstanding
operation holds the peer splice), the read handler issues exactly one
operation: a write to the peer's socket of the first `data.length` bytes of the
reading leg's own array, which are `data` in array order; no socket changes its
open state and the registry is unchanged. -/
theorem read_forwards_to_live_peer (forward_host : String) (forward_port : Nat) (w : World)
    (hr : Reachable forward_host forward_port w) (b : Nat) (p : Operation) (hp : p ∈ w.pending)
    (data : List Nat) (hlen : data.length ≤ max_data_length) :
    (p.handler = .handle_upstream_read b →
      (b ∈ w.bridge_instances ∨ ∃ q ∈ w.pending.erase p, q.handler.holds_server b = true) →
      ∃ w1, step w ⟨p, false, data⟩ = some w1 ∧
        w1.pending = w.pending.erase p ++ [downstream_write_op b data.length] ∧
        w1.log = w.log ++
          [.read (.upstream_socket_ b) data, .write (.downstream_socket_ b) data] ∧
        w1.view (.upstream_data_ b) data.length = data ∧
        (∀ sock, w1.is_open sock = w.is_open sock) ∧
        w1.bridge_instances = w.bridge_instances) ∧
    (p.handler = .handle_downstream_read b →
      (b ∈ w.bridge_instances ∨ ∃ q ∈ w.pending.erase p, q.handler.holds_client b = true) →
      ∃ w1, step w ⟨p, false, data⟩ = some w1 ∧
        w1.pending = w.pending.erase p ++ [upstream_write_op b data.length] ∧
        w1.log = w.log ++
          [.read (.downstream_socket_ b) data, .write (.upstream_socket_ b) data] ∧
        w1.view (.downstream_data_ b) data.length = data ∧
        (∀ sock, w1.is_open sock = w.is_open sock) ∧
        w1.bridge_instances = w.bridge_instances) := by
  have hI := hr.inv
  have hwf := hI.wf p hp
  have htake : List.take max_data_length data = data := List.take_of_length_le hlen
  obtain ⟨req, h⟩ := p
  constructor
  · intro hh halive
    simp only at hh
    subst hh
    cases req <;> simp only [Operation.wf] at hwf
    obtain ⟨rfl, rfl, rfl⟩ := hwf
    have hpeers := hI.peers _ hp b (by simp [Handler.relays])
    rw [mem_pending_step hp]
    simp only [complete, Request.effect, Handler.invoke, htake]
    rw [handle_upstream_read_ok _ _ b _
      (lock_server_of (by simpa [World.store] using hpeers.1)
        (by simpa [World.store] using halive))]
    refine ⟨_, rfl, rfl, ?_, ?_, ?_, rfl⟩
    · simp [async_write, World.store, World.view, World.buffer]
    · simp [async_write, World.store, World.view, World.buffer]
    · intro sock
      cases sock <;> simp [async_write, World.store, World.is_open]
  · intro hh halive
    simp only at hh
    subst hh
    cases req <;> simp only [Operation.wf] at hwf
    obtain ⟨rfl, rfl, rfl⟩ := hwf
    have hpeers := hI.peers _ hp b (by simp [Handler.relays])
    rw [mem_pending_step hp]
    simp only [complete, Request.effect, Handler.invoke, htake]
    rw [handle_downstream_read_ok _ _ b _
      (lock_client_of (by simpa [World.store] using hpeers.2)
        (by simpa [World.store] using halive))]
    refine ⟨_, rfl, rfl, ?_, ?_, ?_, rfl⟩
    · simp [async_write, World.store, World.view, World.buffer]
    · simp [async_write, World.store, World.view, World.buffer]
    · intro sock
      cases sock <;> simp [async_write, World.store, World.is_open]

/-- With both reads of bridge 0 outstanding, four bytes arrive from the
upstream: one write of these four bytes to the downstream socket is issued. -/
theorem read_forwards_to_live_peer_witness :
    Reachable "192.0.2.7" 7 sample_relaying ∧
      upstream_read_op 0 ∈ sample_relaying.pending ∧
      0 ∈ sample_relaying.bridge_instances ∧
      ∃ w1, step sample_relaying ⟨upstream_read_op 0, false, [80, 79, 78, 71]⟩ = some w1 ∧
        w1.pending = sample_relaying.pending.erase (upstream_read_op 0) ++
          [downstream_write_op 0 4] ∧
        w1.log = sample_relaying.log ++
          [.read (.upstream_socket_ 0) [80, 79, 78, 71],
            .write (.downstream_socket_ 0) [80, 79, 78, 71]] ∧
        w1.view (.upstream_data_ 0) 4 = [80, 79, 78, 71] ∧
        (∀ sock, w1.is_open sock = sample_relaying.is_open sock) ∧
        w1.bridge_instances = sample_relaying.bridge_instances :=
  ⟨sample_relaying_reachable, by decide, by decide,
    (read_forwards_to_live_peer "192.0.2.7" 7 sample_relaying sample_relaying_reachable 0
      (upstream_read_op 0) (by decide) [80, 79, 78, 71] (by decide)).1 rfl
      (Or.inl (by decide))⟩

/-! ## C3 -/

/-- C3, as stated, fails: the read on the downstream socket of bridge 0 has
failed, and its handler has closed the bridge and removed it from the registry
while the read on the upstream socket was outstanding.  That read now
completes with an error and 0 bytes (its socket was closed).
`handle_upstream_read` finds `wbp_.lock()` null: it does not invoke the
bridge's close but the `close()` of its own splice, which finds the socket
closed already; apart from the completed operation the state is unchanged. -/
theorem read_error_after_close_skips_bridge_close :
    Reachable "192.0.2.7" 7 sample_half_closed ∧
      upstream_read_op 0 ∈ sample_half_closed.pending ∧
      Completion.deliverable ⟨upstream_read_op 0, true, []⟩ = true ∧
      0 ∉ sample_half_closed.bridge_instances ∧
      lock_bridge sample_half_closed (sample_half_closed.clients 0).wbp_ = none ∧
      close_call sample_half_closed ⟨upstream_read_op 0, true, []⟩ = none ∧
      step sample_half_closed ⟨upstream_read_op 0, true, []⟩ =
        some (client_splice.close 0
          (sample_half_closed.arrived ⟨upstream_read_op 0, true, []⟩).1) ∧
      (step sample_half_closed ⟨upstream_read_op 0, true, []⟩).map
          (fun w => (w.pending, w.bridge_instances, w.is_open (.upstream_socket_ 0),
            w.is_open (.downstream_socket_ 0))) =
        some ([accept_op 1], [1], false, false) :=
  ⟨sample_half_closed_reachable, by decide, by decide, by decide, by decide, rfl, rfl,
    by decide⟩

/-- C3 (amended): in a reachable state, a read completion on either leg that
asio can deliver and that carries an error or reports 0 bytes transferred
carries an error (a read of 0 bytes is the end of the stream, the error `eof`),
and the read handler treats it as terminal: it returns, issues no operation,
hands nothing to `async_write`, and the leg's socket ends closed.  When the
bridge is still registered the handler invokes the bridge's `close()`: both
sockets end closed and the bridge is deregistered.  When the bridge has left
the registry already, `wbp_.lock()` is null and the handler does not invoke the
bridge's `close()`: it calls the leg's own `close()`, and the registry is
unchanged. -/
theorem read_error_is_terminal (forward_host : String) (forward_port : Nat) (w : World)
    (hr : Reachable forward_host forward_port w) (b : Nat) (p : Operation) (hp : p ∈ w.pending)
    (hh : p.handler = .handle_upstream_read b ∨ p.handler = .handle_downstream_read b)
    (error : Bool) (data : List Nat)
    (hd : Completion.deliverable ⟨p, error, data⟩ = true)
    (hz : error = true ∨ (w.arrived ⟨p, error, data⟩).2 = 0) :
    error = true ∧
    ∃ w1, step w ⟨p, error, data⟩ = some w1 ∧
      w1.pending = w.pending.erase p ∧
      (∀ sock, written sock w1 = written sock w) ∧
      (p.handler = .handle_upstream_read b → w1.is_open (.upstream_socket_ b) = false) ∧
      (p.handler = .handle_downstream_read b → w1.is_open (.downstream_socket_ b) = false) ∧
      (b ∈ w.bridge_instances →
        close_call w ⟨p, error, data⟩ = some (b, (w.arrived ⟨p, error, data⟩).1) ∧
        bridge.close b (w.arrived ⟨p, error, data⟩).1 = some w1 ∧
        w1.is_open (.upstream_socket_ b) = false ∧ w1.is_open (.downstream_socket_ b) = false ∧
          b ∉ w1.bridge_instances) ∧
      (b ∉ w.bridge_instances →
        close_call w ⟨p, error, data⟩ = none ∧
        (p.handler = .handle_upstream_read b →
          w1 = client_splice.close b (w.arrived ⟨p, error, data⟩).1) ∧
        (p.handler = .handle_downstream_read b →
          w1 = server_splice.close b (w.arrived ⟨p, error, data⟩).1) ∧
        w1.bridge_instances = w.bridge_instances) := by
  have hI := hr.inv
  have hb : p.handler.bridge = some b := by
    rcases hh with h | h <;> simp [h, Handler.bridge]
  have hwf := hI.wf p hp
  have hst := hI.started hp hb
  have herr : error = true := by
    rcases hz with h | h
    · exact h
    · cases error with
      | true => rfl
      | false =>
        exfalso
        obtain ⟨req, hd1⟩ := p
        simp only at hh
        rcases hh with rfl | rfl
        · cases req <;> simp only [Operation.wf] at hwf
          obtain ⟨rfl, rfl, rfl⟩ := hwf
          simp only [World.arrived, Request.effect, List.length_take, max_data_length] at h
          simp only [Completion.deliverable, max_data_length] at hd
          cases data with
          | nil => simp at hd
          | cons x xs => simp at h
        · cases req <;> simp only [Operation.wf] at hwf
          obtain ⟨rfl, rfl, rfl⟩ := hwf
          simp only [World.arrived, Request.effect, List.length_take, max_data_length] at h
          simp only [Completion.deliverable, max_data_length] at hd
          cases data with
          | nil => simp at hd
          | cons x xs => simp at h
  subst herr
  refine ⟨rfl, ?_⟩
  obtain ⟨w1, hs, ht⟩ := hI.step_error hp hb data
  have hcall : close_call w ⟨p, true, data⟩ =
      if b ∈ w.bridge_instances then some (b, (w.arrived ⟨p, true, data⟩).1) else none := by
    obtain ⟨req, hd1⟩ := p
    simp only at hh
    rcases hh with rfl | rfl
    · cases req <;> simp only [Operation.wf] at hwf
      obtain ⟨rfl, rfl, rfl⟩ := hwf
      have hw := hI.wbp_client b hst.2
      simp only [close_call, if_true]
      rw [lock_bridge_eq _ _ b
        (by simpa [World.arrived, Request.effect, World.store, Function.update_apply] using hw)]
      by_cases hreg : b ∈ w.bridge_instances <;>
        simp [World.arrived, Request.effect, World.store, hreg]
    · cases req <;> simp only [Operation.wf] at hwf
      obtain ⟨rfl, rfl, rfl⟩ := hwf
      have hw := hI.wbp_server b hst.2
      simp only [close_call, if_true]
      rw [lock_bridge_eq _ _ b
        (by simpa [World.arrived, Request.effect, World.store, Function.update_apply] using hw)]
      by_cases hreg : b ∈ w.bridge_instances <;>
        simp [World.arrived, Request.effect, World.store, hreg]
  refine ⟨w1, hs, ht.pending, ht.written, ?_, ?_, ?_, ?_⟩
  · intro h
    exact ht.leg _ (by simp [h, Handler.leg])
  · intro h
    exact ht.leg _ (by simp [h, Handler.leg])
  · intro hreg
    have hc : close_call w ⟨p, true, data⟩ = some (b, (w.arrived ⟨p, true, data⟩).1) := by
      rw [hcall, if_pos hreg]
    refine ⟨hc, ?_, (ht.registered hreg).1, (ht.registered hreg).2.1, (ht.registered hreg).2.2.1⟩
    rw [← (hI.close_call_spec hp hc).1]
    exact hs
  · intro hreg
    refine ⟨by rw [hcall, if_neg hreg], ?_, ?_, ht.unregistered hreg⟩
    · intro h
      obtain ⟨req, hd1⟩ := p
      simp only at h
      subst h
      cases req <;> simp only [Operation.wf] at hwf
      obtain ⟨rfl, rfl, rfl⟩ := hwf
      have hw := hI.wbp_client b hst.2
      rw [step_eq_invoke hp] at hs
      simp only [Handler.invoke, client_splice.handle_upstream_read, Bool.true_eq_false,
        if_false, client_splice.on_error] at hs
      rw [lock_bridge_eq _ _ b
        (by simpa [World.arrived, Request.effect, World.store, Function.update_apply] using hw)]
        at hs
      rw [if_neg (by simpa [World.arrived, Request.effect, World.store] using hreg)] at hs
      exact (Option.some.inj hs).symm
    · intro h
      obtain ⟨req, hd1⟩ := p
      simp only at h
      subst h
      cases req <;> simp only [Operation.wf] at hwf
      obtain ⟨rfl, rfl, rfl⟩ := hwf
      have hw := hI.wbp_server b hst.2
      rw [step_eq_invoke hp] at hs
      simp only [Handler.invoke, server_splice.handle_downstream_read, Bool.true_eq_false,
        if_false, server_splice.on_error] at hs
      rw [lock_bridge_eq _ _ b
        (by simpa [World.arrived, Request.effect, World.store, Function.update_apply] using hw)]
        at hs
      rw [if_neg (by simpa [World.arrived, Request.effect, World.store] using hreg)] at hs
      exact (Option.some.inj hs).symm

/-- With both reads of bridge 0 outstanding, the client closes its connection:
the read on the downstream socket completes with the error `eof` and 0 bytes;
the bridge is closed and deregistered. -/
theorem read_error_is_terminal_witness :
    Reachable "192.0.2.7" 7 sample_relaying ∧
      downstream_read_op 0 ∈ sample_relaying.pending ∧
      Completion.deliverable ⟨downstream_read_op 0, true, []⟩ = true ∧
      (sample_relaying.arrived ⟨downstream_read_op 0, true, []⟩).2 = 0 ∧
      0 ∈ sample_relaying.bridge_instances ∧
      (true = true ∧
      ∃ w1, step sample_relaying ⟨downstream_read_op 0, true, []⟩ = some w1 ∧
        w1.pending = sample_relaying.pending.erase (downstream_read_op 0) ∧
        (∀ sock, written sock w1 = written sock sample_relaying) ∧
        ((downstream_read_op 0).handler = .handle_upstream_read 0 →
          w1.is_open (.upstream_socket_ 0) = false) ∧
        ((downstream_read_op 0).handler = .handle_downstream_read 0 →
          w1.is_open (.downstream_socket_ 0) = false) ∧
        (0 ∈ sample_relaying.bridge_instances →
          close_call sample_relaying ⟨downstream_read_op 0, true, []⟩ =
            some (0, (sample_relaying.arrived ⟨downstream_read_op 0, true, []⟩).1) ∧
          bridge.close 0 (sample_relaying.arrived ⟨downstream_read_op 0, true, []⟩).1 =
            some w1 ∧
          w1.is_open (.upstream_socket_ 0) = false ∧
            w1.is_open (.downstream_socket_ 0) = false ∧ 0 ∉ w1.bridge_instances) ∧
        (0 ∉ sample_relaying.bridge_instances →
          close_call sample_relaying ⟨downstream_read_op 0, true, []⟩ = none ∧
          ((downstream_read_op 0).handler = .handle_upstream_read 0 →
            w1 = client_splice.close 0
              (sample_relaying.arrived ⟨downstream_read_op 0, true, []⟩).1) ∧
          ((downstream_read_op 0).handler = .handle_downstream_read 0 →
            w1 = server_splice.close 0
              (sample_relaying.arrived ⟨downstream_read_op 0, true, []⟩).1) ∧
          w1.bridge_instances = sample_relaying.bridge_instances)) :=
  ⟨sample_relaying_reachable, by decide, by decide, by decide, by decide,
    read_error_is_terminal "192.0.2.7" 7 sample_relaying sample_relaying_reachable 0
      (downstream_read_op 0) (by decide) (Or.inr rfl) true [] (by decide) (Or.inr (by decide))⟩

/-! ## C4 -/

/-- C4: in a reachable state, when one of the four relay handlers of a bridge
`b` that is still registered is invoked with an error, the handler returns,
both sockets of `b` are closed, `b` is absent from `bridge_instances`, and no
operation has been issued. -/
theorem relay_error_closes_bridge (forward_host : String) (forward_port : Nat) (w : World)
    (hr : Reachable forward_host forward_port w) (b : Nat) (p : Operation) (hp : p ∈ w.pending)
    (hh : p.handler = .handle_upstream_read b ∨ p.handler = .handle_upstream_write b ∨
      p.handler = .handle_downstream_read b ∨ p.handler = .handle_downstream_write b)
    (hreg : b ∈ w.bridge_instances) (data : List Nat) :
    ∃ w1, step w ⟨p, true, data⟩ = some w1 ∧
      w1.is_open (.upstream_socket_ b) = false ∧
      w1.is_open (.downstream_socket_ b) = false ∧
      b ∉ w1.bridge_instances ∧
      w1.pending = w.pending.erase p := by
  have hb : p.handler.bridge = some b := by
    rcases hh with h | h | h | h <;> simp [h, Handler.bridge]
  obtain ⟨w1, hs, ht⟩ := hr.inv.step_error hp hb data
  exact ⟨w1, hs, (ht.registered hreg).1, (ht.registered hreg).2.1, (ht.registered hreg).2.2.1,
    ht.pending⟩

/-- After the client's "PING" has been read, the write of these bytes to the
upstream socket fails: the bridge is closed and deregistered. -/
theorem relay_error_closes_bridge_witness :
    Reachable "192.0.2.7" 7 sample_ping ∧
      upstream_write_op 0 4 ∈ sample_ping.pending ∧
      0 ∈ sample_ping.bridge_instances ∧
      ∃ w1, step sample_ping ⟨upstream_write_op 0 4, true, []⟩ = some w1 ∧
        w1.is_open (.upstream_socket_ 0) = false ∧
        w1.is_open (.downstream_socket_ 0) = false ∧
        0 ∉ w1.bridge_instances ∧
        w1.pending = sample_ping.pending.erase (upstream_write_op 0 4) :=
  ⟨sample_ping_reachable, by decide, by decide,
    relay_error_closes_bridge "192.0.2.7" 7 sample_ping sample_ping_reachable 0
      (upstream_write_op 0 4) (by decide) (Or.inr (Or.inl rfl)) (by decide) []⟩

/-! ## C5 -/

/-- When the registry has no duplicates and the bridge is not its last entry,
`bridge::close` returns with both sockets closed and the bridge deregistered,
and a second call changes nothing. -/
theorem bridge.close_idempotent {b : Nat} {w : World} (hnd : w.bridge_instances.Nodup)
    (hlast : w.bridge_instances.getLast? ≠ some b) :
    ∃ w1, bridge.close b w = some w1 ∧
      w1.is_open (.upstream_socket_ b) = false ∧ w1.is_open (.downstream_socket_ b) = false ∧
      b ∉ w1.bridge_instances ∧ bridge.close b w1 = some w1 := by
  have hb : b ∉ w.bridge_instances.erase b := by simp [hnd.mem_erase_iff]
  refine ⟨closed_world b w, bridge.close_of_not_last hnd hlast, ?_, ?_, hb, ?_⟩
  · simp [closed_world, World.set_open, World.is_open]
  · simp [closed_world, World.set_open, World.is_open]
  · have hnd1 : (closed_world b w).bridge_instances.Nodup := hnd.erase b
    have hlast1 : (closed_world b w).bridge_instances.getLast? ≠ some b := fun h =>
      hb (List.mem_of_getLast?_eq_some h)
    rw [bridge.close_of_not_last hnd1 hlast1]
    simp [closed_world, World.set_open, List.erase_of_not_mem hb]

/-- Whenever the bridge is the last entry of a registry without duplicates,
the loop of `bridge::close` runs beyond `end()`. -/
theorem bridge.close_of_last {b : Nat} {w : World} (hnd : w.bridge_instances.Nodup)
    (hlast : w.bridge_instances.getLast? = some b) : bridge.close b w = none := by
  rw [bridge_close_eq, erase_loop_nodup hnd, if_pos hlast]
  rfl

/-- C5 fails on the code: in the state in which `main` enters `ios.run()` the
registry is `[0]`; `close()` on bridge 0 erases the entry, which was the last
one, and the loop then advances its iterator beyond `end()`: the call has
undefined behaviour instead of returning with the bridge deregistered. -/
theorem close_of_last_entry_is_undefined :
    sample_start.bridge_instances = [0] ∧ bridge.close 0 sample_start = none :=
  ⟨by decide, rfl⟩

/-! ## C6 -/

/-- C6: in a reachable state, when the connect of a bridge `b` completes with
an error, `handle_upstream_connect` returns having issued no operation; nothing
was ever handed to `async_write` for either socket of `b`; the downstream
(inbound) socket and the upstream socket are closed and `b` is absent from
`bridge_instances`. -/
theorem failed_connect_closes_bridge (forward_host : String) (forward_port : Nat) (w : World)
    (hr : Reachable forward_host forward_port w) (b : Nat) (p : Operation) (hp : p ∈ w.pending)
    (hh : p.handler = .handle_upstream_connect b) (data : List Nat) :
    ∃ w1, step w ⟨p, true, data⟩ = some w1 ∧
      w1.pending = w.pending.erase p ∧
      written (.upstream_socket_ b) w1 = [] ∧
      written (.downstream_socket_ b) w1 = [] ∧
      w1.is_open (.downstream_socket_ b) = false ∧
      w1.is_open (.upstream_socket_ b) = false ∧
      b ∉ w1.bridge_instances := by
  have hI := hr.inv
  have hb : p.handler.bridge = some b := by simp [hh, Handler.bridge]
  obtain ⟨w1, hs, ht⟩ := hI.step_error hp hb data
  have hreg := ht.registered (hI.connect_registered p hp b hh)
  have hsilent := hI.connect_silent p hp b hh
  refine ⟨w1, hs, ht.pending, ?_, ?_, hreg.2.1, hreg.1, hreg.2.2.1⟩
  · rw [ht.written]
    exact log_written_of_bridge_ne _ _ hsilent
  · rw [ht.written]
    exact log_written_of_bridge_ne _ _ hsilent

/-- The first client has been accepted and the upstream refuses the connect. -/
theorem failed_connect_closes_bridge_witness :
    Reachable "192.0.2.7" 7 sample_connecting ∧
      connect_op 0 "192.0.2.7" 7 ∈ sample_connecting.pending ∧
      ∃ w1, step sample_connecting ⟨connect_op 0 "192.0.2.7" 7, true, []⟩ = some w1 ∧
        w1.pending = sample_connecting.pending.erase (connect_op 0 "192.0.2.7" 7) ∧
        written (.upstream_socket_ 0) w1 = [] ∧
        written (.downstream_socket_ 0) w1 = [] ∧
        w1.is_open (.downstream_socket_ 0) = false ∧
        w1.is_open (.upstream_socket_ 0) = false ∧
        0 ∉ w1.bridge_instances :=
  ⟨sample_connecting_reachable, by decide,
    failed_connect_closes_bridge "192.0.2.7" 7 sample_connecting sample_connecting_reachable 0
      (connect_op 0 "192.0.2.7" 7) (by decide) rfl []⟩

/-! ## C7 -/

/-- In every reachable state a connect that completes with an error is counted
in `num_client_connections_`, and not in `num_server_connections_`. -/
theorem failed_connect_is_counted (forward_host : String) (forward_port : Nat) (w : World)
    (hr : Reachable forward_host forward_port w) (b : Nat) (p : Operation) (hp : p ∈ w.pending)
    (hh : p.handler = .handle_upstream_connect b) (data : List Nat) :
    ∃ w1, step w ⟨p, true, data⟩ = some w1 ∧
      w1.num_client_connections_ = (w.num_client_connections_ + 1) % uint64_range ∧
      w1.num_server_connections_ = w.num_server_connections_ := by
  have hb : p.handler.bridge = some b := by simp [hh, Handler.bridge]
  obtain ⟨w1, hs, ht⟩ := hr.inv.step_error hp hb data
  exact ⟨w1, hs, by rw [ht.connected, if_pos hh], ht.accepted⟩

/-- C7 fails on the code: the first client is accepted and the upstream
refuses the connect; `handle_upstream_connect` increments
`num_client_connections_` before it looks at the error, so after the two
handlers the counters are 1 and 1, not 1 and 0. -/
theorem refused_connect_is_counted :
    (run sample_start
        [⟨accept_op 0, false, []⟩, ⟨connect_op 0 "192.0.2.7" 7, true, []⟩]).map
        (fun w => (w.num_server_connections_, w.num_client_connections_)) =
      some (1, 1) := by
  decide

/-! ## C8 -/

/-- C8, as stated, fails: the proxy is started with the forward host
`localhost`, which `ip::address::from_string` refuses, and the first accept
completes without error.  `handle_accept` increments
`num_server_connections_` to 1 and `bridge::start` throws: the handler does
not return, and in the state at the throw nothing is outstanding (no connect
was issued, no accept was armed), the registry still holds bridge 0 only and no
bridge has been constructed. -/
theorem accept_throws_at_host_name :
    accept_op 0 ∈ (main "localhost" 7).pending ∧
      ip.address.from_string "localhost" = none ∧
      step (main "localhost" 7) ⟨accept_op 0, false, []⟩ = none ∧
      (thrown (main "localhost" 7) ⟨accept_op 0, false, []⟩).map
          (fun w => (w.num_server_connections_, w.pending, w.bridge_instances, w.next)) =
        some (1, [], [0], 1) :=
  ⟨by decide, by decide, rfl, by decide⟩

/-- C8 (amended): in a reachable state, when the outstanding accept completes
without error and the configured forward host is the text of a numeric address
(one that `ip::address::from_string` accepts), `handle_accept` returns, no
exception is thrown; `num_server_connections_` is incremented by one (in
`uint64_t` arithmetic) and `num_client_connections_` is unchanged; the connect
of the bridge whose socket was accepted is issued to the configured host and
port; a bridge with a fresh identity is appended to `bridge_instances`, becomes
the session, and the accept on its downstream socket (not open, like its
upstream socket) is armed.  The number of registered bridges plays no part.
For any other forward host `handle_accept` does not return: `bridge::start`
throws after `num_server_connections_` has been incremented, and at the throw
no operation has been issued, no bridge has been constructed and the registry
and the session are unchanged. -/
theorem accept_connects_and_rearms (forward_host : String) (forward_port : Nat) (w : World)
    (hr : Reachable forward_host forward_port w) (p : Operation) (hp : p ∈ w.pending)
    (hh : p.handler = .handle_accept) (data : List Nat) :
    ∃ s, w.session_ = some s ∧ p = accept_op s ∧
      ((ip.address.from_string forward_host).isSome = true →
        ∃ w1, step w ⟨p, false, data⟩ = some w1 ∧
          thrown w ⟨p, false, data⟩ = none ∧
          w1.num_server_connections_ = (w.num_server_connections_ + 1) % uint64_range ∧
          (w.num_server_connections_ + 1 < uint64_range →
            w1.num_server_connections_ = w.num_server_connections_ + 1) ∧
          w1.num_client_connections_ = w.num_client_connections_ ∧
          w1.upstream_host_ = forward_host ∧ w1.upstream_port_ = forward_port ∧
          w1.pending = w.pending.erase p ++
            [connect_op s forward_host forward_port, accept_op w.next] ∧
          w.next ∉ w.bridge_instances ∧
          w1.bridge_instances = w.bridge_instances ++ [w.next] ∧
          w1.bridge_instances.length = w.bridge_instances.length + 1 ∧
          w1.session_ = some w.next ∧
          w1.is_open (.downstream_socket_ w.next) = false ∧
          w1.is_open (.upstream_socket_ w.next) = false) ∧
      (ip.address.from_string forward_host = none →
        step w ⟨p, false, data⟩ = none ∧
        ∃ w1, thrown w ⟨p, false, data⟩ = some w1 ∧
          w1.num_server_connections_ = (w.num_server_connections_ + 1) % uint64_range ∧
          w1.num_client_connections_ = w.num_client_connections_ ∧
          w1.pending = w.pending.erase p ∧
          w1.bridge_instances = w.bridge_instances ∧
          w1.session_ = w.session_ ∧ w1.next = w.next) := by
  have hI := hr.inv
  obtain ⟨s, hsess, hsreg, hslt⟩ := hI.session_registered
  obtain ⟨s1, hs1, hreq⟩ := hI.accept_session _ hp hh
  have hss : s1 = s := by rw [hsess] at hs1; exact (Option.some.inj hs1).symm
  subst hss
  obtain ⟨hhost, hport⟩ := hr.config
  have hpe : p = accept_op s1 := by
    obtain ⟨req, h⟩ := p
    simp only at hreq hh
    rw [hreq, hh]
    rfl
  subst hpe
  have hfresh : w.next ∉ w.bridge_instances := fun h =>
    Nat.lt_irrefl _ (hI.registered_lt _ h)
  subst hhost hport
  refine ⟨s1, hsess, rfl, fun hparse => ?_, fun hparse => ?_⟩
  · refine ⟨(acceptor.accept_connections
        (async_connect (.upstream_socket_ s1) w.upstream_host_ w.upstream_port_
          (.handle_upstream_connect s1)
          { World.set_open { w with pending := w.pending.erase (accept_op s1) } true
              (.downstream_socket_ s1) with
            num_server_connections_ := (w.num_server_connections_ + 1) % uint64_range })).2,
      ?_, ?_, rfl, ?_, rfl, rfl, rfl, ?_, hfresh, rfl, ?_, rfl, ?_, ?_⟩
    · rw [mem_pending_step hp]
      simp only [complete, Request.effect, Handler.invoke, accept_op]
      rw [handle_accept_returns]
      simp only [if_true]
      rw [lock_bridge_eq _ _ s1 (by simpa [World.set_open] using hsess)]
      simp only [World.set_open, hsreg, if_true]
      rw [if_pos hparse]
    · obtain ⟨a, ha⟩ := Option.isSome_iff_exists.mp hparse
      have hp2 := hp
      simp only [accept_op] at hp2
      simp only [thrown, hp2, if_true, accept_op, World.arrived, Request.effect,
        acceptor.handle_accept]
      rw [lock_bridge_eq _ _ s1 (by simpa [World.set_open] using hsess)]
      simp [bridge.start, World.set_open, hsreg, ha]
    · intro h
      exact Nat.mod_eq_of_lt h
    · simp [acceptor.accept_connections, bridge.new, bridge.init, async_accept,
        async_connect, client_splice.set_bridge, server_splice.set_bridge, World.set_open,
        connect_op, accept_op]
    · simp [acceptor.accept_connections, bridge.new, bridge.init, async_accept,
        async_connect, client_splice.set_bridge, server_splice.set_bridge, World.set_open]
    · simp [acceptor.accept_connections, bridge.new, bridge.init, async_accept,
        async_connect, client_splice.set_bridge, server_splice.set_bridge, World.set_open,
        World.is_open]
    · simp [acceptor.accept_connections, bridge.new, bridge.init, async_accept,
        async_connect, client_splice.set_bridge, server_splice.set_bridge, World.set_open,
        World.is_open]
  · constructor
    · rw [mem_pending_step hp]
      simp only [complete, Request.effect, Handler.invoke, accept_op]
      rw [handle_accept_returns]
      simp only [if_true]
      rw [lock_bridge_eq _ _ s1 (by simpa [World.set_open] using hsess)]
      simp [World.set_open, hsreg, hparse]
    · refine ⟨{ World.set_open { w with pending := w.pending.erase (accept_op s1) } true
            (.downstream_socket_ s1) with
          num_server_connections_ := (w.num_server_connections_ + 1) % uint64_range },
        ?_, rfl, ?_, ?_, ?_, ?_, ?_⟩
      · have hp2 := hp
        simp only [accept_op] at hp2
        simp only [thrown, hp2, if_true, accept_op, World.arrived, Request.effect,
          acceptor.handle_accept]
        rw [lock_bridge_eq _ _ s1 (by simpa [World.set_open] using hsess)]
        simp [bridge.start, World.set_open, hsreg, hparse]
      all_goals simp [World.set_open]

/-- The proxy has just started with the forward host 192.0.2.7 and the first
client is accepted. -/
theorem accept_connects_and_rearms_witness :
    Reachable "192.0.2.7" 7 sample_start ∧ accept_op 0 ∈ sample_start.pending ∧
      ip.address.from_string "192.0.2.7" = some (.v4 [192, 0, 2, 7]) ∧
      ∃ s, sample_start.session_ = some s ∧ accept_op 0 = accept_op s ∧
        ((ip.address.from_string "192.0.2.7").isSome = true →
          ∃ w1, step sample_start ⟨accept_op 0, false, []⟩ = some w1 ∧
            thrown sample_start ⟨accept_op 0, false, []⟩ = none ∧
            w1.num_server_connections_ =
              (sample_start.num_server_connections_ + 1) % uint64_range ∧
            (sample_start.num_server_connections_ + 1 < uint64_range →
              w1.num_server_connections_ = sample_start.num_server_connections_ + 1) ∧
            w1.num_client_connections_ = sample_start.num_client_connections_ ∧
            w1.upstream_host_ = "192.0.2.7" ∧ w1.upstream_port_ = 7 ∧
            w1.pending = sample_start.pending.erase (accept_op 0) ++
              [connect_op s "192.0.2.7" 7, accept_op sample_start.next] ∧
            sample_start.next ∉ sample_start.bridge_instances ∧
            w1.bridge_instances = sample_start.bridge_instances ++ [sample_start.next] ∧
            w1.bridge_instances.length = sample_start.bridge_instances.length + 1 ∧
            w1.session_ = some sample_start.next ∧
            w1.is_open (.downstream_socket_ sample_start.next) = false ∧
            w1.is_open (.upstream_socket_ sample_start.next) = false) ∧
        (ip.address.from_string "192.0.2.7" = none →
          step sample_start ⟨accept_op 0, false, []⟩ = none ∧
          ∃ w1, thrown sample_start ⟨accept_op 0, false, []⟩ = some w1 ∧
            w1.num_server_connections_ =
              (sample_start.num_server_connections_ + 1) % uint64_range ∧
            w1.num_client_connections_ = sample_start.num_client_connections_ ∧
            w1.pending = sample_start.pending.erase (accept_op 0) ∧
            w1.bridge_instances = sample_start.bridge_instances ∧
            w1.session_ = sample_start.session_ ∧ w1.next = sample_start.next) :=
  ⟨sample_start_reachable, by decide, by decide,
    accept_connects_and_rearms "192.0.2.7" 7 sample_start sample_start_reachable (accept_op 0)
      (by decide) rfl []⟩

/-! ## C9 -/

/-- C9: in a reachable state, when the outstanding accept completes with an
error, `handle_accept` returns and the state differs from the state before
only in that the accept is no longer outstanding: no operation is issued, no
bridge is constructed, the counters and the registry are unchanged.  From then
on, whatever completes, no accept is ever outstanding again, no bridge is
constructed and no connection is counted as accepted. -/
theorem accept_error_halts_intake (forward_host : String) (forward_port : Nat) (w : World)
    (hr : Reachable forward_host forward_port w) (p : Operation) (hp : p ∈ w.pending)
    (hh : p.handler = .handle_accept) (data : List Nat) :
    step w ⟨p, true, data⟩ = some { w with pending := w.pending.erase p } ∧
      ∀ cs w2, run { w with pending := w.pending.erase p } cs = some w2 →
        (∀ q ∈ w2.pending, q.handler ≠ .handle_accept) ∧ w2.next = w.next ∧
          w2.num_server_connections_ = w.num_server_connections_ := by
  have hI := hr.inv
  constructor
  · rw [mem_pending_step hp]
    obtain ⟨s1, hs1, hreq⟩ := hI.accept_session _ hp hh
    simp only [complete, Request.effect, Handler.invoke, hreq, hh]
    rw [handle_accept_returns]
    simp
  · intro cs w2 hrun
    have hnone : ∀ q ∈ w.pending.erase p, q.handler ≠ .handle_accept := by
      have hc := hI.accept_le
      rw [countP_erase_add _ _ _ hp] at hc
      have h0 : (w.pending.erase p).countP (fun q => q.handler.accepts) = 0 := by
        simpa [hh, Handler.accepts] using hc
      intro q hq hqa
      rw [List.countP_eq_zero] at h0
      exact h0 q hq (by simp [hqa, Handler.accepts])
    exact run_without_accept (w := { w with pending := w.pending.erase p }) hnone hrun

/-- The first accept of the proxy fails. -/
theorem accept_error_halts_intake_witness :
    Reachable "192.0.2.7" 7 sample_start ∧ accept_op 0 ∈ sample_start.pending ∧
      (step sample_start ⟨accept_op 0, true, []⟩ =
          some { sample_start with pending := sample_start.pending.erase (accept_op 0) } ∧
        ∀ cs w2,
          run { sample_start with pending := sample_start.pending.erase (accept_op 0) } cs =
              some w2 →
            (∀ q ∈ w2.pending, q.handler ≠ .handle_accept) ∧ w2.next = sample_start.next ∧
              w2.num_server_connections_ = sample_start.num_server_connections_) :=
  ⟨sample_start_reachable, by decide,
    accept_error_halts_intake "192.0.2.7" 7 sample_start sample_start_reachable (accept_op 0)
      (by decide) rfl []⟩

/-! ## C10 -/

/-- C10: in a reachable state, when the connect of a bridge `b` completes
without error, `handle_upstream_connect` returns; the peer pointer of the
outbound leg (`wssp_` of the client_splice) refers to the inbound leg and the
peer pointer of the inbound leg (`wcsp_` of the server_splice) refers to the
outbound leg; exactly two operations are issued: a read on the upstream socket
into `upstream_data_` and a read on the downstream socket into
`downstream_data_`, each for at most 8192 bytes; nothing is handed to
`async_write`, no socket changes its open state and the registry is
unchanged. -/
theorem connect_starts_both_reads (forward_host : String) (forward_port : Nat) (w : World)
    (hr : Reachable forward_host forward_port w) (b : Nat) (p : Operation) (hp : p ∈ w.pending)
    (hh : p.handler = .handle_upstream_connect b) (data : List Nat) :
    ∃ w1, step w ⟨p, false, data⟩ = some w1 ∧
      (w1.clients b).wssp_ = some b ∧ (w1.servers b).wcsp_ = some b ∧
      w1.pending = w.pending.erase p ++
        [⟨.async_read_some (.upstream_socket_ b) (.upstream_data_ b) 8192,
            .handle_upstream_read b⟩,
          ⟨.async_read_some (.downstream_socket_ b) (.downstream_data_ b) 8192,
            .handle_downstream_read b⟩] ∧
      w1.log = w.log ∧
      (∀ sock, w1.is_open sock = w.is_open sock) ∧
      w1.bridge_instances = w.bridge_instances := by
  have hI := hr.inv
  have hb : p.handler.bridge = some b := by simp [hh, Handler.bridge]
  have hst := hI.started hp hb
  have hreg := hI.connect_registered _ hp b hh
  have hwbp := hI.wbp_client b hst.2
  have hwf := hI.wf p hp
  rw [mem_pending_step hp]
  obtain ⟨req, h⟩ := p
  simp only at hh
  subst hh
  cases req <;> simp only [Operation.wf] at hwf
  subst hwf
  simp only [complete, Request.effect, Handler.invoke, client_splice.handle_upstream_connect,
    if_true]
  rw [lock_bridge_eq _ _ b hwbp]
  simp only [hreg, if_true]
  refine ⟨_, rfl, ?_, ?_, ?_, rfl, ?_, rfl⟩
  · simp [async_read_some, client_splice.set_ss, server_splice.set_cs]
  · simp [async_read_some, client_splice.set_ss, server_splice.set_cs]
  · simp [async_read_some, client_splice.set_ss, server_splice.set_cs, max_data_length]
  · intro sock
    cases sock <;>
      simp [async_read_some, client_splice.set_ss, server_splice.set_cs, World.is_open]

/-- The first client has been accepted and the connect to the upstream
succeeds. -/
theorem connect_starts_both_reads_witness :
    Reachable "192.0.2.7" 7 sample_connecting ∧
      connect_op 0 "192.0.2.7" 7 ∈ sample_connecting.pending ∧
      ∃ w1, step sample_connecting ⟨connect_op 0 "192.0.2.7" 7, false, []⟩ = some w1 ∧
        (w1.clients 0).wssp_ = some 0 ∧ (w1.servers 0).wcsp_ = some 0 ∧
        w1.pending = sample_connecting.pending.erase (connect_op 0 "192.0.2.7" 7) ++
          [⟨.async_read_some (.upstream_socket_ 0) (.upstream_data_ 0) 8192,
              .handle_upstream_read 0⟩,
            ⟨.async_read_some (.downstream_socket_ 0) (.downstream_data_ 0) 8192,
              .handle_downstream_read 0⟩] ∧
        w1.log = sample_connecting.log ∧
        (∀ sock, w1.is_open sock = sample_connecting.is_open sock) ∧
        w1.bridge_instances = sample_connecting.bridge_instances :=
  ⟨sample_connecting_reachable, by decide,
    connect_starts_both_reads "192.0.2.7" 7 sample_connecting sample_connecting_reachable 0
      (connect_op 0 "192.0.2.7" 7) (by decide) rfl []⟩

/-! ## C11 -/

/-- C11 fails on the code: in the reachable state in which the read on the
upstream socket has failed and closed the bridge, the write of the client's
four bytes to the upstream socket is still outstanding and completes without
error; `handle_upstream_write` then finds `wssp_.lock()` null and dereferences
it: the call has undefined behaviour and no read is re-armed. -/
theorem write_after_close_is_undefined :
    Reachable "192.0.2.7" 7 sample_write_orphaned ∧
      upstream_write_op 0 4 ∈ sample_write_orphaned.pending ∧
      0 ∉ sample_write_orphaned.bridge_instances ∧
      step sample_write_orphaned ⟨upstream_write_op 0 4, false, []⟩ = none :=
  ⟨sample_write_orphaned_reachable, by decide, by decide, rfl⟩

/-- What the write handlers do while the peer is alive: in a reachable state,
when a write completes without error and the leg that supplied the bytes is
still alive (the bridge is registered, or an outstanding operation holds that
splice), the write handler issues exactly one operation: a read of at most 8192
bytes on the socket of the leg that supplied the bytes, into that leg's array
(`handle_downstream_write`: the upstream socket and `upstream_data_`;
`handle_upstream_write`: the downstream socket and `downstream_data_`).  Nothing
is issued on the socket that was written to; the log, the sockets, the arrays
and the registry are unchanged. -/
theorem write_rearms_originating_leg (forward_host : String) (forward_port : Nat) (w : World)
    (hr : Reachable forward_host forward_port w) (b : Nat) (p : Operation) (hp : p ∈ w.pending)
    (data : List Nat) :
    (p.handler = .handle_downstream_write b →
      (b ∈ w.bridge_instances ∨
        ∃ q ∈ w.pending.erase p, q.handler.holds_client b = true) →
      ∃ w1, step w ⟨p, false, data⟩ = some w1 ∧
        w1.pending = w.pending.erase p ++
          [⟨.async_read_some (.upstream_socket_ b) (.upstream_data_ b) 8192,
            .handle_upstream_read b⟩] ∧
        w1.log = w.log ∧ w1.clients = w.clients ∧ w1.servers = w.servers ∧
        w1.bridge_instances = w.bridge_instances) ∧
    (p.handler = .handle_upstream_write b →
      (b ∈ w.bridge_instances ∨
        ∃ q ∈ w.pending.erase p, q.handler.holds_server b = true) →
      ∃ w1, step w ⟨p, false, data⟩ = some w1 ∧
        w1.pending = w.pending.erase p ++
          [⟨.async_read_some (.downstream_socket_ b) (.downstream_data_ b) 8192,
            .handle_downstream_read b⟩] ∧
        w1.log = w.log ∧ w1.clients = w.clients ∧ w1.servers = w.servers ∧
        w1.bridge_instances = w.bridge_instances) := by
  have hI := hr.inv
  have hwf := hI.wf p hp
  obtain ⟨req, h⟩ := p
  constructor
  · intro hh halive
    simp only at hh
    subst hh
    cases req <;> simp only [Operation.wf] at hwf
    obtain ⟨rfl, rfl⟩ := hwf
    exact ⟨_, Transition.step_eq hI hp (Transition.downstream_write b _ rfl rfl halive), rfl, rfl,
      rfl, rfl, rfl⟩
  · intro hh halive
    simp only at hh
    subst hh
    cases req <;> simp only [Operation.wf] at hwf
    obtain ⟨rfl, rfl⟩ := hwf
    exact ⟨_, Transition.step_eq hI hp (Transition.upstream_write b _ rfl rfl halive), rfl, rfl,
      rfl, rfl, rfl⟩

/-- After the client's "PING" has been read, the write of these bytes to the
upstream socket completes: one read on the downstream socket is issued. -/
theorem write_rearms_originating_leg_witness :
    Reachable "192.0.2.7" 7 sample_ping ∧
      upstream_write_op 0 4 ∈ sample_ping.pending ∧
      0 ∈ sample_ping.bridge_instances ∧
      ∃ w1, step sample_ping ⟨upstream_write_op 0 4, false, []⟩ = some w1 ∧
        w1.pending = sample_ping.pending.erase (upstream_write_op 0 4) ++
          [⟨.async_read_some (.downstream_socket_ 0) (.downstream_data_ 0) 8192,
            .handle_downstream_read 0⟩] ∧
        w1.log = sample_ping.log ∧ w1.clients = sample_ping.clients ∧
        w1.servers = sample_ping.servers ∧
        w1.bridge_instances = sample_ping.bridge_instances :=
  ⟨sample_ping_reachable, by decide, by decide,
    (write_rearms_originating_leg "192.0.2.7" 7 sample_ping sample_ping_reachable 0
      (upstream_write_op 0 4) (by decide) []).2 rfl (Or.inl (by decide))⟩

/-! ## C12 -/

/-- C12: in every state `w` a run of the event loop reaches, and for every
bridge `b`: in the direction from the upstream socket to the downstream socket
the outstanding reads (on the upstream socket) and writes (to the downstream
socket) are at most one in all, so at most one read, at most one write and
never both; likewise in the other direction.  The reads and writes the run has
issued in a direction, in the order of the calls, alternate read, write, read,
..., starting with a read, and an outstanding one is the last one issued.  No
read into an array is outstanding while a write from that array is. -/
theorem relay_operations_alternate (forward_host : String) (forward_port : Nat)
    (cs : List Completion) (w : World)
    (hrun : run (main forward_host forward_port) cs = some w) (b : Nat) :
    w.pending.countP (Operation.reads (.upstream_socket_ b)) +
        w.pending.countP (Operation.writes (.downstream_socket_ b)) ≤ 1 ∧
    w.pending.countP (Operation.reads (.downstream_socket_ b)) +
        w.pending.countP (Operation.writes (.upstream_socket_ b)) ≤ 1 ∧
    alternates true
        (((issued (main forward_host forward_port) cs).filter
          (Operation.relays (.upstream_socket_ b) (.downstream_socket_ b))).map
          (Operation.reads (.upstream_socket_ b))) = true ∧
    alternates true
        (((issued (main forward_host forward_port) cs).filter
          (Operation.relays (.downstream_socket_ b) (.upstream_socket_ b))).map
          (Operation.reads (.downstream_socket_ b))) = true ∧
    (∀ p ∈ w.pending, p.relays (.upstream_socket_ b) (.downstream_socket_ b) = true →
      ((issued (main forward_host forward_port) cs).filter
        (Operation.relays (.upstream_socket_ b) (.downstream_socket_ b))).getLast? = some p) ∧
    (∀ p ∈ w.pending, p.relays (.downstream_socket_ b) (.upstream_socket_ b) = true →
      ((issued (main forward_host forward_port) cs).filter
        (Operation.relays (.downstream_socket_ b) (.upstream_socket_ b))).getLast? = some p) ∧
    ∀ p ∈ w.pending, ∀ q ∈ w.pending, ∀ s1 s2 buf n1 n2,
      p.request = .async_read_some s1 buf n1 → q.request = .async_write s2 buf n2 → False := by
  have hI0 := Inv.main forward_host forward_port
  have hI : Inv w := hI0.run hrun
  have hud := Alternation.over_run (fun hI h hp hc => Alternation.step_up_to_down hI h hp hc) hI0
    (Alternation.at_start_of (Operation.relays (.upstream_socket_ b) (.downstream_socket_ b))
      (Operation.reads (.upstream_socket_ b)) b forward_host forward_port
      (fun s => by simp [Operation.relays, Operation.reads, Operation.writes, accept_op])) hrun
  have hdu := Alternation.over_run (fun hI h hp hc => Alternation.step_down_to_up hI h hp hc) hI0
    (Alternation.at_start_of (Operation.relays (.downstream_socket_ b) (.upstream_socket_ b))
      (Operation.reads (.downstream_socket_ b)) b forward_host forward_port
      (fun s => by simp [Operation.relays, Operation.reads, Operation.writes, accept_op])) hrun
  simp only [List.nil_append] at hud hdu
  exact ⟨(hI.one_outstanding b).1, (hI.one_outstanding b).2, hud.alt, hdu.alt, hud.last, hdu.last,
    fun p hp q hq _ _ _ _ _ hpr hqr => hI.buffer_not_shared hp hq hpr hqr⟩

/-- The client's "PING" is read, written to the upstream, and the read on the
client's socket is issued again: in the direction from the downstream socket to
the upstream socket of bridge 0 the run issues a read, a write and a read. -/
theorem relay_operations_alternate_witness :
    run (main "192.0.2.7" 7) sample_cycle_run = some sample_cycle ∧
      (issued (main "192.0.2.7" 7) sample_cycle_run).filter
          (Operation.relays (.downstream_socket_ 0) (.upstream_socket_ 0)) =
        [downstream_read_op 0, upstream_write_op 0 4, downstream_read_op 0] ∧
      (sample_cycle.pending.countP (Operation.reads (.upstream_socket_ 0)) +
          sample_cycle.pending.countP (Operation.writes (.downstream_socket_ 0)) ≤ 1 ∧
      sample_cycle.pending.countP (Operation.reads (.downstream_socket_ 0)) +
          sample_cycle.pending.countP (Operation.writes (.upstream_socket_ 0)) ≤ 1 ∧
      alternates true
          (((issued (main "192.0.2.7" 7) sample_cycle_run).filter
            (Operation.relays (.upstream_socket_ 0) (.downstream_socket_ 0))).map
            (Operation.reads (.upstream_socket_ 0))) = true ∧
      alternates true
          (((issued (main "192.0.2.7" 7) sample_cycle_run).filter
            (Operation.relays (.downstream_socket_ 0) (.upstream_socket_ 0))).map
            (Operation.reads (.downstream_socket_ 0))) = true ∧
      (∀ p ∈ sample_cycle.pending,
        p.relays (.upstream_socket_ 0) (.downstream_socket_ 0) = true →
        ((issued (main "192.0.2.7" 7) sample_cycle_run).filter
          (Operation.relays (.upstream_socket_ 0) (.downstream_socket_ 0))).getLast? = some p) ∧
      (∀ p ∈ sample_cycle.pending,
        p.relays (.downstream_socket_ 0) (.upstream_socket_ 0) = true →
        ((issued (main "192.0.2.7" 7) sample_cycle_run).filter
          (Operation.relays (.downstream_socket_ 0) (.upstream_socket_ 0))).getLast? = some p) ∧
      ∀ p ∈ sample_cycle.pending, ∀ q ∈ sample_cycle.pending, ∀ s1 s2 buf n1 n2,
        p.request = .async_read_some s1 buf n1 → q.request = .async_write s2 buf n2 → False) :=
  ⟨rfl, by decide,
    relay_operations_alternate "192.0.2.7" 7 sample_cycle_run sample_cycle rfl 0⟩

/-! ## C13 -/

/-- C13: in every state `w` a run of the event loop reaches, and for every
bridge `b` that has been constructed (`b < w.next`): `b` is in
`bridge_instances` if and only if the run has not closed both of its sockets.
More precisely, no socket of a registered bridge has been closed by a `close()`
call, and both sockets of a bridge that has left the registry have been closed
by one and are not open. -/
theorem registered_iff_not_closed (forward_host : String) (forward_port : Nat)
    (cs : List Completion) (w : World)
    (hrun : run (main forward_host forward_port) cs = some w) (b : Nat) (hb : b < w.next) :
    (b ∈ w.bridge_instances ↔
      ¬ (closed_in (main forward_host forward_port) cs (.upstream_socket_ b) = true ∧
        closed_in (main forward_host forward_port) cs (.downstream_socket_ b) = true)) ∧
    (b ∈ w.bridge_instances →
      closed_in (main forward_host forward_port) cs (.upstream_socket_ b) = false ∧
        closed_in (main forward_host forward_port) cs (.downstream_socket_ b) = false) ∧
    (b ∉ w.bridge_instances →
      closed_in (main forward_host forward_port) cs (.upstream_socket_ b) = true ∧
        closed_in (main forward_host forward_port) cs (.downstream_socket_ b) = true ∧
        w.is_open (.upstream_socket_ b) = false ∧ w.is_open (.downstream_socket_ b) = false) := by
  have hI : Inv w := (Inv.main forward_host forward_port).run hrun
  have hC := (Closure.at_start forward_host forward_port).along_run
    (Inv.main forward_host forward_port) hrun
  simp only [Bool.false_or] at hC
  have hreg : b ∈ w.bridge_instances →
      closed_in (main forward_host forward_port) cs (.upstream_socket_ b) = false ∧
        closed_in (main forward_host forward_port) cs (.downstream_socket_ b) = false := by
    intro h
    constructor
    · cases hk : closed_in (main forward_host forward_port) cs (.upstream_socket_ b) with
      | false => rfl
      | true => exact absurd h (hC.unregistered _ hk).2
    · cases hk : closed_in (main forward_host forward_port) cs (.downstream_socket_ b) with
      | false => rfl
      | true => exact absurd h (hC.unregistered _ hk).2
  have hunreg := hC.both b hb
  refine ⟨⟨fun h hboth => ?_, fun h => ?_⟩, hreg, fun h => ?_⟩
  · rw [(hreg h).1] at hboth
    simp at hboth
  · by_contra hn
    exact h (hunreg hn)
  · have hcl := hI.closed_of_unregistered b hb h
    exact ⟨(hunreg h).1, (hunreg h).2, hcl.1, hcl.2⟩

/-- The first client was accepted and connected, then the read on its socket
failed: bridge 0 has left the registry and both its sockets were closed, while
bridge 1, which awaits the accept, is registered and none of its sockets was
closed. -/
theorem registered_iff_not_closed_witness :
    run (main "192.0.2.7" 7) sample_half_closed_run = some sample_half_closed ∧
      0 < sample_half_closed.next ∧ 0 ∉ sample_half_closed.bridge_instances ∧
      closed_in (main "192.0.2.7" 7) sample_half_closed_run (.upstream_socket_ 0) = true ∧
      ((0 ∈ sample_half_closed.bridge_instances ↔
        ¬ (closed_in (main "192.0.2.7" 7) sample_half_closed_run (.upstream_socket_ 0) = true ∧
          closed_in (main "192.0.2.7" 7) sample_half_closed_run (.downstream_socket_ 0) = true)) ∧
      (0 ∈ sample_half_closed.bridge_instances →
        closed_in (main "192.0.2.7" 7) sample_half_closed_run (.upstream_socket_ 0) = false ∧
          closed_in (main "192.0.2.7" 7) sample_half_closed_run (.downstream_socket_ 0) = false) ∧
      (0 ∉ sample_half_closed.bridge_instances →
        closed_in (main "192.0.2.7" 7) sample_half_closed_run (.upstream_socket_ 0) = true ∧
          closed_in (main "192.0.2.7" 7) sample_half_closed_run (.downstream_socket_ 0) = true ∧
          sample_half_closed.is_open (.upstream_socket_ 0) = false ∧
          sample_half_closed.is_open (.downstream_socket_ 0) = false)) :=
  ⟨rfl, by decide, by decide, by decide,
    registered_iff_not_closed "192.0.2.7" 7 sample_half_closed_run sample_half_closed rfl 0
      (by decide)⟩

/-! ## C14 -/

/-- C14: in a reachable state with two distinct registered bridges `a` and `b`,
when an outstanding operation bound to a splice of `a` (connect, read or write)
completes, with or without error and with whatever bytes, its handler returns
and: every operation it issues is on a socket of `a`; every socket whose open
state changes is a socket of `a`; every event it adds to the log of reads and
writes is about a socket of `a`; the splices of `b` (sockets, arrays, `wbp_`,
`wssp_`, `wcsp_`) are unchanged, `b` is still registered and the operations of
`b` are still outstanding; the bytes written to and read from the sockets of `b`
are unchanged.  Had other bytes `data2` been read on the socket of `a`, the
splices of `b` and the bytes written to the sockets of `b` would be the same. -/
theorem handler_is_confined_to_its_bridge (forward_host : String) (forward_port : Nat)
    (w : World) (hr : Reachable forward_host forward_port w) (a b : Nat)
    (ha : a ∈ w.bridge_instances) (hb : b ∈ w.bridge_instances) (hab : a ≠ b)
    (p : Operation) (hp : p ∈ w.pending) (hpa : p.handler.bridge = some a) (error : Bool)
    (data : List Nat) :
    ∃ w1, step w ⟨p, error, data⟩ = some w1 ∧
      (∃ ops, w1.pending = w.pending.erase p ++ ops ∧
        ∀ q ∈ ops, q.request.socket.bridge = a) ∧
      (∀ sock, w1.is_open sock ≠ w.is_open sock → sock.bridge = a) ∧
      (∃ events, w1.log = w.log ++ events ∧ ∀ e ∈ events, e.bridge = a) ∧
      w1.clients b = w.clients b ∧ w1.servers b = w.servers b ∧
      b ∈ w1.bridge_instances ∧
      (∀ q ∈ w.pending, q.handler.bridge = some b → q ∈ w1.pending) ∧
      (∀ sock, sock.bridge = b →
        written sock w1 = written sock w ∧ delivered sock w1 = delivered sock w) ∧
      ∀ data2, ∃ w2, step w ⟨p, error, data2⟩ = some w2 ∧
        w2.clients b = w1.clients b ∧ w2.servers b = w1.servers b ∧
        ∀ sock, sock.bridge = b → written sock w2 = written sock w1 := by
  have hI := hr.inv
  have hba : b ≠ a := fun h => hab h.symm
  obtain ⟨w1, hs⟩ := hI.defined_of_registered hp hpa ha error data
  obtain ⟨hconf, ⟨ops, hpend, hops⟩, hreg, hopen⟩ := (hI.change_of_step hs).bound hpa
  refine ⟨w1, hs, ⟨ops, hpend, fun q hq => (hops q hq).1⟩, hopen, hconf.log,
    hconf.clients b hba, hconf.servers b hba, (hreg b hba).mpr hb, ?_, ?_, ?_⟩
  · intro q hq hqb
    rw [hpend]
    refine List.mem_append_left _ ((List.mem_erase_of_ne ?_).mpr hq)
    intro h
    rw [h, hpa] at hqb
    exact hab (Option.some.inj hqb)
  · intro sock hsock
    exact hconf.traffic (by rw [hsock]; exact hba)
  · intro data2
    obtain ⟨w2, hs2⟩ := hI.defined_of_registered hp hpa ha error data2
    have hconf2 := ((hI.change_of_step hs2).bound hpa).1
    refine ⟨w2, hs2, ?_, ?_, ?_⟩
    · rw [hconf2.clients b hba, hconf.clients b hba]
    · rw [hconf2.servers b hba, hconf.servers b hba]
    · intro sock hsock
      have hne : sock.bridge ≠ a := by rw [hsock]; exact hba
      rw [(hconf2.traffic hne).1, (hconf.traffic hne).1]

/-- Two clients have been accepted (bridges 0 and 1), and bridge 1 is connected
to the upstream; a read on bridge 1 delivers four bytes. -/
theorem handler_is_confined_to_its_bridge_witness :
    Reachable "192.0.2.7" 7 sample_two_bridges ∧
      1 ∈ sample_two_bridges.bridge_instances ∧ 0 ∈ sample_two_bridges.bridge_instances ∧
      (1 : Nat) ≠ 0 ∧ upstream_read_op 1 ∈ sample_two_bridges.pending ∧
      (upstream_read_op 1).handler.bridge = some 1 ∧
      ∃ w1,
        step sample_two_bridges ⟨upstream_read_op 1, false, [80, 79, 78, 71]⟩ = some w1 ∧
        (∃ ops, w1.pending = sample_two_bridges.pending.erase (upstream_read_op 1) ++ ops ∧
          ∀ q ∈ ops, q.request.socket.bridge = 1) ∧
        (∀ sock, w1.is_open sock ≠ sample_two_bridges.is_open sock → sock.bridge = 1) ∧
        (∃ events,
          w1.log = sample_two_bridges.log ++ events ∧ ∀ e ∈ events, e.bridge = 1) ∧
        w1.clients 0 = sample_two_bridges.clients 0 ∧
        w1.servers 0 = sample_two_bridges.servers 0 ∧
        0 ∈ w1.bridge_instances ∧
        (∀ q ∈ sample_two_bridges.pending, q.handler.bridge = some 0 → q ∈ w1.pending) ∧
        (∀ sock, sock.bridge = 0 →
          written sock w1 = written sock sample_two_bridges ∧
            delivered sock w1 = delivered sock sample_two_bridges) ∧
        ∀ data2, ∃ w2,
          step sample_two_bridges ⟨upstream_read_op 1, false, data2⟩ = some w2 ∧
          w2.clients 0 = w1.clients 0 ∧ w2.servers 0 = w1.servers 0 ∧
          ∀ sock, sock.bridge = 0 → written sock w2 = written sock w1 :=
  ⟨sample_two_bridges_reachable, by decide, by decide, by decide, by decide, rfl,
    handler_is_confined_to_its_bridge "192.0.2.7" 7 sample_two_bridges
      sample_two_bridges_reachable 1 0 (by decide) (by decide) (by decide) (upstream_read_op 1)
      (by decide) rfl false [80, 79, 78, 71]⟩

/-- No leakage between bridges over whole runs: when two runs of the event
loop differ only in the bytes that arrive on operations of bridges other than
`b` (and so in the lengths of the writes that follow), they leave bridge `b`
the same: the bytes written to and read from its sockets, its splices, its
outstanding operations and whether it is registered. -/
theorem bridges_do_not_interfere (forward_host : String) (forward_port : Nat) (b : Nat)
    (cs cs2 : List Completion) (w w2 : World)
    (hrun : run (main forward_host forward_port) cs = some w)
    (hrun2 : run (main forward_host forward_port) cs2 = some w2)
    (hsame : List.Forall₂ (Completion.same_for b) cs cs2) :
    (∀ sock : Socket, sock.bridge = b →
      written sock w = written sock w2 ∧ delivered sock w = delivered sock w2) ∧
    w.clients b = w2.clients b ∧ w.servers b = w2.servers b ∧
    (b ∈ w.bridge_instances ↔ b ∈ w2.bridge_instances) ∧
    w.pending.filter (fun q => decide (q.handler.bridge = some b)) =
      w2.pending.filter (fun q => decide (q.handler.bridge = some b)) := by
  have hA := Agree.kept_by_runs hsame (Inv.main forward_host forward_port)
    (Inv.main forward_host forward_port) (Agree.same_state b _) hrun hrun2
  exact ⟨fun sock hs => ⟨hA.written sock hs, hA.delivered sock hs⟩, hA.clients, hA.servers,
    hA.registered, hA.pending⟩

/-- Two clients are connected; the upstream answers the second one with
"PONG" in one run and with two other bytes in the other run: what the first
client's bridge has read and written is the same in both. -/
theorem bridges_do_not_interfere_witness :
    (run (main "192.0.2.7" 7) sample_pong_run).isSome = true ∧
      (run (main "192.0.2.7" 7) sample_other_run).isSome = true ∧
      (run (main "192.0.2.7" 7) sample_pong_run).map (written (.downstream_socket_ 1)) =
        some [80, 79, 78, 71] ∧
      (run (main "192.0.2.7" 7) sample_other_run).map (written (.downstream_socket_ 1)) =
        some [78, 79] ∧
      ∀ w w2, run (main "192.0.2.7" 7) sample_pong_run = some w →
        run (main "192.0.2.7" 7) sample_other_run = some w2 →
        (∀ sock : Socket, sock.bridge = 0 →
          written sock w = written sock w2 ∧ delivered sock w = delivered sock w2) ∧
        w.clients 0 = w2.clients 0 ∧ w.servers 0 = w2.servers 0 ∧
        (0 ∈ w.bridge_instances ↔ 0 ∈ w2.bridge_instances) ∧
        w.pending.filter (fun q => decide (q.handler.bridge = some 0)) =
          w2.pending.filter (fun q => decide (q.handler.bridge = some 0)) :=
  ⟨by decide, by decide, by decide, by decide, fun w w2 h h2 =>
    bridges_do_not_interfere "192.0.2.7" 7 0 sample_pong_run sample_other_run w w2 h h2
      (.cons ⟨rfl, rfl, fun _ => rfl⟩ (.cons ⟨rfl, rfl, fun _ => rfl⟩
        (.cons ⟨rfl, rfl, fun _ => rfl⟩ (.cons ⟨rfl, rfl, fun _ => rfl⟩
          (.cons ⟨rfl, rfl, fun _ => rfl⟩
            (.cons ⟨rfl, rfl, fun h => absurd h (by decide)⟩
              (.cons ⟨rfl, rfl, fun h => absurd h (by decide)⟩ .nil)))))))⟩

/-! ## C15 -/

/-- In every reachable state, when a read or a write of a bridge that has left
the registry completes without error, the handler finds the peer dead
(`wssp_.lock()`, `wcsp_.lock()` is null) and the call is undefined. -/
theorem orphaned_completion_is_undefined (forward_host : String) (forward_port : Nat)
    (w : World) (hr : Reachable forward_host forward_port w) (b : Nat)
    (hb : b ∉ w.bridge_instances) (p : Operation) (hp : p ∈ w.pending)
    (hrel : p.handler.relays b = true) (data : List Nat) :
    step w ⟨p, false, data⟩ = none := by
  have hI := hr.inv
  have hpb := Handler.bridge_of_relays hrel
  have halone := hr.alone hb hp hpb
  cases hs : step w ⟨p, false, data⟩ with
  | none => rfl
  | some w1 =>
    exfalso
    have hdead : ∀ {P : Prop}, (b ∈ w.bridge_instances ∨ P) →
        (P → ∃ q ∈ w.pending.erase p, q.handler.bridge = some b) → False := by
      intro P h1 h2
      rcases h1 with h1 | h1
      · exact hb h1
      · obtain ⟨q, hq, hqb⟩ := h2 h1
        exact halone q hq hqb
    cases hI.change_of_step hs with
    | accepted s hop herr hsess hsreg pending registry session next log opened fresh clients
        servers =>
      simp only at hop
      subst hop
      simp [accept_op, Handler.relays] at hrel
    | refused s hop herr hsess eq => simp at herr
    | connected b1 host port hop herr hreg pending confined registry sockets =>
      simp only at hop
      subst hop
      simp [connect_op, Handler.relays] at hrel
    | upstream_read b1 n hop herr halive pending confined registry sockets =>
      simp only at hop halive
      subst hop
      simp only [upstream_read_op, Handler.relays, beq_iff_eq] at hrel
      subst hrel
      exact hdead halive fun ⟨q, hq, hh⟩ => ⟨q, hq, Handler.bridge_of_holds_server hh⟩
    | downstream_read b1 n hop herr halive pending confined registry sockets =>
      simp only at hop halive
      subst hop
      simp only [downstream_read_op, Handler.relays, beq_iff_eq] at hrel
      subst hrel
      exact hdead halive fun ⟨q, hq, hh⟩ => ⟨q, hq, Handler.bridge_of_holds_client hh⟩
    | upstream_write b1 n hop herr halive pending confined registry sockets =>
      simp only at hop halive
      subst hop
      simp only [upstream_write_op, Handler.relays, beq_iff_eq] at hrel
      subst hrel
      exact hdead halive fun ⟨q, hq, hh⟩ => ⟨q, hq, Handler.bridge_of_holds_server hh⟩
    | downstream_write b1 n hop herr halive pending confined registry sockets =>
      simp only at hop halive
      subst hop
      simp only [downstream_write_op, Handler.relays, beq_iff_eq] at hrel
      subst hrel
      exact hdead halive fun ⟨q, hq, hh⟩ => ⟨q, hq, Handler.bridge_of_holds_client hh⟩
    | failed b1 hb1 herr pending confined registered unregistered => simp at herr

/-- The read on the upstream socket has failed and closed bridge 0; the read on
the downstream socket completes without error. -/
theorem orphaned_completion_is_undefined_witness :
    Reachable "192.0.2.7" 7 sample_upstream_lost ∧ 0 ∉ sample_upstream_lost.bridge_instances ∧
      downstream_read_op 0 ∈ sample_upstream_lost.pending ∧
      step sample_upstream_lost ⟨downstream_read_op 0, false, [80, 73, 78, 71]⟩ = none :=
  ⟨sample_upstream_lost_reachable, by decide, by decide,
    orphaned_completion_is_undefined "192.0.2.7" 7 sample_upstream_lost
      sample_upstream_lost_reachable 0 (by decide) (downstream_read_op 0) (by decide) rfl _⟩

/-- C15 fails on the code: in the reachable state in which the read on the
upstream socket has failed and closed bridge 0, the read on the downstream
socket is still outstanding; the bridge has left the registry and nothing holds
the client_splice any more.  When that read completes without error (four bytes
from the client), `handle_downstream_read` runs with `wcsp_` set but expired:
`wcsp_.lock()` is null, and the handler dereferences it. -/
theorem peer_is_null_after_close :
    Reachable "192.0.2.7" 7 sample_upstream_lost ∧
      downstream_read_op 0 ∈ sample_upstream_lost.pending ∧
      0 ∉ sample_upstream_lost.bridge_instances ∧
      ((sample_upstream_lost.arrived ⟨downstream_read_op 0, false, [80, 73, 78, 71]⟩).1.servers
        0).wcsp_ = some 0 ∧
      lock_client
        (sample_upstream_lost.arrived ⟨downstream_read_op 0, false, [80, 73, 78, 71]⟩).1
        (some 0) = none ∧
      step sample_upstream_lost ⟨downstream_read_op 0, false, [80, 73, 78, 71]⟩ = none :=
  ⟨sample_upstream_lost_reachable, by decide, by decide, rfl, rfl, rfl⟩

/-! ## C17 -/

/-- C17: in every state reached by a run in which no accept completed with an
error, `bridge_instances` has no duplicate entries; its last element is the
bridge `session_` refers to, whose accept is outstanding, so `session_.lock()`
is not null; no operation bound to that bridge (connect, read or write) is
outstanding, and the only operation on one of its sockets is that accept.
Whenever the handler of a completion calls `bridge::close`, the bridge it is
called on is registered and is not the last entry of the registry, the loop over
the registry does not run beyond `end()`, and it leaves the registry without
that bridge, the other entries in their order, one entry shorter. -/
theorem close_never_erases_last_entry (forward_host : String) (forward_port : Nat)
    (cs : List Completion) (w : World)
    (hrun : run (main forward_host forward_port) cs = some w)
    (hok : ∀ c ∈ cs, c.op.handler = .handle_accept → c.error = false) :
    w.bridge_instances.Nodup ∧
    (∃ s, w.session_ = some s ∧ w.bridge_instances.getLast? = some s ∧
      accept_op s ∈ w.pending ∧ lock_bridge w w.session_ = some s ∧
      (∀ p ∈ w.pending, p.handler.bridge ≠ some s) ∧
      (∀ p ∈ w.pending, p.request.socket.bridge = s → p = accept_op s)) ∧
    ∀ c b w0, c.op ∈ w.pending → close_call w c = some (b, w0) →
      step w c = bridge.close b w0 ∧
      w0.bridge_instances = w.bridge_instances ∧
      b ∈ w.bridge_instances ∧
      w.bridge_instances.getLast? ≠ some b ∧
      bridge.erase_loop b [] w.bridge_instances =
        some (w.bridge_instances.filter fun x => x != b) ∧
      ∃ w1, bridge.close b w0 = some w1 ∧
        w1.bridge_instances = w.bridge_instances.filter (fun x => x != b) ∧
        w1.bridge_instances.length + 1 = w.bridge_instances.length := by
  have hI : Inv w := (Inv.main forward_host forward_port).run hrun
  obtain ⟨s, hsess, hacc⟩ := run_awaiting (Inv.main forward_host forward_port)
    (main_awaiting forward_host forward_port) hok hrun
  obtain ⟨s2, hs2, hsreg, -⟩ := hI.session_registered
  have hss : s2 = s := by rw [hsess] at hs2; exact (Option.some.inj hs2).symm
  subst hss
  obtain ⟨s3, hs3, hlast⟩ := hI.session
  have hss : s3 = s2 := by rw [hsess] at hs3; exact (Option.some.inj hs3).symm
  subst hss
  refine ⟨hI.nodup, ⟨s3, hsess, hlast, hacc, ?_, (hI.fresh s3 (Or.inl hsess)).1, ?_⟩, ?_⟩
  · rw [lock_bridge_eq _ _ s3 hsess, if_pos hsreg]
  · intro p hp hsock
    by_cases hh : p.handler = .handle_accept
    · obtain ⟨s4, hs4, hreq⟩ := hI.accept_session p hp hh
      have hss : s4 = s3 := by rw [hsess] at hs4; exact (Option.some.inj hs4).symm
      subst hss
      obtain ⟨req, h⟩ := p
      simp only at hh hreq
      rw [hh, hreq]
      rfl
    · exfalso
      have hb : ∃ b, p.handler.bridge = some b := by
        cases hp2 : p.handler <;> simp_all [Handler.bridge]
      obtain ⟨b, hb⟩ := hb
      have := Operation.socket_of_wf (hI.wf p hp) hb
      rw [hsock] at this
      exact (hI.fresh s3 (Or.inl hsess)).1 p hp (this ▸ hb)
  · intro c b w0 hp hcall
    obtain ⟨hstep, hreg0, hbreg, hcb⟩ := hI.close_call_spec hp hcall
    have hnl := hI.not_last hp hcb
    have hfilter := List.Nodup.erase_eq_filter hI.nodup b
    refine ⟨hstep, hreg0, hbreg, hnl, ?_, closed_world b w0, ?_, ?_, ?_⟩
    · rw [erase_loop_nodup hI.nodup, if_neg hnl, hfilter]
    · exact bridge.close_of_not_last (by rw [hreg0]; exact hI.nodup) (by rw [hreg0]; exact hnl)
    · simp only [closed_world, hreg0, hfilter]
    · simp only [closed_world, hreg0]
      rw [List.length_erase_of_mem hbreg]
      have : 0 < w.bridge_instances.length := List.length_pos_of_mem hbreg
      omega

/-- After the client's "PING" has been read: the registry is `[0, 1]`, bridge 1
awaits the accept, and a failure of the write to the upstream socket calls
`bridge::close` on bridge 0. -/
theorem close_never_erases_last_entry_witness :
    run (main "192.0.2.7" 7) sample_ping_run = some sample_ping ∧
      (∀ c ∈ sample_ping_run, c.op.handler = .handle_accept → c.error = false) ∧
      sample_ping.bridge_instances = [0, 1] ∧
      (close_call sample_ping ⟨upstream_write_op 0 4, true, []⟩).map (fun r => r.1) = some 0 ∧
      (sample_ping.bridge_instances.Nodup ∧
      (∃ s, sample_ping.session_ = some s ∧ sample_ping.bridge_instances.getLast? = some s ∧
        accept_op s ∈ sample_ping.pending ∧
        lock_bridge sample_ping sample_ping.session_ = some s ∧
        (∀ p ∈ sample_ping.pending, p.handler.bridge ≠ some s) ∧
        (∀ p ∈ sample_ping.pending, p.request.socket.bridge = s → p = accept_op s)) ∧
      ∀ c b w0, c.op ∈ sample_ping.pending → close_call sample_ping c = some (b, w0) →
        step sample_ping c = bridge.close b w0 ∧
        w0.bridge_instances = sample_ping.bridge_instances ∧
        b ∈ sample_ping.bridge_instances ∧
        sample_ping.bridge_instances.getLast? ≠ some b ∧
        bridge.erase_loop b [] sample_ping.bridge_instances =
          some (sample_ping.bridge_instances.filter fun x => x != b) ∧
        ∃ w1, bridge.close b w0 = some w1 ∧
          w1.bridge_instances = sample_ping.bridge_instances.filter (fun x => x != b) ∧
          w1.bridge_instances.length + 1 = sample_ping.bridge_instances.length) :=
  ⟨rfl, by decide, by decide, by decide,
    close_never_erases_last_entry "192.0.2.7" 7 sample_ping_run sample_ping rfl (by decide)⟩

end tcp_proxy
